import Mathlib

/-!
# Geometry-driven meshing orchestration (`libsrc/meshing/basegeom.cpp`)

A shallow embedding of the functions of `basegeom.cpp` and the properties
proved about them.

Conventions of the embedding.

* `double` values are rational numbers: arithmetic is exact, so rounding,
  infinities and NaN are outside the model.
* In the edge division rounding reaches the control flow through the target
  number of line 204 and the comparison of line 213.  The walk is therefore
  given a second time with that number and the outcome of that comparison as
  arguments (`divideBodyWith`, `DivideEdgeWith`); what is proved for every
  outcome holds for the `double` evaluation and for the exact one, and
  `DivideEdge` is the exact instance (`DivideEdge_eq_With`).
* The Euclidean norm `Vec<3>::Length` is not rational valued.  It is passed to
  every function that uses it as the argument `Length`; general theorems hold
  for every such function, concrete inputs use points on a coordinate axis,
  where `axisLength` is the exact Euclidean norm.
* Virtual methods of the geometric kernel (`GetPoint`, `GetCurvature`,
  `CalcEdgePointGI`, ...) are fields of the structures that stand for the
  kernel objects.
* A default-constructed object whose constructor is not part of this file is an
  explicit argument (`gi_uninit`, `seg_init`).
* The external 2D mesh engine is an argument of `MeshSurface`: a function from
  what the engine was given and the mesh to a result code and a mesh.
* An array of the source is a list.  Where array bounds matter, the accesses
  are listed with the size the array has at the moment of the access.
-/

namespace netgen

/-! ## Points -/

/-- A point or vector of 3-space (`Point<3>`, `Vec<3>`). -/
structure Point3 where
  x : ℚ
  y : ℚ
  z : ℚ
deriving DecidableEq

instance : Sub Point3 := ⟨fun a b => ⟨a.x - b.x, a.y - b.y, a.z - b.z⟩⟩

/-- The norm of a vector that lies on a coordinate axis; on such vectors it
is the Euclidean norm. -/
def axisLength (v : Point3) : ℚ := |v.x| + |v.y| + |v.z|

/-- A mesh point (`MeshPoint`): only its position is used in this file. -/
abbrev MeshPoint := Point3

/-- An index into the point table of the mesh (`PointIndex`), represented by
the position of the point in the table. -/
abbrev PointIndex := Nat

/-! ## Geometry information attached to points -/

/-- Parametric location on a face (`PointGeomInfo`). -/
structure PointGeomInfo where
  trignum : Int
  u : ℚ
  v : ℚ
deriving DecidableEq

/-- Parametric location of a segment end point (`EdgePointGeomInfo`); the
fields are those this file reads or writes. -/
structure EdgePointGeomInfo where
  edgenr : Nat
  dist : ℚ
  u : ℚ
  v : ℚ
deriving DecidableEq

/-! ## Meshing parameters -/

/-- The fields of `MeshingParameters` read in this file. -/
structure MeshingParameters where
  maxh : ℚ
  minh : ℚ
  grading : ℚ
  curvaturesafety : ℚ
  segmentsperedge : ℚ
  uselocalh : Bool
  optsteps2d : Int
  optimize2d : List Char
  perfstepsstart : Int
  perfstepsend : Int
  meshsizefilename : String

/-! ## Geometric entities -/

/-- A vertex of the geometry (`GeometryVertex`). -/
structure GeometryVertex where
  GetPoint : Point3
  GetHash : Nat

/-- An edge of the geometry (`GeometryEdge`), parametrised over `[0, 1]`. -/
structure GeometryEdge where
  GetStartVertex : GeometryVertex
  GetEndVertex : GeometryVertex
  GetPoint : ℚ → Point3
  GetLength : ℚ

/-- A reference to an edge inside a boundary loop of a face: `edgenr` is the
value of `GetEdgeIndex` for it. -/
structure OrientedEdge where
  edgenr : Nat
  OrientedLikeGlobal : Bool
deriving DecidableEq

/-- A face of the geometry (`GeometryFace`); `boundaries` lists the loops
returned by `GetBoundary (0 .. GetNBoundaries-1)`. -/
structure GeometryFace where
  GetName : String
  GetPoint : PointGeomInfo → Point3
  GetCurvature : PointGeomInfo → ℚ
  boundaries : List (List OrientedEdge)
  CalcEdgePointGI : GeometryEdge → ℚ → EdgePointGeomInfo → EdgePointGeomInfo

/-! ## The mesh -/

/-- A face descriptor (`FaceDescriptor (surfnr, domin, domout, tlosurf)`) together
with the boundary-condition name attached by `SetBCName`. -/
structure FaceDescriptor where
  surfnr : Nat
  domin : Nat
  domout : Nat
  tlosurf : Nat
  bcname : String
deriving DecidableEq

/-- A boundary segment (`Segment`): `p0`, `p1` are `seg[0]`, `seg[1]` and
`epgeominfo0`, `epgeominfo1` are `seg.epgeominfo[0]`, `seg.epgeominfo[1]`. -/
structure Segment where
  p0 : PointIndex
  p1 : PointIndex
  edgenr : Nat
  epgeominfo0 : EdgePointGeomInfo
  epgeominfo1 : EdgePointGeomInfo
  si : Nat
  surfnr1 : Nat
deriving DecidableEq

/-- A surface element (`Element2d`): its face index and its points. -/
structure Element2d where
  index : Nat
  pnums : List PointIndex
deriving DecidableEq

/-- The parts of `Mesh` this file reads or writes: the size field (queried by
`GetH`), the point table, the segments, the surface elements, the face
descriptors and the boundary-condition names. -/
structure Mesh where
  geomtype : Nat
  GetH : Point3 → ℚ
  points : List MeshPoint
  segments : List Segment
  surfelements : List Element2d
  facedescriptors : List FaceDescriptor
  bcnames : List String

/-! ## `GeometryFace::RestrictHTrig` -/

/-- What a run of `RestrictHTrig` does, in program order: `enter` marks the
entry of a (nested) call with its arguments, `restrict` is a call of
`mesh.RestrictLocalH`. -/
inductive HTrigEvent where
  | enter (gi0 gi1 gi2 : PointGeomInfo) (depth : Int) (h : ℚ)
  | restrict (p : Point3) (h : ℚ)
deriving DecidableEq

/-- Lines 31-42: the length of the longest 3D edge and the edge to cut. -/
def longestEdge (Length : Point3 → ℚ) (p0 p1 p2 : Point3) : ℚ × Int :=
  let longest := Length (p0 - p1)
  let cutedge : Int := 2
  let (longest, cutedge) :=
    if Length (p0 - p2) > longest then (Length (p0 - p2), 1) else (longest, cutedge)
  let (longest, cutedge) :=
    if Length (p1 - p2) > longest then (Length (p1 - p2), 0) else (longest, cutedge)
  (longest, cutedge)

/-- Lines 47-59: the curvature test made when `depth % 3 == 0`.  The result
is `none` when the function returns at line 54 or 58, and otherwise the value
of `h` after the block. -/
def curvatureBlock (face : GeometryFace) (mparam : MeshingParameters)
    (gi0 gi1 gi2 gi_mid : PointGeomInfo) (depth : Int) (h longest : ℚ) : Option ℚ :=
  if depth.tmod 3 = 0 then
    let curvature : ℚ := 0
    let curvature := max curvature (max (face.GetCurvature gi_mid)
      (max (face.GetCurvature gi0) (max (face.GetCurvature gi1) (face.GetCurvature gi2))))
    if curvature < 1 / 1000 then none
    else
      let kappa := curvature * mparam.curvaturesafety
      let h := if mparam.maxh * kappa < 1 then mparam.maxh else 1 / kappa
      if h < 1 / 10000 * longest then none else some h
  else some h

/-- The function `GeometryFace::RestrictHTrig` (lines 21-94).  The result is the list
of events of the call; the size restrictions submitted to the mesh are its
`restrict` events. -/
def RestrictHTrig (Length : Point3 → ℚ) (face : GeometryFace) (gi_uninit : PointGeomInfo)
    (gi0 gi1 gi2 : PointGeomInfo) (mparam : MeshingParameters) (depth : Int) (h : ℚ) :
    List HTrigEvent :=
  let p0 := face.GetPoint gi0
  let p1 := face.GetPoint gi1
  let p2 := face.GetPoint gi2
  let longest := (longestEdge Length p0 p1 p2).1
  let cutedge := (longestEdge Length p0 p1 p2).2
  let gi_mid : PointGeomInfo :=
    { gi_uninit with u := (gi0.u + gi1.u + gi2.u) / 3, v := (gi0.v + gi1.v + gi2.v) / 3 }
  match curvatureBlock face mparam gi0 gi1 gi2 gi_mid depth h longest with
  | none => [HTrigEvent.enter gi0 gi1 gi2 depth h]
  | some h' =>
    if h' < longest ∧ depth < 10 then
      if cutedge = 0 then
        let gi_m : PointGeomInfo :=
          { gi_uninit with u := 1 / 2 * (gi1.u + gi2.u), v := 1 / 2 * (gi1.v + gi2.v) }
        HTrigEvent.enter gi0 gi1 gi2 depth h ::
          (RestrictHTrig Length face gi_uninit gi_m gi2 gi0 mparam (depth + 1) h' ++
           RestrictHTrig Length face gi_uninit gi_m gi0 gi1 mparam (depth + 1) h')
      else if cutedge = 1 then
        let gi_m : PointGeomInfo :=
          { gi_uninit with u := 1 / 2 * (gi0.u + gi2.u), v := 1 / 2 * (gi0.v + gi2.v) }
        HTrigEvent.enter gi0 gi1 gi2 depth h ::
          (RestrictHTrig Length face gi_uninit gi_m gi1 gi2 mparam (depth + 1) h' ++
           RestrictHTrig Length face gi_uninit gi_m gi0 gi1 mparam (depth + 1) h')
      else if cutedge = 2 then
        let gi_m : PointGeomInfo :=
          { gi_uninit with u := 1 / 2 * (gi0.u + gi1.u), v := 1 / 2 * (gi0.v + gi1.v) }
        HTrigEvent.enter gi0 gi1 gi2 depth h ::
          (RestrictHTrig Length face gi_uninit gi_m gi1 gi2 mparam (depth + 1) h' ++
           RestrictHTrig Length face gi_uninit gi_m gi2 gi0 mparam (depth + 1) h')
      else [HTrigEvent.enter gi0 gi1 gi2 depth h]
    else
      let pmid := face.GetPoint gi_mid
      HTrigEvent.enter gi0 gi1 gi2 depth h ::
        [HTrigEvent.restrict p0 h', HTrigEvent.restrict p1 h',
         HTrigEvent.restrict p2 h', HTrigEvent.restrict pmid h']
termination_by (10 - depth).toNat
decreasing_by
  all_goals simp_wf
  all_goals omega

/-! ## `GeometryEdge::GetEquidistantPointArray` and `NetgenGeometry::FindEdges` -/

/-- The function `GeometryEdge::GetEquidistantPointArray` (lines 13-19). -/
def GeometryEdge.GetEquidistantPointArray (edge : GeometryEdge) (npoints : Nat) :
    List Point3 :=
  (List.range npoints).map fun (i : Nat) => edge.GetPoint ((i : ℚ) / ((npoints - 1 : Nat) : ℚ))

/-- The geometry (`NetgenGeometry`): its vertices, edges and faces and the
diameter `bounding_box.Diam()` of its bounding box. -/
structure NetgenGeometry where
  vertices : List GeometryVertex
  edges : List GeometryEdge
  faces : List GeometryFace
  bounding_box_Diam : ℚ

/-- The constant `divide_edge_sections` (line 194). -/
def divide_edge_sections : Nat := 1000

/-- The array `hvalue` after the loop of lines 197-203, as a function of the
index: `hvalue[0] = 0` and `hvalue[i+1] = hvalue[i] + 1/GetH(edgepts[i+1]) *
|edgepts[i+1] - edgepts[i]|`.  The source fills the indices `0 ..
divide_edge_sections`. -/
def hvalue (Length : Point3 → ℚ) (GetH : Point3 → ℚ) (edgepts : List Point3) : Nat → ℚ
  | 0 => 0
  | i + 1 =>
    hvalue Length GetH edgepts i +
      1 / GetH (edgepts.getD (i + 1) ⟨0, 0, 0⟩) *
        Length (edgepts.getD (i + 1) ⟨0, 0, 0⟩ - edgepts.getD i ⟨0, 0, 0⟩)

/-- The method `Array::SetSize`: the first entries are kept; a new entry is not
initialised by the source, `fill` stands for its content. -/
def SetSize {α : Type} (a : List α) (n : Nat) (fill : α) : List α :=
  a.take n ++ List.replicate (n - a.length) fill

/-- The variables of the quantile walk (lines 209-228).  The `int` variables are
natural numbers: `nsubedges` is at least 1 and `i`, `i1` only grow from 1
and 0. -/
structure DivideState where
  i : Nat
  i1 : Nat
  nsubedges : Nat
  mps : List MeshPoint
  params : List ℚ

/-- The body of the `do ... while` loop (lines 212-227).  `hv` is the array
`hvalue`.  An assignment to an array entry is `List.set`. -/
def divideBody (edge : GeometryEdge) (hv : Nat → ℚ) (s : DivideState) : DivideState :=
  let s : DivideState :=
    if hv s.i1 / hv divide_edge_sections * (s.nsubedges : ℚ) ≥ (s.i : ℚ) then
      let params := s.params.set s.i ((s.i1 : ℚ) / (divide_edge_sections : ℚ))
      let mps := s.mps.set (s.i - 1) (edge.GetPoint (params.getD s.i 0))
      { s with params := params, mps := mps, i := s.i + 1 }
    else s
  let s : DivideState := { s with i1 := s.i1 + 1 }
  if s.i1 > divide_edge_sections then
    { s with
      nsubedges := s.i
      mps := SetSize s.mps (s.i - 1) ⟨0, 0, 0⟩
      params := SetSize s.params (s.i + 1) 0 }
  else s

/-- The `do ... while (i < nsubedges)` loop of lines 211-228, run for at most
`fuel` passes of the body. -/
def divideLoop (edge : GeometryEdge) (hv : Nat → ℚ) : Nat → DivideState → DivideState
  | 0, s => s
  | fuel + 1, s =>
    let s := divideBody edge hv s
    if s.i < s.nsubedges then divideLoop edge hv fuel s else s

/-- The target number of segments of line 204,
`max2 (1, int (floor (hvalue[divide_edge_sections] + 0.5)))`. -/
def targetSegments (hv : Nat → ℚ) : Nat :=
  (max 1 ⌊hv divide_edge_sections + 1 / 2⌋).toNat

/-- The state of the walk when the loop is left: the loop is started with
`i = 1`, `i1 = 0` and arrays of `nsubedges - 1` points and `nsubedges + 1`
parameters.  Each pass increases `i1`, and the loop is left when `i1` exceeds
`divide_edge_sections`, so `divide_edge_sections + 1` passes are enough. -/
def divideWalk (edge : GeometryEdge) (hv : Nat → ℚ) : DivideState :=
  let nsubedges := targetSegments hv
  divideLoop edge hv (divide_edge_sections + 1)
    { i := 1, i1 := 0, nsubedges := nsubedges
      mps := SetSize [] (nsubedges - 1) ⟨0, 0, 0⟩
      params := SetSize [] (nsubedges + 1) 0 }

/-- Lines 230-239: the end parameters are set and, when the last two parameters
coincide or are inverted, the last interior point is dropped.  In that branch
the assignment `params[nsubedges] = 1.` follows `params.SetSize (nsubedges)`:
the index is the size of the array, and the assignment leaves the entries
`0 .. nsubedges-1` as they are. -/
def fixEnds (s : DivideState) : List MeshPoint × List ℚ :=
  let params := s.params.set 0 0
  let params := params.set s.nsubedges 1
  if params.getD s.nsubedges 0 ≤ params.getD (s.nsubedges - 1) 0 then
    let mps := SetSize s.mps (s.nsubedges - 2) ⟨0, 0, 0⟩
    let params := SetSize params s.nsubedges 0
    let params := params.set s.nsubedges 1
    (mps, params)
  else (s.mps, params)

/-- The array `hvalue` of an edge (lines 196-203), computed from the
`divide_edge_sections + 1` equidistant points of the edge. -/
def edgeHvalue (Length : Point3 → ℚ) (GetH : Point3 → ℚ) (edge : GeometryEdge) : Nat → ℚ :=
  hvalue Length GetH (edge.GetEquidistantPointArray (divide_edge_sections + 1))

/-- The block "DivideEdge" of `FindEdges` (lines 194-240): the interior points
`mps` and the parameters `params` of the division of an edge. -/
def DivideEdge (Length : Point3 → ℚ) (GetH : Point3 → ℚ) (edge : GeometryEdge) :
    List MeshPoint × List ℚ :=
  fixEnds (divideWalk edge (edgeHvalue Length GetH edge))

/-- Lines 250-261: the index of the first mesh point closer than `eps` to `mp`,
or the index of `mp` added as a new point. -/
def findOrAddPoint (Length : Point3 → ℚ) (eps : ℚ) (mesh : Mesh) (mp : MeshPoint) :
    Mesh × PointIndex :=
  match mesh.points.findIdx? (fun p => decide (Length (p - mp) < eps)) with
  | some pi => (mesh, pi)
  | none => ({ mesh with points := mesh.points ++ [mp] }, mesh.points.length)

/-- Lines 248-262: the mesh after the points `mps` are looked up or added, and
their indices. -/
def addPoints (Length : Point3 → ℚ) (eps : ℚ) : Mesh → List MeshPoint → Mesh × List PointIndex
  | mesh, [] => (mesh, [])
  | mesh, mp :: mps =>
    let r := findOrAddPoint Length eps mesh mp
    let rs := addPoints Length eps r.1 mps
    (rs.1, r.2 :: rs.2)

/-- Lines 266-290: the segment number `i` of an edge; `segnr` is the value of the counter
after its increment. -/
def makeSegment (seg_init : Segment) (face : GeometryFace) (facenr : Nat)
    (edge : GeometryEdge) (edgenr : Nat) (OrientedLikeGlobal : Bool)
    (pnums : List PointIndex) (params : List ℚ) (segnr : Nat) (i : Nat) : Segment :=
  let seg : Segment :=
    { seg_init with
      p0 := pnums.getD i 0
      p1 := pnums.getD (i + 1) 0
      edgenr := segnr
      epgeominfo0 := { seg_init.epgeominfo0 with dist := params.getD i 0, edgenr := edgenr }
      epgeominfo1 :=
        { seg_init.epgeominfo1 with dist := params.getD (i + 1) 0, edgenr := edgenr }
      si := facenr + 1
      surfnr1 := facenr + 1 }
  let seg : Segment :=
    { seg with epgeominfo0 := face.CalcEdgePointGI edge (params.getD (i + 0) 0) seg.epgeominfo0 }
  let seg : Segment :=
    { seg with epgeominfo1 := face.CalcEdgePointGI edge (params.getD (i + 1) 0) seg.epgeominfo1 }
  if !OrientedLikeGlobal then
    { seg with
      p0 := seg.p1
      p1 := seg.p0
      epgeominfo0 :=
        { seg.epgeominfo0 with
          dist := seg.epgeominfo1.dist, u := seg.epgeominfo1.u, v := seg.epgeominfo1.v }
      epgeominfo1 :=
        { seg.epgeominfo1 with
          dist := seg.epgeominfo0.dist, u := seg.epgeominfo0.u, v := seg.epgeominfo0.v } }
  else seg

/-- Lines 264-291: the segments emitted for an edge, in order; `segnr` is the counter before
the loop. -/
def emitSegments (seg_init : Segment) (face : GeometryFace) (facenr : Nat)
    (edge : GeometryEdge) (edgenr : Nat) (OrientedLikeGlobal : Bool)
    (pnums : List PointIndex) (params : List ℚ) (segnr : Nat) : List Segment :=
  (List.range (pnums.length - 1)).map fun i =>
    makeSegment seg_init face facenr edge edgenr OrientedLikeGlobal pnums params
      (segnr + i + 1) i

/-- The body of the innermost loop of `FindEdges` (lines 180-291) for one oriented edge
of a boundary of the face number `facenr`.  The state is the mesh and the
counter `segnr`.  The result is `none` when `vert2meshpt.at` throws or the
edge index is not an index of `edges`. -/
def FindEdges_edge (Length : Point3 → ℚ) (seg_init : Segment) (geo : NetgenGeometry)
    (vert2meshpt : List (Nat × PointIndex)) (face : GeometryFace) (facenr : Nat)
    (st : Mesh × Nat) (oriented_edge : OrientedEdge) : Option (Mesh × Nat) :=
  let mesh := st.1
  let segnr := st.2
  let edgenr := oriented_edge.edgenr
  match geo.edges.get? edgenr with
  | none => none
  | some edge =>
    match vert2meshpt.lookup edge.GetStartVertex.GetHash,
        vert2meshpt.lookup edge.GetEndVertex.GetHash with
    | some startp, some endp =>
      if startp = endp ∧ edge.GetLength < 1 / 10000000000 * geo.bounding_box_Diam then
        some (mesh, segnr)
      else
        let d := DivideEdge Length mesh.GetH edge
        let mps := d.1
        let params := d.2
        let eps := geo.bounding_box_Diam * (1 / 100000000)
        let r := addPoints Length eps mesh mps
        let mesh := r.1
        let pnums := [startp] ++ r.2 ++ [endp]
        let segs := emitSegments seg_init face facenr edge edgenr
          oriented_edge.OrientedLikeGlobal pnums params segnr
        some ({ mesh with segments := mesh.segments ++ segs }, segnr + segs.length)
    | _, _ => none

/-- A loop whose body may throw: the bodies are run in order until one
fails. -/
def foldlM? {σ α : Type} (f : σ → α → Option σ) : σ → List α → Option σ
  | s, [] => some s
  | s, a :: as =>
    match f s a with
    | none => none
    | some s => foldlM? f s as

/-- Lines 153-161: the boundary-condition names and one face descriptor
`FaceDescriptor (i+1, 1, 0, i+1)` per face, carrying the name of the face. -/
def addFaceDescriptors (geo : NetgenGeometry) (mesh : Mesh) : Mesh :=
  { mesh with
    bcnames := geo.faces.map fun f => f.GetName
    facedescriptors := mesh.facedescriptors ++
      geo.faces.enum.map fun (nf : Nat × GeometryFace) =>
        ⟨nf.1 + 1, 1, 0, nf.1 + 1, nf.2.GetName⟩ }

/-- Lines 163-169: the mesh points of the vertices and the map `vert2meshpt`
from a vertex hash to a point index (the entry found first is the one
assigned last). -/
def addVertices (geo : NetgenGeometry) (mesh : Mesh) : Mesh × List (Nat × PointIndex) :=
  geo.vertices.foldl
    (fun (r : Mesh × List (Nat × PointIndex)) vert =>
      ({ r.1 with points := r.1.points ++ [vert.GetPoint] },
       (vert.GetHash, r.1.points.length) :: r.2))
    (mesh, [])

/-- The function `NetgenGeometry::FindEdges` (lines 145-295).  The result is `none` when an
exception leaves the function. -/
def FindEdges (Length : Point3 → ℚ) (seg_init : Segment) (geo : NetgenGeometry)
    (mesh : Mesh) : Option Mesh :=
  let mesh := addFaceDescriptors geo mesh
  let r := addVertices geo mesh
  let mesh := r.1
  let vert2meshpt := r.2
  let res := foldlM?
    (fun (st : Mesh × Nat) (nf : Nat × GeometryFace) =>
      foldlM?
        (fun (st : Mesh × Nat) (boundary : List OrientedEdge) =>
          foldlM? (FindEdges_edge Length seg_init geo vert2meshpt nf.2 nf.1) st boundary)
        st nf.2.boundaries)
    (mesh, 0) geo.faces.enum
  res.map fun st => st.1

/-! ## `NetgenGeometry::Analyse` and the stage pipeline `NetgenGeometry::GenerateMesh` -/

/-- The function `NetgenGeometry::Analyse` (lines 96-143).  Every statement of it that
touches the mesh is a call of a size-field method (`SetGlobalH`, `SetMinimalH`,
`SetLocalH`, `RestrictLocalH`, `RestrictH`, `LoadLocalMeshSize`), all of them
declared outside this file; `SetLocalMeshsize` is their combined effect on
the size field. -/
def Analyse (SetLocalMeshsize : MeshingParameters → (Point3 → ℚ) → (Point3 → ℚ))
    (mesh : Mesh) (mparam : MeshingParameters) : Mesh :=
  { mesh with GetH := SetLocalMeshsize mparam mesh.GetH }

/-- Modelled from the spec: the result code of the external volume mesher
(`MESHING3_RESULT`), whose declaration is not part of this file.  The spec
distinguishes success from "a non-success result"; the source compares with
`MESHING3_OK` only. -/
inductive MESHING3_RESULT where
  | MESHING3_OK
  | failed (code : Nat)
deriving DecidableEq

/-- Modelled from the spec: the stage constant `MESHCONST_ANALYSE`; the enumeration
is not declared in this file, the spec gives the six stages in the order
Analyse, MeshEdges, MeshSurface, OptSurface, MeshVolume, OptVolume. -/
def MESHCONST_ANALYSE : Int := 1
/-- Modelled from the spec: the stage constant `MESHCONST_MESHEDGES`, second of six. -/
def MESHCONST_MESHEDGES : Int := 2
/-- Modelled from the spec: the stage constant `MESHCONST_MESHSURFACE`, third of six. -/
def MESHCONST_MESHSURFACE : Int := 3
/-- Modelled from the spec: the stage constant `MESHCONST_OPTSURFACE`, fourth of six. -/
def MESHCONST_OPTSURFACE : Int := 4
/-- Modelled from the spec: the stage constant `MESHCONST_MESHVOLUME`, fifth of six. -/
def MESHCONST_MESHVOLUME : Int := 5
/-- Modelled from the spec: the stage constant `MESHCONST_OPTVOLUME`, last of six. -/
def MESHCONST_OPTVOLUME : Int := 6

/-- The functions `GenerateMesh` calls.  `FindEdges`, `MeshSurface` and
`OptimizeSurface` are the methods of this file, the others are declared
outside it.  Each is a total transformer of the mesh: a run in which a stage
throws or does not return is outside the model. -/
structure Stages where
  make_shared : Mesh
  GetGeomType : Nat
  SetLocalMeshsize : MeshingParameters → (Point3 → ℚ) → (Point3 → ℚ)
  FindEdges : Mesh → MeshingParameters → Mesh
  MeshSurface : Mesh → MeshingParameters → Mesh
  CalcSurfacesOfNode : Mesh → Mesh
  OptimizeSurface : Mesh → MeshingParameters → Mesh
  MeshVolume : MeshingParameters → Mesh → MESHING3_RESULT × Mesh
  RemoveIllegalElements : Mesh → Mesh
  MeshQuality3d : Mesh → Mesh
  OptimizeVolume : MeshingParameters → Mesh → Mesh
  FinalizeMesh : Mesh → Mesh

/-- A function called by `GenerateMesh`. -/
inductive Call where
  | Analyse
  | FindEdges
  | MeshSurface
  | CalcSurfacesOfNode
  | OptimizeSurface
  | MeshVolume (res : MESHING3_RESULT)
  | RemoveIllegalElements
  | MeshQuality3d
  | OptimizeVolume
  | FinalizeMesh
deriving DecidableEq

/-- The places where `GenerateMesh` reads `multithread.terminate`, named by
their source line. -/
inductive CheckPoint where
  | line420
  | line426
  | line435
  | line441
  | line452
  | line455
  | line460
  | line469
deriving DecidableEq

/-- What `GenerateMesh` does, in program order: the functions it calls and
its reads of the cancellation flag with the value read. -/
inductive Event where
  | call (c : Call)
  | check (cp : CheckPoint) (flag : Bool)
deriving DecidableEq

/-- The state of a run of `GenerateMesh`: the `shared_ptr<Mesh>` (`none` is the
null pointer) and the events so far. -/
structure Run where
  mesh : Option Mesh
  events : List Event

/-- The outcome of a run of `GenerateMesh` that returns: the returned `int`, the
mesh pointer and the events of the run. -/
structure GenerateMeshResult where
  status : Int
  mesh : Option Mesh
  events : List Event

/-- Lines 464-472.  The result `none` stands for the dereference of a null mesh
pointer, here and in the functions below. -/
def GenerateMesh_line464 (st : Stages) (terminate : CheckPoint → Bool)
    (mparam : MeshingParameters) (r : Run) : Option GenerateMeshResult :=
  if mparam.perfstepsstart ≤ MESHCONST_OPTVOLUME then
    match r.mesh with
    | none => none
    | some m =>
      let m := st.OptimizeVolume mparam m
      let events := r.events ++ [Event.call Call.OptimizeVolume,
        Event.check CheckPoint.line469 (terminate CheckPoint.line469)]
      if terminate CheckPoint.line469 then some ⟨0, some m, events⟩
      else some ⟨0, some (st.FinalizeMesh m), events ++ [Event.call Call.FinalizeMesh]⟩
  else
    match r.mesh with
    | none => none
    | some m => some ⟨0, some (st.FinalizeMesh m), r.events ++ [Event.call Call.FinalizeMesh]⟩

/-- Lines 460-472. -/
def GenerateMesh_line460 (st : Stages) (terminate : CheckPoint → Bool)
    (mparam : MeshingParameters) (r : Run) : Option GenerateMeshResult :=
  let events := r.events ++ [Event.check CheckPoint.line460 (terminate CheckPoint.line460)]
  if terminate CheckPoint.line460 || mparam.perfstepsend ≤ MESHCONST_MESHVOLUME then
    some ⟨0, r.mesh, events⟩
  else GenerateMesh_line464 st terminate mparam ⟨r.mesh, events⟩

/-- Lines 445-472. -/
def GenerateMesh_line445 (st : Stages) (terminate : CheckPoint → Bool)
    (mparam : MeshingParameters) (r : Run) : Option GenerateMeshResult :=
  if mparam.perfstepsstart ≤ MESHCONST_MESHVOLUME then
    match r.mesh with
    | none => none
    | some m =>
      let res := (st.MeshVolume mparam m).1
      let m := (st.MeshVolume mparam m).2
      let events := r.events ++ [Event.call (Call.MeshVolume res)]
      if res ≠ MESHING3_RESULT.MESHING3_OK then some ⟨1, some m, events⟩
      else
        let events := events ++ [Event.check CheckPoint.line452 (terminate CheckPoint.line452)]
        if terminate CheckPoint.line452 then some ⟨0, some m, events⟩
        else
          let m := st.RemoveIllegalElements m
          let events := events ++ [Event.call Call.RemoveIllegalElements,
            Event.check CheckPoint.line455 (terminate CheckPoint.line455)]
          if terminate CheckPoint.line455 then some ⟨0, some m, events⟩
          else
            let m := st.MeshQuality3d m
            GenerateMesh_line460 st terminate mparam
              ⟨some m, events ++ [Event.call Call.MeshQuality3d]⟩
  else GenerateMesh_line460 st terminate mparam r

/-- Lines 438-472. -/
def GenerateMesh_line438 (st : Stages) (terminate : CheckPoint → Bool)
    (mparam : MeshingParameters) (r : Run) : Option GenerateMeshResult :=
  let stage : Option Run :=
    if mparam.perfstepsstart ≤ MESHCONST_OPTSURFACE then
      match r.mesh with
      | none => none
      | some m => some ⟨some (st.OptimizeSurface m mparam),
          r.events ++ [Event.call Call.OptimizeSurface]⟩
    else some r
  match stage with
  | none => none
  | some r =>
    let events := r.events ++ [Event.check CheckPoint.line441 (terminate CheckPoint.line441)]
    if terminate CheckPoint.line441 || mparam.perfstepsend ≤ MESHCONST_OPTSURFACE then
      some ⟨0, r.mesh, events⟩
    else GenerateMesh_line445 st terminate mparam ⟨r.mesh, events⟩

/-- Lines 429-472. -/
def GenerateMesh_line429 (st : Stages) (terminate : CheckPoint → Bool)
    (mparam : MeshingParameters) (r : Run) : Option GenerateMeshResult :=
  let stage : Option Run :=
    if mparam.perfstepsstart ≤ MESHCONST_MESHSURFACE then
      match r.mesh with
      | none => none
      | some m => some ⟨some (st.CalcSurfacesOfNode (st.MeshSurface m mparam)),
          r.events ++ [Event.call Call.MeshSurface, Event.call Call.CalcSurfacesOfNode]⟩
    else some r
  match stage with
  | none => none
  | some r =>
    let events := r.events ++ [Event.check CheckPoint.line435 (terminate CheckPoint.line435)]
    if terminate CheckPoint.line435 || mparam.perfstepsend ≤ MESHCONST_MESHSURFACE then
      some ⟨0, r.mesh, events⟩
    else GenerateMesh_line438 st terminate mparam ⟨r.mesh, events⟩

/-- Lines 423-472. -/
def GenerateMesh_line423 (st : Stages) (terminate : CheckPoint → Bool)
    (mparam : MeshingParameters) (r : Run) : Option GenerateMeshResult :=
  let stage : Option Run :=
    if mparam.perfstepsstart ≤ MESHCONST_MESHEDGES then
      match r.mesh with
      | none => none
      | some m => some ⟨some (st.FindEdges m mparam), r.events ++ [Event.call Call.FindEdges]⟩
    else some r
  match stage with
  | none => none
  | some r =>
    let events := r.events ++ [Event.check CheckPoint.line426 (terminate CheckPoint.line426)]
    if terminate CheckPoint.line426 || mparam.perfstepsend ≤ MESHCONST_MESHEDGES then
      some ⟨0, r.mesh, events⟩
    else GenerateMesh_line429 st terminate mparam ⟨r.mesh, events⟩

/-- The function `NetgenGeometry::GenerateMesh` (lines 408-473).  `terminate cp` is the
value of `multithread.terminate` read at the place `cp`; each place is reached
at most once in a run, so this covers every way another thread can set the
flag. -/
def GenerateMesh (st : Stages) (terminate : CheckPoint → Bool)
    (mesh : Option Mesh) (mparam : MeshingParameters) : Option GenerateMeshResult :=
  let r : Run :=
    if mparam.perfstepsstart ≤ MESHCONST_ANALYSE then
      let m : Mesh := match mesh with
        | none => st.make_shared
        | some m => m
      let m : Mesh := { m with geomtype := st.GetGeomType }
      ⟨some (Analyse st.SetLocalMeshsize m mparam), [Event.call Call.Analyse]⟩
    else ⟨mesh, []⟩
  let events := r.events ++ [Event.check CheckPoint.line420 (terminate CheckPoint.line420)]
  if terminate CheckPoint.line420 || mparam.perfstepsend ≤ MESHCONST_ANALYSE then
    some ⟨0, r.mesh, events⟩
  else GenerateMesh_line423 st terminate mparam ⟨r.mesh, events⟩

/-! ## `NetgenGeometry::MeshSurface` -/

/-- Modelled from the spec: the result code of the external 2D mesh engine
(`MESHING2_RESULT`), whose declaration is not part of this file.  The spec
gives `Generate (mesh, params, targetSize, faceTag)` a result code and
distinguishes success from engine failure. -/
inductive MESHING2_RESULT where
  | MESHING2_OK
  | failed (code : Nat)
deriving DecidableEq

/-- What `MeshSurface` hands to the engine object `meshing` of a face before
it starts the engine: the arguments of its `AddPoint` calls and of its
`AddBoundaryElement` calls, in program order. -/
structure Meshing2 where
  points : List (MeshPoint × PointIndex)
  boundary : List (Nat × Nat × PointGeomInfo × PointGeomInfo)
deriving DecidableEq

/-- The call `meshing.AddPoint (p, pi)`. -/
def Meshing2.AddPoint (meshing : Meshing2) (p : MeshPoint) (pi : PointIndex) : Meshing2 :=
  { meshing with points := meshing.points ++ [(p, pi)] }

/-- The call `meshing.AddBoundaryElement (i1, i2, gi1, gi2)`. -/
def Meshing2.AddBoundaryElement (meshing : Meshing2) (i1 i2 : Nat)
    (gi1 gi2 : PointGeomInfo) : Meshing2 :=
  { meshing with boundary := meshing.boundary ++ [(i1, i2, gi1, gi2)] }

/-- The external method `Meshing2::GenerateMesh (mesh, mparam, maxh, facenr)`: it
returns a result code and changes the mesh.  The engine object is built from
the geometry, the parameters and the padded bounding box of the face (lines
306-308); the first argument is that face, the second what the engine was
given by `AddPoint` and `AddBoundaryElement`. -/
abbrev Meshing2GenerateMesh :=
  GeometryFace → Meshing2 → Mesh → MeshingParameters → ℚ → Nat → MESHING2_RESULT × Mesh

/-- The local variables of the body of the face loop that lines 309-342
change.  The entries of `glob2loc` and the counter `cntp` are `int`s that start at 0
and only grow, so they are natural numbers. -/
structure SurfaceState where
  meshing : Meshing2
  glob2loc : List Nat
  cntp : Nat

/-- Lines 318-324 for one end point `pi` of a segment. -/
def registerPoint (mesh : Mesh) (s : SurfaceState) (pi : PointIndex) : SurfaceState :=
  if s.glob2loc.getD pi 0 = 0 then
    { meshing := s.meshing.AddPoint (mesh.points.getD pi ⟨0, 0, 0⟩) pi
      cntp := s.cntp + 1
      glob2loc := s.glob2loc.set pi (s.cntp + 1) }
  else s

/-- Lines 312-327: the first scan of the segments, which registers the end
points of the segments of face `k`. -/
def registerSegments (mesh : Mesh) (k : Nat) (s : SurfaceState) : SurfaceState :=
  mesh.segments.foldl
    (fun s seg =>
      if seg.si = k + 1 then registerPoint mesh (registerPoint mesh s seg.p0) seg.p1 else s)
    s

/-- Lines 328-342: the second scan of the segments, which submits the segments
of face `k` as boundary elements. -/
def addBoundaryElements (mesh : Mesh) (k : Nat) (s : SurfaceState) : SurfaceState :=
  mesh.segments.foldl
    (fun s seg =>
      if seg.si = k + 1 then
        let gi0 : PointGeomInfo :=
          { trignum := ((k + 1 : Nat) : Int), u := seg.epgeominfo0.u, v := seg.epgeominfo0.v }
        let gi1 : PointGeomInfo :=
          { trignum := ((k + 1 : Nat) : Int), u := seg.epgeominfo1.u, v := seg.epgeominfo1.v }
        { s with
          meshing := s.meshing.AddBoundaryElement (s.glob2loc.getD seg.p0 0)
            (s.glob2loc.getD seg.p1 0) gi0 gi1 }
      else s)
    s

/-- Lines 352-355: `SetIndex (k+1)` on the surface elements number `noldsurfels`
to `GetNSE () - 1`.  When the engine has removed elements, so that
`GetNSE () < noldsurfels`, the loop of the model is empty; the theorems about
it assume an engine that only appends. -/
def tagNew (k noldsurfels : Nat) (els : List Element2d) : List Element2d :=
  (List.range' noldsurfels (els.length - noldsurfels)).foldl
    (fun els i => els.modify (fun e => { e with index := k + 1 }) i) els

/-- What `MeshSurface` did for one face: the face number `k`, what it gave to
the engine, the map `glob2loc` and the counter `cntp` after the scans, the
number `noldsurfels` of surface elements before the engine ran, the result
code `res` of the engine and the number `nse` of surface elements after it. -/
structure FaceRun where
  k : Nat
  meshing : Meshing2
  glob2loc : List Nat
  cntp : Nat
  noldsurfels : Nat
  res : MESHING2_RESULT
  nse : Nat

/-- Lines 308-342 for the face number `k`: a new engine object, `glob2loc = 0`,
`cntp = 0`, and the two scans of the segments.  The argument `glob2loc` is the
array as the faces before left it. -/
def prepareFace (mesh : Mesh) (k : Nat) (glob2loc : List Nat) : SurfaceState :=
  let s : SurfaceState :=
    { meshing := ⟨[], []⟩, glob2loc := List.replicate glob2loc.length 0, cntp := 0 }
  let s := registerSegments mesh k s
  addBoundaryElements mesh k s

/-- The body of the face loop of `MeshSurface` (lines 305-355) for the face
number `k`.  The state is the mesh, the array `glob2loc` as the faces before
left it, and the record of the faces done. -/
def MeshSurface_face (engine : Meshing2GenerateMesh) (mparam : MeshingParameters)
    (st : Mesh × List Nat × List FaceRun) (kf : Nat × GeometryFace) :
    Mesh × List Nat × List FaceRun :=
  let mesh := st.1
  let k := kf.1
  let s := prepareFace mesh k st.2.1
  let noldsurfels := mesh.surfelements.length
  let r := engine kf.2 s.meshing mesh mparam mparam.maxh (k + 1)
  let res := r.1
  let mesh := r.2
  let nse := mesh.surfelements.length
  let mesh : Mesh := { mesh with surfelements := tagNew k noldsurfels mesh.surfelements }
  (mesh, s.glob2loc, st.2.2 ++ [⟨k, s.meshing, s.glob2loc, s.cntp, noldsurfels, res, nse⟩])

/-- The function `NetgenGeometry::MeshSurface` (lines 297-357).  The array `glob2loc` is
created with one entry per mesh point and is not initialised (line 302);
`glob2loc_uninit` stands for its content.  The result is the mesh and the
record of the faces. -/
def MeshSurface (engine : Meshing2GenerateMesh) (glob2loc_uninit : Nat → Nat)
    (geo : NetgenGeometry) (mesh : Mesh) (mparam : MeshingParameters) :
    Mesh × List FaceRun :=
  let glob2loc := (List.range mesh.points.length).map glob2loc_uninit
  let r := geo.faces.enum.foldl (MeshSurface_face engine mparam) (mesh, glob2loc, [])
  (r.1, r.2.2)

/-! ## The array accesses of the edge-division step -/

/-- The arrays of the block "DivideEdge" of `FindEdges`. -/
inductive DivideArray where
  | hvalue
  | params
  | mps
deriving DecidableEq

/-- An access `array[index]` made at the source line `line` to an array that has
`size` entries at that moment.  Every index expression of the block is an
`int` or `size_t` that is not negative when it is used (`i ≥ 1`,
`nsubedges ≥ 1`), so an index is a natural number. -/
structure Access where
  array : DivideArray
  index : Nat
  size : Nat
  line : Nat
deriving DecidableEq

/-- The accesses to `hvalue` of lines 197-204; the array has
`divide_edge_sections + 1` entries. -/
def hvalue_accesses : List Access :=
  [⟨DivideArray.hvalue, 0, divide_edge_sections + 1, 197⟩] ++
  ((List.range divide_edge_sections).flatMap fun i =>
    [⟨DivideArray.hvalue, i + 1, divide_edge_sections + 1, 203⟩,
     ⟨DivideArray.hvalue, i, divide_edge_sections + 1, 203⟩]) ++
  [⟨DivideArray.hvalue, divide_edge_sections, divide_edge_sections + 1, 204⟩]

/-- The accesses of one pass of the body of the walk (lines 213-216), entered
in the state `s`. -/
def divideBody_accesses (hv : Nat → ℚ) (s : DivideState) : List Access :=
  [⟨DivideArray.hvalue, s.i1, divide_edge_sections + 1, 213⟩,
   ⟨DivideArray.hvalue, divide_edge_sections, divide_edge_sections + 1, 213⟩] ++
  if hv s.i1 / hv divide_edge_sections * (s.nsubedges : ℚ) ≥ (s.i : ℚ) then
    [⟨DivideArray.params, s.i, s.params.length, 215⟩,
     ⟨DivideArray.params, s.i, s.params.length, 216⟩,
     ⟨DivideArray.mps, s.i - 1, s.mps.length, 216⟩]
  else []

/-- The accesses of the `do ... while` loop of lines 211-228, pass after
pass. -/
def divideLoop_accesses (edge : GeometryEdge) (hv : Nat → ℚ) :
    Nat → DivideState → List Access
  | 0, _ => []
  | fuel + 1, s =>
    divideBody_accesses hv s ++
      if (divideBody edge hv s).i < (divideBody edge hv s).nsubedges then
        divideLoop_accesses edge hv fuel (divideBody edge hv s)
      else []

/-- The accesses of lines 230-238, made in the state `s` in which the walk was
left.  The last one is the assignment `params[nsubedges] = 1.` of line 238,
made after `params.SetSize (nsubedges)`. -/
def fixEnds_accesses (s : DivideState) : List Access :=
  let params := s.params.set 0 0
  let params := params.set s.nsubedges 1
  [⟨DivideArray.params, 0, s.params.length, 230⟩,
   ⟨DivideArray.params, s.nsubedges, s.params.length, 231⟩,
   ⟨DivideArray.params, s.nsubedges, s.params.length, 233⟩,
   ⟨DivideArray.params, s.nsubedges - 1, s.params.length, 233⟩] ++
  if params.getD s.nsubedges 0 ≤ params.getD (s.nsubedges - 1) 0 then
    [⟨DivideArray.params, s.nsubedges, (SetSize params s.nsubedges 0).length, 238⟩]
  else []

/-- The accesses to `hvalue`, `params` and `mps` of the block "DivideEdge"
(lines 196-239), in program order. -/
def DivideEdge_accesses (Length : Point3 → ℚ) (GetH : Point3 → ℚ) (edge : GeometryEdge) :
    List Access :=
  let hv := edgeHvalue Length GetH edge
  let nsubedges := targetSegments hv
  hvalue_accesses ++
  divideLoop_accesses edge hv (divide_edge_sections + 1)
    { i := 1, i1 := 0, nsubedges := nsubedges
      mps := SetSize [] (nsubedges - 1) ⟨0, 0, 0⟩
      params := SetSize [] (nsubedges + 1) 0 } ++
  fixEnds_accesses (divideWalk edge hv)

/-! ## The quantile walk with the comparison of line 213 as an argument -/

/-- The body of the `do ... while` loop (lines 212-227) with the comparison of
line 213 as an argument: `test i1 i nsubedges` is the truth value that the
machine computes for `hvalue[i1]/hvalue[divide_edge_sections]*nsubedges >= i`.
The source evaluates the quotient and the product in `double` arithmetic,
rounding after each operation; what is proved for every `test` holds for that
evaluation and for the exact one alike.  Everything else is as in
`divideBody`. -/
def divideBodyWith (edge : GeometryEdge) (test : Nat → Nat → Nat → Bool) (s : DivideState) :
    DivideState :=
  let s : DivideState :=
    if test s.i1 s.i s.nsubedges then
      let params := s.params.set s.i ((s.i1 : ℚ) / (divide_edge_sections : ℚ))
      let mps := s.mps.set (s.i - 1) (edge.GetPoint (params.getD s.i 0))
      { s with params := params, mps := mps, i := s.i + 1 }
    else s
  let s : DivideState := { s with i1 := s.i1 + 1 }
  if s.i1 > divide_edge_sections then
    { s with
      nsubedges := s.i
      mps := SetSize s.mps (s.i - 1) ⟨0, 0, 0⟩
      params := SetSize s.params (s.i + 1) 0 }
  else s

/-- The `do ... while (i < nsubedges)` loop of lines 211-228 over `divideBodyWith`,
run for at most `fuel` passes of the body. -/
def divideLoopWith (edge : GeometryEdge) (test : Nat → Nat → Nat → Bool) :
    Nat → DivideState → DivideState
  | 0, s => s
  | fuel + 1, s =>
    let s := divideBodyWith edge test s
    if s.i < s.nsubedges then divideLoopWith edge test fuel s else s

/-- The state of the walk when the loop is left, for the target number
`nsubedges` of line 204 and the comparison `test`: the start state and the
number of passes are those of `divideWalk`. -/
def divideWalkWith (edge : GeometryEdge) (test : Nat → Nat → Nat → Bool) (nsubedges : Nat) :
    DivideState :=
  divideLoopWith edge test (divide_edge_sections + 1)
    { i := 1, i1 := 0, nsubedges := nsubedges
      mps := SetSize [] (nsubedges - 1) ⟨0, 0, 0⟩
      params := SetSize [] (nsubedges + 1) 0 }

/-- The block "DivideEdge" of `FindEdges` from line 205 on, for the target
number `nsubedges` of line 204 and the comparison `test` of line 213. -/
def DivideEdgeWith (edge : GeometryEdge) (test : Nat → Nat → Nat → Bool) (nsubedges : Nat) :
    List MeshPoint × List ℚ :=
  fixEnds (divideWalkWith edge test nsubedges)

/-- The comparison of line 213 evaluated without rounding on the array `hv`. -/
def exactTest (hv : Nat → ℚ) (i1 i nsubedges : Nat) : Bool :=
  decide (hv i1 / hv divide_edge_sections * (nsubedges : ℚ) ≥ (i : ℚ))

/-! ## Observations and invariants used in the theorems -/

/-- The depths of the calls recorded in an event list, in order. -/
def enterDepths : List HTrigEvent → List Int
  | [] => []
  | HTrigEvent.enter _ _ _ depth _ :: es => depth :: enterDepths es
  | HTrigEvent.restrict _ _ :: es => enterDepths es

/-- The size restrictions `(p, h)` submitted to the mesh, in order. -/
def restrictions : List HTrigEvent → List (Point3 × ℚ)
  | [] => []
  | HTrigEvent.enter _ _ _ _ _ :: es => restrictions es
  | HTrigEvent.restrict p h :: es => (p, h) :: restrictions es

/-- A segment with its two point indices exchanged and the `dist`, `u` and `v` of
its two end point geometry infos exchanged; every other field is kept. -/
def swapEnds (seg : Segment) : Segment :=
  { seg with
    p0 := seg.p1
    p1 := seg.p0
    epgeominfo0 :=
      { seg.epgeominfo0 with
        dist := seg.epgeominfo1.dist, u := seg.epgeominfo1.u, v := seg.epgeominfo1.v }
    epgeominfo1 :=
      { seg.epgeominfo1 with
        dist := seg.epgeominfo0.dist, u := seg.epgeominfo0.u, v := seg.epgeominfo0.v } }

/-- The pairs (first point, second point) of a list of segments. -/
def endPoints (segs : List Segment) : List (PointIndex × PointIndex) :=
  segs.map fun seg => (seg.p0, seg.p1)

/-- The test of line 213. -/
def crossing (hv : Nat → ℚ) (s : DivideState) : Prop :=
  hv s.i1 / hv divide_edge_sections * (s.nsubedges : ℚ) ≥ (s.i : ℚ)

/-- The quantiles `1 .. i-1` have been recorded at samples below `i1`: entry `k` of
`params` is `j / 1000` for a sample `j` with `k ≤ j < i1`, entry `k-1` of
`mps` is the point of the edge at that parameter, and the recorded parameters
increase strictly. -/
def Recorded (edge : GeometryEdge) (s : DivideState) : Prop :=
  (∀ k, 1 ≤ k → k < s.i → ∃ j, k ≤ j ∧ j < s.i1 ∧
    s.params.getD k 0 = (j : ℚ) / (divide_edge_sections : ℚ) ∧
    s.mps.getD (k - 1) ⟨0, 0, 0⟩ = edge.GetPoint (s.params.getD k 0)) ∧
  (∀ k k', 1 ≤ k → k < k' → k' < s.i → s.params.getD k 0 < s.params.getD k' 0)

/-- The invariant of the walk when the body is entered; `n0` is the target
number of segments. -/
def WalkInv (edge : GeometryEdge) (n0 : Nat) (s : DivideState) : Prop :=
  s.nsubedges = n0 ∧ s.params.length = n0 + 1 ∧ s.mps.length = n0 - 1 ∧
  1 ≤ s.i ∧ s.i ≤ max 1 s.i1 ∧ s.i1 ≤ divide_edge_sections ∧
  s.i ≤ n0 ∧ (s.i1 ≠ 0 → s.i < n0) ∧ Recorded edge s

/-- What holds when the walk is left. -/
def WalkPost (edge : GeometryEdge) (n0 : Nat) (s : DivideState) : Prop :=
  1 ≤ s.nsubedges ∧ s.nsubedges ≤ n0 ∧ s.i = s.nsubedges ∧
  s.params.length = s.nsubedges + 1 ∧ s.mps.length = s.nsubedges - 1 ∧
  s.i1 ≤ divide_edge_sections + 1 ∧ s.i ≤ s.i1 ∧ Recorded edge s ∧
  (s.i1 ≤ divide_edge_sections → s.nsubedges = n0)

/-- The outcome of the division of an edge into `k` segments is well formed:
`k - 1` interior points, `k + 1` parameters that increase strictly from 0
to 1, and every interior point is the point of the edge at its parameter. -/
def WellDivided (edge : GeometryEdge) (k : Nat) (mps : List MeshPoint) (params : List ℚ) :
    Prop :=
  mps.length = k - 1 ∧ params.length = k + 1 ∧ params.Pairwise (fun a b => a < b) ∧
  params.getD 0 0 = 0 ∧ params.getD k 0 = 1 ∧
  ∀ m, 1 ≤ m → m < k → mps.getD (m - 1) ⟨0, 0, 0⟩ = edge.GetPoint (params.getD m 0)

/-- The parameters after lines 230-231. -/
def fixedEnds (s : DivideState) : List ℚ := (s.params.set 0 0).set s.nsubedges 1

/-- The sample `j` is the first one at which the cumulative array reaches the
quantile `k` of `n0`: the test of line 213 holds at `j` and at no sample
before it. -/
def FirstCrossing (hv : Nat → ℚ) (n0 k j : Nat) : Prop :=
  hv j / hv divide_edge_sections * (n0 : ℚ) ≥ (k : ℚ) ∧
  ∀ j', j' < j → ¬ hv j' / hv divide_edge_sections * (n0 : ℚ) ≥ (k : ℚ)

/-- The cumulative array starts at 0, does not decrease, and no section carries
more than one of the `n0` target segments. -/
def Gentle (hv : Nat → ℚ) (n0 : Nat) : Prop :=
  hv 0 = 0 ∧ (∀ j, j < divide_edge_sections → hv j ≤ hv (j + 1)) ∧
  (∀ j, j < divide_edge_sections → (hv (j + 1) - hv j) * (n0 : ℚ) ≤ hv divide_edge_sections) ∧
  (2 ≤ n0 → 0 < hv divide_edge_sections)

/-- The invariant of the walk for a gentle cumulative array: the sample before
`i1` lies between the quantiles `i - 1` and `i`, and every recorded quantile
was recorded at its first crossing. -/
def GentleInv (hv : Nat → ℚ) (n0 : Nat) (s : DivideState) : Prop :=
  (s.i1 = 0 ∨
    (((s.i : ℚ) - 1) * hv divide_edge_sections ≤ hv (s.i1 - 1) * (n0 : ℚ) ∧
      hv (s.i1 - 1) * (n0 : ℚ) < (s.i : ℚ) * hv divide_edge_sections)) ∧
  ∀ k, 1 ≤ k → k < s.i → ∃ j : Nat, j < s.i1 ∧ s.params.getD k 0 = (j : ℚ) / 1000 ∧ FirstCrossing hv n0 k j

/-- What holds when the walk is left, for a gentle cumulative array. -/
def GentlePost (hv : Nat → ℚ) (n0 : Nat) (s : DivideState) : Prop :=
  s.i1 ≤ divide_edge_sections ∧
  ∀ k, 1 ≤ k → k < s.i → ∃ j : Nat, j < s.i1 ∧ s.params.getD k 0 = (j : ℚ) / 1000 ∧ FirstCrossing hv n0 k j

/-- The functions called in a run, in order. -/
def calls : List Event → List Call
  | [] => []
  | Event.call c :: es => c :: calls es
  | Event.check _ _ :: es => calls es

/-- The functions `GenerateMesh` calls in a stage when the stage runs to its end. -/
def stageCalls (s : Int) : List Call :=
  if s = MESHCONST_ANALYSE then [Call.Analyse]
  else if s = MESHCONST_MESHEDGES then [Call.FindEdges]
  else if s = MESHCONST_MESHSURFACE then [Call.MeshSurface, Call.CalcSurfacesOfNode]
  else if s = MESHCONST_OPTSURFACE then [Call.OptimizeSurface]
  else if s = MESHCONST_MESHVOLUME then
    [Call.MeshVolume MESHING3_RESULT.MESHING3_OK, Call.RemoveIllegalElements, Call.MeshQuality3d]
  else if s = MESHCONST_OPTVOLUME then [Call.OptimizeVolume]
  else []

/-- The six stages in their fixed order. -/
def allStages : List Int :=
  [MESHCONST_ANALYSE, MESHCONST_MESHEDGES, MESHCONST_MESHSURFACE, MESHCONST_OPTSURFACE,
   MESHCONST_MESHVOLUME, MESHCONST_OPTVOLUME]

/-- The stage a called function belongs to; `FinalizeMesh` comes after the six
stages. -/
def Call.stage : Call → Int
  | Call.Analyse => MESHCONST_ANALYSE
  | Call.FindEdges => MESHCONST_MESHEDGES
  | Call.MeshSurface => MESHCONST_MESHSURFACE
  | Call.CalcSurfacesOfNode => MESHCONST_MESHSURFACE
  | Call.OptimizeSurface => MESHCONST_OPTSURFACE
  | Call.MeshVolume _ => MESHCONST_MESHVOLUME
  | Call.RemoveIllegalElements => MESHCONST_MESHVOLUME
  | Call.MeshQuality3d => MESHCONST_MESHVOLUME
  | Call.OptimizeVolume => MESHCONST_OPTVOLUME
  | Call.FinalizeMesh => MESHCONST_OPTVOLUME + 1

/-- The place where the cancellation flag is read at the stage boundary
immediately before stage `s` (for `s` after Analyse). -/
def boundaryBefore (s : Int) : CheckPoint :=
  if s = MESHCONST_MESHEDGES then CheckPoint.line420
  else if s = MESHCONST_MESHSURFACE then CheckPoint.line426
  else if s = MESHCONST_OPTSURFACE then CheckPoint.line435
  else if s = MESHCONST_MESHVOLUME then CheckPoint.line441
  else CheckPoint.line460

/-- Whether a call is a call of the volume mesher. -/
def Call.isMeshVolume : Call → Bool
  | Call.MeshVolume _ => true
  | _ => false

/-- The source line of an event. -/
def Event.line : Event → Nat
  | Event.call Call.Analyse => 417
  | Event.check CheckPoint.line420 _ => 420
  | Event.call Call.FindEdges => 424
  | Event.check CheckPoint.line426 _ => 426
  | Event.call Call.MeshSurface => 431
  | Event.call Call.CalcSurfacesOfNode => 432
  | Event.check CheckPoint.line435 _ => 435
  | Event.call Call.OptimizeSurface => 439
  | Event.check CheckPoint.line441 _ => 441
  | Event.call (Call.MeshVolume _) => 449
  | Event.check CheckPoint.line452 _ => 452
  | Event.call Call.RemoveIllegalElements => 454
  | Event.check CheckPoint.line455 _ => 455
  | Event.call Call.MeshQuality3d => 457
  | Event.check CheckPoint.line460 _ => 460
  | Event.call Call.OptimizeVolume => 468
  | Event.check CheckPoint.line469 _ => 469
  | Event.call Call.FinalizeMesh => 471

/-- The effect of one call on the mesh pointer. -/
def applyCall (st : Stages) (mparam : MeshingParameters) (mesh : Option Mesh) (c : Call) :
    Option Mesh :=
  match c with
  | Call.Analyse =>
    some (Analyse st.SetLocalMeshsize
      { (mesh.getD st.make_shared) with geomtype := st.GetGeomType } mparam)
  | Call.FindEdges => mesh.map fun m => st.FindEdges m mparam
  | Call.MeshSurface => mesh.map fun m => st.MeshSurface m mparam
  | Call.CalcSurfacesOfNode => mesh.map st.CalcSurfacesOfNode
  | Call.OptimizeSurface => mesh.map fun m => st.OptimizeSurface m mparam
  | Call.MeshVolume _ => mesh.map fun m => (st.MeshVolume mparam m).2
  | Call.RemoveIllegalElements => mesh.map st.RemoveIllegalElements
  | Call.MeshQuality3d => mesh.map st.MeshQuality3d
  | Call.OptimizeVolume => mesh.map (st.OptimizeVolume mparam)
  | Call.FinalizeMesh => mesh.map st.FinalizeMesh

/-- The mesh pointer after a sequence of calls, each applied to the result of
the one before. -/
def replay (st : Stages) (mparam : MeshingParameters) (cs : List Call) (mesh : Option Mesh) :
    Option Mesh :=
  cs.foldl (applyCall st mparam) mesh

/-- What holds of the events `tail` a part of `GenerateMesh` that starts at
source line `L` appends, and of the status it returns. -/
def TailOk (st : Stages) (mparam : MeshingParameters) (L : Nat) (tail : List Event)
    (status : Int) : Prop :=
  tail.Pairwise (fun a b => a.line < b.line) ∧
  (∀ e ∈ tail, L ≤ e.line) ∧
  (∀ cp, Event.check cp true ∈ tail →
    status = 0 ∧ tail.getLast? = some (Event.check cp true)) ∧
  (status = 0 ∨ status = 1) ∧
  (status = 1 → ∃ code,
    tail.getLast? = some (Event.call (Call.MeshVolume (MESHING3_RESULT.failed code)))) ∧
  (∀ code, Event.call (Call.MeshVolume (MESHING3_RESULT.failed code)) ∈ tail → status = 1) ∧
  (∀ rr, Event.call (Call.MeshVolume rr) ∈ tail → ∃ m, (st.MeshVolume mparam m).1 = rr)

/-- What a part of `GenerateMesh` starting at line `L` guarantees when it
returns `res` from the state `r`. -/
def PartOk (st : Stages) (mparam : MeshingParameters) (L : Nat) (r : Run)
    (res : GenerateMeshResult) : Prop :=
  ∃ tail, res.events = r.events ++ tail ∧ TailOk st mparam L tail res.status ∧
    res.mesh = replay st mparam (calls tail) r.mesh

/-- The engine only appends surface elements: the surface elements of the mesh
it is given are the first surface elements of the mesh it leaves, unchanged. -/
def AppendsOnly (engine : Meshing2GenerateMesh) : Prop :=
  ∀ face meshing mesh mparam h facenr,
    mesh.surfelements <+: (engine face meshing mesh mparam h facenr).2.surfelements

/-- A call of `RestrictHTrig`: its triangle, its depth and its argument `h`. -/
structure HTrigCall where
  gi0 : PointGeomInfo
  gi1 : PointGeomInfo
  gi2 : PointGeomInfo
  depth : Int
  h : ℚ

/-- The centroid `gi_mid` of a call (lines 43-45). -/
def HTrigCall.gi_mid (gi_uninit : PointGeomInfo) (c : HTrigCall) : PointGeomInfo :=
  { gi_uninit with u := (c.gi0.u + c.gi1.u + c.gi2.u) / 3, v := (c.gi0.v + c.gi1.v + c.gi2.v) / 3 }

/-- The maximum of the curvatures at the centroid and the three corners of the
triangle of a call. -/
def HTrigCall.curvature (face : GeometryFace) (gi_uninit : PointGeomInfo) (c : HTrigCall) : ℚ :=
  max (face.GetCurvature (c.gi_mid gi_uninit))
    (max (face.GetCurvature c.gi0) (max (face.GetCurvature c.gi1) (face.GetCurvature c.gi2)))

/-- The length `longest` that a call computes at lines 31-42. -/
def HTrigCall.longest (Length : Point3 → ℚ) (face : GeometryFace) (c : HTrigCall) : ℚ :=
  (longestEdge Length (face.GetPoint c.gi0) (face.GetPoint c.gi1) (face.GetPoint c.gi2)).1

/-- The open calls after a call is entered.  The events of a run list the
calls in the order in which they are entered, and a call at depth `d` is made
by a call at depth `d - 1`: when a call at depth `d` is entered, the calls of
depth `d` or more entered before it have returned.  The list holds the open calls
whose depth is a multiple of 3, the innermost first. -/
def pushCall (stack : List HTrigCall) (c : HTrigCall) : List HTrigCall :=
  let stack := stack.dropWhile fun c' => decide (c.depth ≤ c'.depth)
  if c.depth.tmod 3 = 0 then c :: stack else stack

/-- The open calls whose depth is a multiple of 3 after the events `es`,
starting from `stack`. -/
def openCalls : List HTrigCall → List HTrigEvent → List HTrigCall
  | stack, [] => stack
  | stack, HTrigEvent.enter gi0 gi1 gi2 depth h :: es =>
    openCalls (pushCall stack ⟨gi0, gi1, gi2, depth, h⟩) es
  | stack, HTrigEvent.restrict _ _ :: es => openCalls stack es

/-- The size restrictions `(p, h)` of the events `es`, in order, each with the
innermost open call whose depth is a multiple of 3 at the moment it is
submitted: the nearest enclosing call that ran the curvature test. -/
def withCurvatureCall : List HTrigCall → List HTrigEvent → List (Point3 × ℚ × Option HTrigCall)
  | _, [] => []
  | stack, HTrigEvent.enter gi0 gi1 gi2 depth h :: es =>
    withCurvatureCall (pushCall stack ⟨gi0, gi1, gi2, depth, h⟩) es
  | stack, HTrigEvent.restrict p h :: es =>
    (p, h, stack.head?) :: withCurvatureCall stack es

/-- The size `hr` is the one derived by the call `c` in its curvature test
(lines 47-59): the depth of `c` is a multiple of 3, its sampled curvature is at
least `1e-3`, `hr = min (maxh, 1 / (curvature * curvaturesafety))`, and `hr` is
at least `1e-4` times the longest edge of `c`. -/
def DerivedSize (Length : Point3 → ℚ) (face : GeometryFace) (gi_uninit : PointGeomInfo)
    (mparam : MeshingParameters) (c : HTrigCall) (hr : ℚ) : Prop :=
  c.depth.tmod 3 = 0 ∧ 1 / 1000 ≤ c.curvature face gi_uninit ∧
  hr = min mparam.maxh (1 / (c.curvature face gi_uninit * mparam.curvaturesafety)) ∧
  1 / 10000 * c.longest Length face ≤ hr

/-- The signed area of a triangle in the parameter plane. -/
def paramArea (a b c : PointGeomInfo) : ℚ :=
  ((b.u - a.u) * (c.v - a.v) - (c.u - a.u) * (b.v - a.v)) / 2

/-- The end points of the segments of face `k`, in the order in which the scan
of lines 312-327 meets them. -/
def faceEndpoints (mesh : Mesh) (k : Nat) : List PointIndex :=
  (mesh.segments.filter fun seg => decide (seg.si = k + 1)).flatMap fun seg => [seg.p0, seg.p1]

/-- The distinct entries of a list, each once, in the order in which they are
first seen. -/
def firstSeen (l : List PointIndex) : List PointIndex :=
  l.foldl (fun acc p => if p ∈ acc then acc else acc ++ [p]) []

/-- What the registration scan has established when the points `acc` are
registered: the engine was given these points, in this order, with their
positions; `cntp` is their number; `glob2loc` sends the `j`-th of them to `j`
(counted from 1) and every other point to 0. -/
def Registered (mesh : Mesh) (n : Nat) (s : SurfaceState) (acc : List PointIndex) : Prop :=
  s.meshing.points = acc.map (fun pi => (mesh.points.getD pi ⟨0, 0, 0⟩, pi)) ∧
  s.meshing.boundary = [] ∧ s.cntp = acc.length ∧ s.glob2loc.length = n ∧ acc.Nodup ∧
  (∀ j, j < acc.length → s.glob2loc.getD (acc.getD j 0) 0 = j + 1) ∧
  (∀ p, p ∉ acc → s.glob2loc.getD p 0 = 0)

/-- The oriented edges that `FindEdges` processes, in the order of its three
nested loops (lines 172-178), each with the number and the face of the
boundary loop it belongs to. -/
def edgeSteps (geo : NetgenGeometry) : List (Nat × GeometryFace × OrientedEdge) :=
  geo.faces.enum.flatMap fun nf =>
    nf.2.boundaries.flatMap fun boundary => boundary.map fun oe => (nf.1, nf.2, oe)

/-- The quantile `k` is recorded at its first success: the comparison of line 213
for the quantile `k` succeeds at the sample `j`, and it fails at every earlier
sample that lies after the parameter recorded for the quantile `k - 1` (at
every earlier sample, when `k = 1`). -/
def FirstSuccess (test : Nat → Nat → Nat → Bool) (n0 : Nat) (params : List ℚ) (k j : Nat) :
    Prop :=
  test j k n0 = true ∧
  ∀ j', j' < j → (k = 1 ∨ params.getD (k - 1) 0 < (j' : ℚ) / 1000) → test j' k n0 = false

/-- The part of the invariant of the walk that speaks about the comparisons:
every recorded quantile was recorded at its first success, and the comparison
for the quantile `i` has failed at every sample since. -/
def TestedInv (test : Nat → Nat → Nat → Bool) (n0 : Nat) (s : DivideState) : Prop :=
  (∀ k, 1 ≤ k → k < s.i → ∃ j : Nat, j < s.i1 ∧ s.params.getD k 0 = (j : ℚ) / 1000 ∧
    FirstSuccess test n0 s.params k j) ∧
  ∀ j', j' < s.i1 → (s.i = 1 ∨ s.params.getD (s.i - 1) 0 < (j' : ℚ) / 1000) →
    test j' s.i n0 = false

/-- What `TestedInv` leaves when the walk is left. -/
def TestedPost (test : Nat → Nat → Nat → Bool) (n0 : Nat) (s : DivideState) : Prop :=
  ∀ k, 1 ≤ k → k < s.i → ∃ j : Nat, j < s.i1 ∧ s.params.getD k 0 = (j : ℚ) / 1000 ∧
    FirstSuccess test n0 s.params k j

/-- The samples `J 1 < J 2 < ... < J (n0 - 1)` lie below 1000 and the comparison
of line 213 for the quantile `i` succeeds at the sample `J i`. -/
def Reachable (test : Nat → Nat → Nat → Bool) (n0 : Nat) (J : Nat → Nat) : Prop :=
  (∀ i, 1 ≤ i → i < n0 → J i < divide_edge_sections ∧ test (J i) i n0 = true) ∧
  ∀ i, 1 ≤ i → i + 1 < n0 → J i < J (i + 1)

/-! ## Concrete inputs -/

/-- A straight edge of length `L` along the first coordinate axis, uniformly
parametrised. -/
def lineEdge (L : ℚ) : GeometryEdge :=
  { GetStartVertex := ⟨⟨0, 0, 0⟩, 0⟩
    GetEndVertex := ⟨⟨L, 0, 0⟩, 1⟩
    GetPoint := fun t => ⟨L * t, 0, 0⟩
    GetLength := L }

/-- A segment with every field 0. -/
def zeroSegment : Segment :=
  { p0 := 0, p1 := 0, edgenr := 0, epgeominfo0 := ⟨0, 0, 0, 0⟩, epgeominfo1 := ⟨0, 0, 0, 0⟩,
    si := 0, surfnr1 := 0 }

/-- A face bounded by one seam edge, run through once in each direction. -/
def seamFace : GeometryFace :=
  { GetName := "seam"
    GetPoint := fun gi => ⟨gi.u, gi.v, 0⟩
    GetCurvature := fun _ => 0
    boundaries := [[⟨0, true⟩, ⟨0, false⟩]]
    CalcEdgePointGI := fun _ _ gi => gi }

/-- A geometry with a short edge: three vertices on the first coordinate axis,
at 0, 6/5 and 100000000, one straight edge from the first to the second, and
one face bounded by it.  The diameter of the bounding box is 100000000, so
the tolerance `1e-8 * Diam` of lines 246-253 is 1. -/
def shortEdgeGeometry : NetgenGeometry :=
  { vertices := [⟨⟨0, 0, 0⟩, 0⟩, ⟨⟨6 / 5, 0, 0⟩, 1⟩, ⟨⟨100000000, 0, 0⟩, 2⟩]
    edges := [lineEdge (6 / 5)]
    faces := [seamFace]
    bounding_box_Diam := 100000000 }

/-- An empty mesh whose size field is 3/5 everywhere. -/
def fineMesh : Mesh :=
  { geomtype := 0, GetH := fun _ => 3 / 5, points := [], segments := [], surfelements := [],
    facedescriptors := [], bcnames := [] }

/-- A mesh without points, segments and elements, with size 1 everywhere. -/
def exampleMesh : Mesh :=
  { geomtype := 0, GetH := fun _ => 1, points := [], segments := [], surfelements := [],
    facedescriptors := [], bcnames := [] }

/-- Stage functions that leave the mesh as it is; the volume mesher returns
`res`. -/
def exampleStages (res : MESHING3_RESULT) : Stages :=
  { make_shared := exampleMesh
    GetGeomType := 0
    SetLocalMeshsize := fun _ g => g
    FindEdges := fun m _ => m
    MeshSurface := fun m _ => m
    CalcSurfacesOfNode := fun m => m
    OptimizeSurface := fun m _ => m
    MeshVolume := fun _ m => (res, m)
    RemoveIllegalElements := fun m => m
    MeshQuality3d := fun m => m
    OptimizeVolume := fun _ m => m
    FinalizeMesh := fun m => m }

/-- Meshing parameters with the stage window `[start, stop]`. -/
def exampleParams (start stop : Int) : MeshingParameters :=
  { maxh := 1, minh := 0, grading := 1, curvaturesafety := 1, segmentsperedge := 1,
    uselocalh := true, optsteps2d := 0, optimize2d := [], perfstepsstart := start,
    perfstepsend := stop, meshsizefilename := "" }

/-- The cancellation flag is set from the moment the place `cp` is reached. -/
def cancelAt (cp : CheckPoint) : CheckPoint → Bool := fun c => decide (c = cp)

/-- Stage functions that leave the mesh as it is, except that `Analyse` builds
the size field that is the global size `maxh` everywhere. -/
def analysingStages : Stages :=
  { exampleStages MESHING3_RESULT.MESHING3_OK with
    SetLocalMeshsize := fun mparam _ _ => mparam.maxh }

/-- A face without boundary loops, flat, on the plane `z = 0`. -/
def plainFace : GeometryFace :=
  { GetName := "plain"
    GetPoint := fun gi => ⟨gi.u, gi.v, 0⟩
    GetCurvature := fun _ => 0
    boundaries := []
    CalcEdgePointGI := fun _ _ gi => gi }

/-- A geometry with two faces. -/
def twoFaceGeometry : NetgenGeometry :=
  { vertices := [], edges := [], faces := [plainFace, plainFace], bounding_box_Diam := 1 }

/-- A mesh with three points, two segments on face 1 and one on face 2, and no
surface element. -/
def twoFaceMesh : Mesh :=
  { geomtype := 0, GetH := fun _ => 1
    points := [⟨0, 0, 0⟩, ⟨1, 0, 0⟩, ⟨0, 1, 0⟩]
    segments :=
      [{ zeroSegment with p0 := 2, p1 := 0, si := 1 },
       { zeroSegment with p0 := 1, p1 := 2, si := 2 },
       { zeroSegment with p0 := 0, p1 := 2, si := 1 }]
    surfelements := [], facedescriptors := [], bcnames := [] }

/-- An engine that fails on the face number 1 and succeeds on every other face; in
both cases it appends one surface element, with index 0, made of the points it
was given. -/
def failingEngine : Meshing2GenerateMesh := fun _ meshing mesh _ _ facenr =>
  (if facenr = 1 then MESHING2_RESULT.failed 1 else MESHING2_RESULT.MESHING2_OK,
   { mesh with
     surfelements := mesh.surfelements ++ [⟨0, meshing.points.map fun pp => pp.2⟩] })

/-- Stage functions that leave the mesh as it is, except that surface meshing
is `MeshSurface` on the two-face geometry with the failing engine. -/
def failingSurfaceStages : Stages :=
  { exampleStages MESHING3_RESULT.MESHING3_OK with
    MeshSurface := fun m mparam =>
      (MeshSurface failingEngine (fun _ => 0) twoFaceGeometry m mparam).1 }

/-- A size field with a fine spot next to the start of `lineEdge 1`: the size is
1/3000 at the point (1/1000, 0, 0) and 1000 everywhere else. -/
def spikeStartField : Point3 → ℚ := fun p => if p.x = 1 / 1000 then 1 / 3000 else 1000

/-- A size field with a fine spot at the end of `lineEdge 1`: the size is 1/2000
at the point (1, 0, 0) and 1000 everywhere else. -/
def spikeEndField : Point3 → ℚ := fun p => if p.x = 1 then 1 / 2000 else 1000

/-- A face whose points lie on the first coordinate axis and whose curvature
is 1 everywhere. -/
def curvedFace : GeometryFace :=
  { GetName := "curved"
    GetPoint := fun gi => ⟨gi.u, 0, 0⟩
    GetCurvature := fun _ => 1
    boundaries := []
    CalcEdgePointGI := fun _ _ gi => gi }

/-! ## Theorems about `RestrictHTrig` -/

theorem enterDepths_append (a b : List HTrigEvent) :
    enterDepths (a ++ b) = enterDepths a ++ enterDepths b := by
  induction a with
  | nil => rfl
  | cons e es ih => cases e <;> simp [enterDepths, ih]

set_option maxHeartbeats 4000000 in
/-- A call at depth 10 or more makes no nested call. -/
theorem RestrictHTrig_enterDepths_leaf (Length : Point3 → ℚ) (face : GeometryFace)
    (gi_uninit gi0 gi1 gi2 : PointGeomInfo) (mparam : MeshingParameters) (depth : Int) (h : ℚ)
    (hd : 10 ≤ depth) :
    enterDepths (RestrictHTrig Length face gi_uninit gi0 gi1 gi2 mparam depth h) = [depth] := by
  rw [RestrictHTrig]
  have hnot : ¬ depth < 10 := by omega
  simp only [hnot, and_false, if_false]
  split <;> simp [enterDepths]

/-- The calls of a run: either the run makes no nested call, or `depth < 10` and
the run consists of its own entry followed by two runs at `depth + 1`. -/
theorem RestrictHTrig_calls (Length : Point3 → ℚ) (face : GeometryFace)
    (gi_uninit gi0 gi1 gi2 : PointGeomInfo) (mparam : MeshingParameters) (depth : Int) (h : ℚ) :
    enterDepths (RestrictHTrig Length face gi_uninit gi0 gi1 gi2 mparam depth h) = [depth] ∨
    (depth < 10 ∧ ∃ a b c a' b' c' h',
      enterDepths (RestrictHTrig Length face gi_uninit gi0 gi1 gi2 mparam depth h) =
        depth :: (enterDepths (RestrictHTrig Length face gi_uninit a b c mparam (depth + 1) h') ++
          enterDepths
            (RestrictHTrig Length face gi_uninit a' b' c' mparam (depth + 1) h'))) := by
  rw [RestrictHTrig]
  simp only
  split
  · exact Or.inl (by simp [enterDepths])
  · rename_i h' _
    split_ifs with h1 h2 h3 h4
    · exact Or.inr ⟨h1.2, _, _, _, _, _, _, h',
        (by simp only [enterDepths, enterDepths_append]; rfl)⟩
    · exact Or.inr ⟨h1.2, _, _, _, _, _, _, h',
        (by simp only [enterDepths, enterDepths_append]; rfl)⟩
    · exact Or.inr ⟨h1.2, _, _, _, _, _, _, h',
        (by simp only [enterDepths, enterDepths_append]; rfl)⟩
    · exact Or.inl (by simp [enterDepths])
    · exact Or.inl (by simp [enterDepths])

theorem RestrictHTrig_enterDepths_range (Length : Point3 → ℚ) (face : GeometryFace)
    (gi_uninit : PointGeomInfo) (mparam : MeshingParameters) (n : Nat) :
    ∀ (gi0 gi1 gi2 : PointGeomInfo) (depth : Int) (h : ℚ), (10 - depth).toNat ≤ n →
      (∀ d ∈ enterDepths (RestrictHTrig Length face gi_uninit gi0 gi1 gi2 mparam depth h),
        depth ≤ d ∧ (d ≤ 10 ∨ d = depth)) ∧
      (enterDepths (RestrictHTrig Length face gi_uninit gi0 gi1 gi2 mparam depth h)).length ≤
        2 ^ (n + 1) - 1 := by
  induction n with
  | zero =>
    intro gi0 gi1 gi2 depth h hn
    rw [RestrictHTrig_enterDepths_leaf Length face gi_uninit gi0 gi1 gi2 mparam depth h
      (by omega)]
    simp
  | succ n ih =>
    intro gi0 gi1 gi2 depth h hn
    rcases RestrictHTrig_calls Length face gi_uninit gi0 gi1 gi2 mparam depth h with hl | hr
    · rw [hl]
      refine ⟨by simp, ?_⟩
      have : 1 ≤ 2 ^ (n + 1) := Nat.one_le_two_pow
      simp only [List.length_singleton]
      rw [pow_succ]
      omega
    · obtain ⟨hlt, a, b, c, a', b', c', h', heq⟩ := hr
      obtain ⟨r1, l1⟩ := ih a b c (depth + 1) h' (by omega)
      obtain ⟨r2, l2⟩ := ih a' b' c' (depth + 1) h' (by omega)
      rw [heq]
      constructor
      · intro d hd
        simp only [List.mem_cons, List.mem_append] at hd
        rcases hd with rfl | hd | hd
        · exact ⟨le_refl _, Or.inr rfl⟩
        · have := r1 d hd
          omega
        · have := r2 d hd
          omega
      · simp only [List.length_cons, List.length_append]
        have : 1 ≤ 2 ^ (n + 1) := Nat.one_le_two_pow
        rw [pow_succ 2 (n + 1)]
        omega

/-- C5.  `RestrictHTrig` is a total function: a call started at depth 0 returns
after finitely many events.  Every call it makes, nested calls included, has a
depth between 0 and 10, there are at most 2047 calls, and a call at depth
10 makes no nested call, whatever the triangle, the face and the meshing
parameters. -/
theorem RestrictHTrig_depth_at_most_10 (Length : Point3 → ℚ) (face : GeometryFace)
    (gi_uninit gi0 gi1 gi2 : PointGeomInfo) (mparam : MeshingParameters) (h : ℚ) :
    (∀ d ∈ enterDepths (RestrictHTrig Length face gi_uninit gi0 gi1 gi2 mparam 0 h),
      0 ≤ d ∧ d ≤ 10) ∧
    (enterDepths (RestrictHTrig Length face gi_uninit gi0 gi1 gi2 mparam 0 h)).length ≤ 2047 ∧
    ∀ (a b c : PointGeomInfo) (mp : MeshingParameters) (h' : ℚ),
      enterDepths (RestrictHTrig Length face gi_uninit a b c mp 10 h') = [10] := by
  obtain ⟨hr, hl⟩ := RestrictHTrig_enterDepths_range Length face gi_uninit mparam 10
    gi0 gi1 gi2 0 h (by simp)
  refine ⟨?_, by simpa using hl, ?_⟩
  · intro d hd
    have := hr d hd
    omega
  · intro a b c mp h'
    exact RestrictHTrig_enterDepths_leaf Length face gi_uninit a b c mp 10 h' (le_refl _)

/-- On a face without curvature a call at depth 0 returns at line 54. -/
theorem flat_run (Length : Point3 → ℚ) (face : GeometryFace)
    (gi_uninit gi0 gi1 gi2 : PointGeomInfo) (mparam : MeshingParameters) (h : ℚ)
    (hflat : ∀ gi, face.GetCurvature gi = 0) :
    RestrictHTrig Length face gi_uninit gi0 gi1 gi2 mparam 0 h =
      [HTrigEvent.enter gi0 gi1 gi2 0 h] := by
  rw [RestrictHTrig]
  have hc : ∀ gm l, curvatureBlock face mparam gi0 gi1 gi2 gm 0 h l = none := by
    intro gm l
    simp [curvatureBlock, hflat]
  simp only [hc]

/-- Witness of C5: the call on the face `seamFace` is a call at depth 0. -/
theorem RestrictHTrig_depth_at_most_10_witness :
    (0 : Int) ∈ enterDepths (RestrictHTrig axisLength seamFace ⟨0, 0, 0⟩ ⟨0, 0, 0⟩ ⟨0, 1, 0⟩
      ⟨0, 0, 1⟩ (exampleParams 1 6) 0 1) ∧ ((0 : Int) ≤ 0 ∧ (0 : Int) ≤ 10) := by
  have hmem : (0 : Int) ∈ enterDepths (RestrictHTrig axisLength seamFace ⟨0, 0, 0⟩ ⟨0, 0, 0⟩
      ⟨0, 1, 0⟩ ⟨0, 0, 1⟩ (exampleParams 1 6) 0 1) := by
    rw [flat_run axisLength seamFace ⟨0, 0, 0⟩ ⟨0, 0, 0⟩ ⟨0, 1, 0⟩ ⟨0, 0, 1⟩
      (exampleParams 1 6) 1 (fun _ => rfl)]
    simp [enterDepths]
  exact ⟨hmem, (RestrictHTrig_depth_at_most_10 axisLength seamFace ⟨0, 0, 0⟩ ⟨0, 0, 0⟩
    ⟨0, 1, 0⟩ ⟨0, 0, 1⟩ (exampleParams 1 6) 1).1 0 hmem⟩

/-- C9.  On a face whose curvature is 0 at every parameter point, a call of
`RestrictHTrig` started at depth 0 consists of its own entry only: it submits no
size restriction and makes no nested call, whatever the triangle, `h` and the
meshing parameters. -/
theorem RestrictHTrig_flat_face (Length : Point3 → ℚ) (face : GeometryFace)
    (gi_uninit gi0 gi1 gi2 : PointGeomInfo) (mparam : MeshingParameters) (h : ℚ)
    (hflat : ∀ gi, face.GetCurvature gi = 0) :
    RestrictHTrig Length face gi_uninit gi0 gi1 gi2 mparam 0 h =
      [HTrigEvent.enter gi0 gi1 gi2 0 h] ∧
    restrictions (RestrictHTrig Length face gi_uninit gi0 gi1 gi2 mparam 0 h) = [] ∧
    enterDepths (RestrictHTrig Length face gi_uninit gi0 gi1 gi2 mparam 0 h) = [0] := by
  rw [flat_run Length face gi_uninit gi0 gi1 gi2 mparam h hflat]
  exact ⟨rfl, rfl, rfl⟩

/-- Witness of C9: the face `seamFace` has curvature 0 everywhere. -/
theorem RestrictHTrig_flat_face_witness :
    restrictions (RestrictHTrig axisLength seamFace ⟨0, 0, 0⟩ ⟨0, 0, 0⟩ ⟨0, 1, 0⟩ ⟨0, 0, 1⟩
      (exampleParams 1 6) 0 1) = [] :=
  (RestrictHTrig_flat_face axisLength seamFace ⟨0, 0, 0⟩ ⟨0, 0, 0⟩ ⟨0, 1, 0⟩ ⟨0, 0, 1⟩
    (exampleParams 1 6) 1 (fun _ => rfl)).2.1

/-! ## Theorems about `GenerateMesh` -/

theorem calls_append (a b : List Event) : calls (a ++ b) = calls a ++ calls b := by
  induction a with
  | nil => rfl
  | cons e es ih => cases e <;> simp [calls, ih]

theorem replay_append (st : Stages) (mparam : MeshingParameters) (a b : List Call)
    (mesh : Option Mesh) :
    replay st mparam (a ++ b) mesh = replay st mparam b (replay st mparam a mesh) := by
  simp [replay, List.foldl_append]

theorem TailOk_prepend {st : Stages} {mparam : MeshingParameters} {L L' : Nat}
    (pre : List Event) {tail : List Event} {status : Int}
    (hpre : pre.Pairwise (fun a b => a.line < b.line))
    (hlo : ∀ e ∈ pre, L ≤ e.line) (hhi : ∀ e ∈ pre, e.line < L') (hL : L ≤ L')
    (hchk : ∀ cp, Event.check cp true ∉ pre)
    (hvol : ∀ code, Event.call (Call.MeshVolume (MESHING3_RESULT.failed code)) ∉ pre)
    (hres : ∀ rr, Event.call (Call.MeshVolume rr) ∈ pre → ∃ m, (st.MeshVolume mparam m).1 = rr)
    (h : TailOk st mparam L' tail status) : TailOk st mparam L (pre ++ tail) status := by
  obtain ⟨h1, h2, h3, h4, h5, h6, h7⟩ := h
  refine ⟨?_, ?_, ?_, h4, ?_, ?_, ?_⟩
  · rw [List.pairwise_append]
    exact ⟨hpre, h1, fun a ha b hb => lt_of_lt_of_le (hhi a ha) (h2 b hb)⟩
  · intro e he
    rcases List.mem_append.1 he with he | he
    · exact hlo e he
    · exact le_trans hL (h2 e he)
  · intro cp hcp
    rcases List.mem_append.1 hcp with hcp | hcp
    · exact absurd hcp (hchk cp)
    · obtain ⟨hs, hi⟩ := h3 cp hcp
      exact ⟨hs, by simp [List.getLast?_append, hi]⟩
  · intro hs
    obtain ⟨code, hi⟩ := h5 hs
    exact ⟨code, by simp [List.getLast?_append, hi]⟩
  · intro code hc
    rcases List.mem_append.1 hc with hc | hc
    · exact absurd hc (hvol code)
    · exact h6 code hc
  · intro rr hc
    rcases List.mem_append.1 hc with hc | hc
    · exact hres rr hc
    · exact h7 rr hc

theorem PartOk_of_eq {st : Stages} {mparam : MeshingParameters} {L : Nat} {r : Run}
    {res : GenerateMeshResult} (tail : List Event) (status : Int) (mesh : Option Mesh)
    (h : some (GenerateMeshResult.mk status mesh (r.events ++ tail)) = some res)
    (ht : TailOk st mparam L tail status) (hm : mesh = replay st mparam (calls tail) r.mesh) :
    PartOk st mparam L r res := by
  simp only [Option.some.injEq] at h
  subst h
  exact ⟨tail, rfl, ht, hm⟩

theorem PartOk_step {st : Stages} {mparam : MeshingParameters} {L L' : Nat} {r : Run}
    {res : GenerateMeshResult} (pre : List Event) (mesh : Option Mesh)
    (h : PartOk st mparam L' ⟨mesh, r.events ++ pre⟩ res)
    (hpre : pre.Pairwise (fun a b => a.line < b.line))
    (hlo : ∀ e ∈ pre, L ≤ e.line) (hhi : ∀ e ∈ pre, e.line < L') (hL : L ≤ L')
    (hchk : ∀ cp, Event.check cp true ∉ pre)
    (hvol : ∀ code, Event.call (Call.MeshVolume (MESHING3_RESULT.failed code)) ∉ pre)
    (hres : ∀ rr, Event.call (Call.MeshVolume rr) ∈ pre → ∃ m, (st.MeshVolume mparam m).1 = rr)
    (hm : mesh = replay st mparam (calls pre) r.mesh) :
    PartOk st mparam L r res := by
  obtain ⟨tail, h1, h2, h3⟩ := h
  refine ⟨pre ++ tail, ?_, TailOk_prepend pre hpre hlo hhi hL hchk hvol hres h2, ?_⟩
  · rw [h1, List.append_assoc]
  · rw [h3, calls_append, replay_append, hm]

theorem GenerateMesh_line464_spec (st : Stages) (terminate : CheckPoint → Bool)
    (mparam : MeshingParameters) (r : Run) (res : GenerateMeshResult)
    (h : GenerateMesh_line464 st terminate mparam r = some res) :
    PartOk st mparam 464 r res := by
  unfold GenerateMesh_line464 at h
  cases hm : r.mesh with
  | none => simp [hm] at h
  | some m =>
    simp only [hm] at h
    by_cases h1 : mparam.perfstepsstart ≤ MESHCONST_OPTVOLUME
    · by_cases h2 : terminate CheckPoint.line469 = true
      · simp only [h1, h2, if_true] at h
        exact PartOk_of_eq _ _ _ h (by simp [TailOk, Event.line])
          (by simp [replay, calls, applyCall, hm])
      · simp only [h1, h2, if_true, if_false, List.append_assoc] at h
        simp only [Bool.not_eq_true] at h2
        exact PartOk_of_eq _ _ _ h (by simp [TailOk, Event.line, h2])
          (by simp [replay, calls, applyCall, hm])
    · simp only [h1, if_false] at h
      exact PartOk_of_eq _ _ _ h (by simp [TailOk, Event.line])
        (by simp [replay, calls, applyCall, hm])

theorem GenerateMesh_line460_spec (st : Stages) (terminate : CheckPoint → Bool)
    (mparam : MeshingParameters) (r : Run) (res : GenerateMeshResult)
    (h : GenerateMesh_line460 st terminate mparam r = some res) :
    PartOk st mparam 460 r res := by
  unfold GenerateMesh_line460 at h
  by_cases h1 : (terminate CheckPoint.line460 || decide (mparam.perfstepsend ≤ MESHCONST_MESHVOLUME)) = true
  · simp only [h1, if_true] at h
    exact PartOk_of_eq _ _ _ h (by cases terminate CheckPoint.line460 <;> simp [TailOk, Event.line])
      (by simp [replay, calls])
  · simp only [h1, if_false] at h
    have h2 : terminate CheckPoint.line460 = false := by
      cases ht : terminate CheckPoint.line460 <;> simp [ht] at h1 ⊢
    exact PartOk_step _ _ (GenerateMesh_line464_spec st terminate mparam _ res h)
      (by simp) (by simp [Event.line]) (by simp [Event.line]) (by norm_num)
      (by simp [h2]) (by simp) (by simp) (by simp [replay, calls])

theorem GenerateMesh_line445_spec (st : Stages) (terminate : CheckPoint → Bool)
    (mparam : MeshingParameters) (r : Run) (res : GenerateMeshResult)
    (h : GenerateMesh_line445 st terminate mparam r = some res) :
    PartOk st mparam 445 r res := by
  unfold GenerateMesh_line445 at h
  by_cases h1 : mparam.perfstepsstart ≤ MESHCONST_MESHVOLUME
  · simp only [h1, if_true] at h
    cases hm : r.mesh with
    | none => simp [hm] at h
    | some m =>
      simp only [hm] at h
      cases hres : (st.MeshVolume mparam m).1 with
      | failed code =>
        simp only [hres, ne_eq, not_false_eq_true, if_true] at h
        exact PartOk_of_eq _ _ _ h (by simp [TailOk, Event.line]; exact ⟨m, hres⟩)
          (by simp [replay, calls, applyCall, hm])
      | MESHING3_OK =>
        simp only [hres, ne_eq, not_true_eq_false, if_false] at h
        by_cases h2 : terminate CheckPoint.line452 = true
        · simp only [h2, if_true, List.append_assoc] at h
          exact PartOk_of_eq _ _ _ h (by simp [TailOk, Event.line]; exact ⟨m, hres⟩)
            (by simp [replay, calls, applyCall, hm])
        · simp only [h2, if_false] at h
          simp only [Bool.not_eq_true] at h2
          by_cases h3 : terminate CheckPoint.line455 = true
          · simp only [h3, if_true, List.append_assoc] at h
            exact PartOk_of_eq _ _ _ h (by simp [TailOk, Event.line, h2]; exact ⟨m, hres⟩)
              (by simp [replay, calls, applyCall, hm])
          · simp only [h3, if_false, List.append_assoc] at h
            simp only [Bool.not_eq_true] at h3
            exact PartOk_step _ _ (GenerateMesh_line460_spec st terminate mparam _ res h)
              (by simp [Event.line]) (by simp [Event.line]) (by simp [Event.line]) (by norm_num)
              (by simp [h2, h3]) (by simp) (by simp; exact ⟨m, hres⟩)
              (by simp [replay, calls, applyCall, hm])
  · simp only [h1, if_false] at h
    obtain ⟨tail, e1, e2, e3⟩ := GenerateMesh_line460_spec st terminate mparam r res h
    exact ⟨tail, e1, TailOk_prepend [] (by simp) (by simp) (by simp) (by norm_num)
      (by simp) (by simp) (by simp) e2, e3⟩

theorem PartOk_weaken {st : Stages} {mparam : MeshingParameters} {L L' : Nat} {r : Run}
    {res : GenerateMeshResult} (hL : L ≤ L') (h : PartOk st mparam L' r res) :
    PartOk st mparam L r res := by
  obtain ⟨tail, e1, e2, e3⟩ := h
  exact ⟨tail, e1, TailOk_prepend [] (by simp) (by simp) (by simp) hL
    (by simp) (by simp) (by simp) e2, e3⟩

theorem GenerateMesh_line438_spec (st : Stages) (terminate : CheckPoint → Bool)
    (mparam : MeshingParameters) (r : Run) (res : GenerateMeshResult)
    (h : GenerateMesh_line438 st terminate mparam r = some res) :
    PartOk st mparam 438 r res := by
  unfold GenerateMesh_line438 at h
  by_cases h1 : mparam.perfstepsstart ≤ MESHCONST_OPTSURFACE
  · simp only [h1, if_true] at h
    cases hm : r.mesh with
    | none => simp [hm] at h
    | some m =>
      simp only [hm] at h
      by_cases h2 : (terminate CheckPoint.line441 ||
          decide (mparam.perfstepsend ≤ MESHCONST_OPTSURFACE)) = true
      · simp only [h2, if_true, List.append_assoc] at h
        exact PartOk_of_eq _ _ _ h
          (by cases terminate CheckPoint.line441 <;> simp [TailOk, Event.line])
          (by simp [replay, calls, applyCall, hm])
      · simp only [h2, if_false, List.append_assoc] at h
        have h3 : terminate CheckPoint.line441 = false := by
          cases ht : terminate CheckPoint.line441 <;> simp [ht] at h2 ⊢
        exact PartOk_step _ _ (GenerateMesh_line445_spec st terminate mparam _ res h)
          (by simp [Event.line]) (by simp [Event.line]) (by simp [Event.line]) (by norm_num)
          (by simp [h3]) (by simp) (by simp) (by simp [replay, calls, applyCall, hm])
  · simp only [h1, if_false] at h
    by_cases h2 : (terminate CheckPoint.line441 ||
        decide (mparam.perfstepsend ≤ MESHCONST_OPTSURFACE)) = true
    · simp only [h2, if_true] at h
      exact PartOk_of_eq _ _ _ h
        (by cases terminate CheckPoint.line441 <;> simp [TailOk, Event.line])
        (by simp [replay, calls])
    · simp only [h2, if_false] at h
      have h3 : terminate CheckPoint.line441 = false := by
        cases ht : terminate CheckPoint.line441 <;> simp [ht] at h2 ⊢
      exact PartOk_step _ _ (GenerateMesh_line445_spec st terminate mparam _ res h)
        (by simp [Event.line]) (by simp [Event.line]) (by simp [Event.line]) (by norm_num)
        (by simp [h3]) (by simp) (by simp) (by simp [replay, calls])

theorem GenerateMesh_line429_spec (st : Stages) (terminate : CheckPoint → Bool)
    (mparam : MeshingParameters) (r : Run) (res : GenerateMeshResult)
    (h : GenerateMesh_line429 st terminate mparam r = some res) :
    PartOk st mparam 429 r res := by
  unfold GenerateMesh_line429 at h
  by_cases h1 : mparam.perfstepsstart ≤ MESHCONST_MESHSURFACE
  · simp only [h1, if_true] at h
    cases hm : r.mesh with
    | none => simp [hm] at h
    | some m =>
      simp only [hm] at h
      by_cases h2 : (terminate CheckPoint.line435 ||
          decide (mparam.perfstepsend ≤ MESHCONST_MESHSURFACE)) = true
      · simp only [h2, if_true, List.append_assoc] at h
        exact PartOk_of_eq _ _ _ h
          (by cases terminate CheckPoint.line435 <;> simp [TailOk, Event.line])
          (by simp [replay, calls, applyCall, hm])
      · simp only [h2, if_false, List.append_assoc] at h
        have h3 : terminate CheckPoint.line435 = false := by
          cases ht : terminate CheckPoint.line435 <;> simp [ht] at h2 ⊢
        exact PartOk_step _ _ (GenerateMesh_line438_spec st terminate mparam _ res h)
          (by simp [Event.line]) (by simp [Event.line]) (by simp [Event.line]) (by norm_num)
          (by simp [h3]) (by simp) (by simp) (by simp [replay, calls, applyCall, hm])
  · simp only [h1, if_false] at h
    by_cases h2 : (terminate CheckPoint.line435 ||
        decide (mparam.perfstepsend ≤ MESHCONST_MESHSURFACE)) = true
    · simp only [h2, if_true] at h
      exact PartOk_of_eq _ _ _ h
        (by cases terminate CheckPoint.line435 <;> simp [TailOk, Event.line])
        (by simp [replay, calls])
    · simp only [h2, if_false] at h
      have h3 : terminate CheckPoint.line435 = false := by
        cases ht : terminate CheckPoint.line435 <;> simp [ht] at h2 ⊢
      exact PartOk_step _ _ (GenerateMesh_line438_spec st terminate mparam _ res h)
        (by simp [Event.line]) (by simp [Event.line]) (by simp [Event.line]) (by norm_num)
        (by simp [h3]) (by simp) (by simp) (by simp [replay, calls])

theorem GenerateMesh_line423_spec (st : Stages) (terminate : CheckPoint → Bool)
    (mparam : MeshingParameters) (r : Run) (res : GenerateMeshResult)
    (h : GenerateMesh_line423 st terminate mparam r = some res) :
    PartOk st mparam 423 r res := by
  unfold GenerateMesh_line423 at h
  by_cases h1 : mparam.perfstepsstart ≤ MESHCONST_MESHEDGES
  · simp only [h1, if_true] at h
    cases hm : r.mesh with
    | none => simp [hm] at h
    | some m =>
      simp only [hm] at h
      by_cases h2 : (terminate CheckPoint.line426 ||
          decide (mparam.perfstepsend ≤ MESHCONST_MESHEDGES)) = true
      · simp only [h2, if_true, List.append_assoc] at h
        exact PartOk_of_eq _ _ _ h
          (by cases terminate CheckPoint.line426 <;> simp [TailOk, Event.line])
          (by simp [replay, calls, applyCall, hm])
      · simp only [h2, if_false, List.append_assoc] at h
        have h3 : terminate CheckPoint.line426 = false := by
          cases ht : terminate CheckPoint.line426 <;> simp [ht] at h2 ⊢
        exact PartOk_step _ _ (GenerateMesh_line429_spec st terminate mparam _ res h)
          (by simp [Event.line]) (by simp [Event.line]) (by simp [Event.line]) (by norm_num)
          (by simp [h3]) (by simp) (by simp) (by simp [replay, calls, applyCall, hm])
  · simp only [h1, if_false] at h
    by_cases h2 : (terminate CheckPoint.line426 ||
        decide (mparam.perfstepsend ≤ MESHCONST_MESHEDGES)) = true
    · simp only [h2, if_true] at h
      exact PartOk_of_eq _ _ _ h
        (by cases terminate CheckPoint.line426 <;> simp [TailOk, Event.line])
        (by simp [replay, calls])
    · simp only [h2, if_false] at h
      have h3 : terminate CheckPoint.line426 = false := by
        cases ht : terminate CheckPoint.line426 <;> simp [ht] at h2 ⊢
      exact PartOk_step _ _ (GenerateMesh_line429_spec st terminate mparam _ res h)
        (by simp [Event.line]) (by simp [Event.line]) (by simp [Event.line]) (by norm_num)
        (by simp [h3]) (by simp) (by simp) (by simp [replay, calls])

theorem GenerateMesh_spec (st : Stages) (terminate : CheckPoint → Bool)
    (mesh : Option Mesh) (mparam : MeshingParameters) (res : GenerateMeshResult)
    (h : GenerateMesh st terminate mesh mparam = some res) :
    PartOk st mparam 408 ⟨mesh, []⟩ res := by
  unfold GenerateMesh at h
  by_cases h1 : mparam.perfstepsstart ≤ MESHCONST_ANALYSE
  · simp only [h1, if_true] at h
    by_cases h2 : (terminate CheckPoint.line420 ||
        decide (mparam.perfstepsend ≤ MESHCONST_ANALYSE)) = true
    · simp only [h2, if_true] at h
      exact PartOk_of_eq (r := ⟨mesh, []⟩) _ _ _ h
        (by cases terminate CheckPoint.line420 <;> simp [TailOk, Event.line])
        (by cases mesh <;> simp [replay, calls, applyCall])
    · simp only [h2, if_false] at h
      have h3 : terminate CheckPoint.line420 = false := by
        cases ht : terminate CheckPoint.line420 <;> simp [ht] at h2 ⊢
      have h4 := GenerateMesh_line423_spec st terminate mparam _ res h
      exact PartOk_step (r := ⟨mesh, []⟩) _ _ h4
        (by simp [Event.line]) (by simp [Event.line]) (by simp [Event.line]) (by norm_num)
        (by simp [h3]) (by simp) (by simp)
        (by cases mesh <;> simp [replay, calls, applyCall])
  · simp only [h1, if_false] at h
    by_cases h2 : (terminate CheckPoint.line420 ||
        decide (mparam.perfstepsend ≤ MESHCONST_ANALYSE)) = true
    · simp only [h2, if_true] at h
      exact PartOk_of_eq (r := ⟨mesh, []⟩) _ _ _ h
        (by cases terminate CheckPoint.line420 <;> simp [TailOk, Event.line])
        (by simp [replay, calls])
    · simp only [h2, if_false] at h
      have h3 : terminate CheckPoint.line420 = false := by
        cases ht : terminate CheckPoint.line420 <;> simp [ht] at h2 ⊢
      have h4 := GenerateMesh_line423_spec st terminate mparam _ res h
      exact PartOk_step (r := ⟨mesh, []⟩) _ _ h4
        (by simp [Event.line]) (by simp [Event.line]) (by simp [Event.line]) (by norm_num)
        (by simp [h3]) (by simp) (by simp) (by simp [replay, calls])

theorem GenerateMesh_line464_isSome (st : Stages) (terminate : CheckPoint → Bool)
    (mparam : MeshingParameters) (m : Mesh) (evs : List Event) :
    ∃ res, GenerateMesh_line464 st terminate mparam ⟨some m, evs⟩ = some res := by
  unfold GenerateMesh_line464
  split_ifs <;> simp

theorem GenerateMesh_line460_isSome (st : Stages) (terminate : CheckPoint → Bool)
    (mparam : MeshingParameters) (m : Mesh) (evs : List Event) :
    ∃ res, GenerateMesh_line460 st terminate mparam ⟨some m, evs⟩ = some res := by
  unfold GenerateMesh_line460
  split_ifs
  · simp
  · exact GenerateMesh_line464_isSome st terminate mparam m _

theorem GenerateMesh_line445_isSome (st : Stages) (terminate : CheckPoint → Bool)
    (mparam : MeshingParameters) (m : Mesh) (evs : List Event) :
    ∃ res, GenerateMesh_line445 st terminate mparam ⟨some m, evs⟩ = some res := by
  unfold GenerateMesh_line445
  by_cases h1 : mparam.perfstepsstart ≤ MESHCONST_MESHVOLUME
  · simp only [h1, if_true]
    by_cases h2 : (st.MeshVolume mparam m).1 = MESHING3_RESULT.MESHING3_OK
    · simp only [h2, ne_eq, not_true_eq_false, if_false]
      by_cases h3 : terminate CheckPoint.line452 = true
      · simp [h3]
      · by_cases h4 : terminate CheckPoint.line455 = true
        · simp [h3, h4]
        · simp only [h3, h4, if_false]
          exact GenerateMesh_line460_isSome st terminate mparam _ _
    · simp [h2]
  · simp only [h1, if_false]
    exact GenerateMesh_line460_isSome st terminate mparam _ _

theorem GenerateMesh_line438_isSome (st : Stages) (terminate : CheckPoint → Bool)
    (mparam : MeshingParameters) (m : Mesh) (evs : List Event) :
    ∃ res, GenerateMesh_line438 st terminate mparam ⟨some m, evs⟩ = some res := by
  unfold GenerateMesh_line438
  split_ifs
  · simp
  · exact GenerateMesh_line445_isSome st terminate mparam _ _
  · simp
  · exact GenerateMesh_line445_isSome st terminate mparam _ _

theorem GenerateMesh_line429_isSome (st : Stages) (terminate : CheckPoint → Bool)
    (mparam : MeshingParameters) (m : Mesh) (evs : List Event) :
    ∃ res, GenerateMesh_line429 st terminate mparam ⟨some m, evs⟩ = some res := by
  unfold GenerateMesh_line429
  split_ifs
  · simp
  · exact GenerateMesh_line438_isSome st terminate mparam _ _
  · simp
  · exact GenerateMesh_line438_isSome st terminate mparam _ _

theorem GenerateMesh_line423_isSome (st : Stages) (terminate : CheckPoint → Bool)
    (mparam : MeshingParameters) (m : Mesh) (evs : List Event) :
    ∃ res, GenerateMesh_line423 st terminate mparam ⟨some m, evs⟩ = some res := by
  unfold GenerateMesh_line423
  split_ifs
  · simp
  · exact GenerateMesh_line429_isSome st terminate mparam _ _
  · simp
  · exact GenerateMesh_line429_isSome st terminate mparam _ _

theorem GenerateMesh_isSome (st : Stages) (terminate : CheckPoint → Bool)
    (mesh : Option Mesh) (mparam : MeshingParameters)
    (hmesh : mesh ≠ none ∨ mparam.perfstepsstart ≤ MESHCONST_ANALYSE) :
    ∃ res, GenerateMesh st terminate mesh mparam = some res := by
  unfold GenerateMesh
  by_cases h1 : mparam.perfstepsstart ≤ MESHCONST_ANALYSE
  · simp only [h1, if_true]
    split_ifs
    · simp
    · exact GenerateMesh_line423_isSome st terminate mparam _ _
  · simp only [h1, if_false]
    cases mesh with
    | none => simp [h1] at hmesh
    | some m =>
      split_ifs
      · simp
      · exact GenerateMesh_line423_isSome st terminate mparam _ _

/-- C1.  For every stage window whose ends are among the six stages, when the
cancellation flag is never set and the volume mesher reports success (and the
mesh pointer is non-null unless the run starts with Analyse, which creates the
mesh), `GenerateMesh` returns 0 and calls exactly the functions of the stages
`s` with `start ≤ s ≤ end`, in the fixed order, followed by `FinalizeMesh` iff
`end` is OptVolume.  With `start = end = Analyse` the only call is `Analyse`:
`FindEdges` and `MeshSurface` are not called and the points, segments and
surface elements of the mesh are those it had before. -/
theorem GenerateMesh_executes_stage_window (st : Stages) (terminate : CheckPoint → Bool)
    (mesh : Option Mesh) (mparam : MeshingParameters)
    (hstart : mparam.perfstepsstart ∈ allStages) (hend : mparam.perfstepsend ∈ allStages)
    (hmesh : mesh ≠ none ∨ mparam.perfstepsstart = MESHCONST_ANALYSE)
    (hterm : ∀ cp, terminate cp = false)
    (hvol : ∀ m, (st.MeshVolume mparam m).1 = MESHING3_RESULT.MESHING3_OK) :
    ∃ res, GenerateMesh st terminate mesh mparam = some res ∧
      res.status = 0 ∧
      calls res.events =
        (allStages.filter fun s =>
            decide (mparam.perfstepsstart ≤ s ∧ s ≤ mparam.perfstepsend)).flatMap stageCalls
          ++ (if mparam.perfstepsend = MESHCONST_OPTVOLUME then [Call.FinalizeMesh] else []) ∧
      (mparam.perfstepsstart = MESHCONST_ANALYSE → mparam.perfstepsend = MESHCONST_ANALYSE →
        calls res.events = [Call.Analyse] ∧
        ∃ m, res.mesh = some m ∧
          m.points = (mesh.getD st.make_shared).points ∧
          m.segments = (mesh.getD st.make_shared).segments ∧
          m.surfelements = (mesh.getD st.make_shared).surfelements) := by
  simp only [allStages, List.mem_cons, List.mem_singleton, List.not_mem_nil, or_false] at hstart hend
  cases mesh with
  | none =>
    have hs : mparam.perfstepsstart = MESHCONST_ANALYSE := by simpa using hmesh
    rcases hend with he | he | he | he | he | he <;>
      simp [GenerateMesh, GenerateMesh_line423, GenerateMesh_line429, GenerateMesh_line438,
        GenerateMesh_line445, GenerateMesh_line460, GenerateMesh_line464, hs, he, hterm, hvol,
        MESHCONST_ANALYSE, MESHCONST_MESHEDGES, MESHCONST_MESHSURFACE, MESHCONST_OPTSURFACE,
        MESHCONST_MESHVOLUME, MESHCONST_OPTVOLUME, calls, stageCalls, allStages, Analyse]
  | some m =>
    rcases hstart with hs | hs | hs | hs | hs | hs <;>
    rcases hend with he | he | he | he | he | he <;>
      simp [GenerateMesh, GenerateMesh_line423, GenerateMesh_line429, GenerateMesh_line438,
        GenerateMesh_line445, GenerateMesh_line460, GenerateMesh_line464, hs, he, hterm, hvol,
        MESHCONST_ANALYSE, MESHCONST_MESHEDGES, MESHCONST_MESHSURFACE, MESHCONST_OPTSURFACE,
        MESHCONST_MESHVOLUME, MESHCONST_OPTVOLUME, calls, stageCalls, allStages, Analyse]

/-- Witness of C1: the window `start = end = Analyse` on a fresh mesh. -/
theorem GenerateMesh_executes_stage_window_witness :
    ∃ res, GenerateMesh (exampleStages MESHING3_RESULT.MESHING3_OK) (fun _ => false) none
        (exampleParams 1 1) = some res ∧
      res.status = 0 ∧ calls res.events = [Call.Analyse] ∧
      ∃ m, res.mesh = some m ∧ m.segments = [] ∧ m.surfelements = [] := by
  obtain ⟨res, h1, h2, -, h4⟩ := GenerateMesh_executes_stage_window
    (exampleStages MESHING3_RESULT.MESHING3_OK) (fun _ => false) none (exampleParams 1 1)
    (by simp [allStages, exampleParams, MESHCONST_ANALYSE])
    (by simp [allStages, exampleParams, MESHCONST_ANALYSE])
    (Or.inr rfl) (fun _ => rfl) (fun _ => rfl)
  obtain ⟨h5, m, h6, -, h7, h8⟩ := h4 rfl rfl
  exact ⟨res, h1, h2, h5, m, h6, h7, h8⟩

theorem mem_calls (c : Call) (l : List Event) : c ∈ calls l ↔ Event.call c ∈ l := by
  induction l with
  | nil => simp [calls]
  | cons e es ih => cases e <;> simp [calls, ih]

theorem pairwise_before_last {α : Type} {R : α → α → Prop} {l : List α} {x : α}
    (hp : l.Pairwise R) (hl : l.getLast? = some x) : ∀ e ∈ l, e = x ∨ R e x := by
  obtain ⟨ys, rfl⟩ := List.getLast?_eq_some_iff.1 hl
  intro e he
  rw [List.pairwise_append] at hp
  rcases List.mem_append.1 he with he | he
  · exact Or.inr (hp.2.2 e he x (by simp))
  · exact Or.inl (by simpa using he)

theorem GenerateMesh_events_ok (st : Stages) (terminate : CheckPoint → Bool)
    (mesh : Option Mesh) (mparam : MeshingParameters) (res : GenerateMeshResult)
    (h : GenerateMesh st terminate mesh mparam = some res) :
    TailOk st mparam 408 res.events res.status ∧
      res.mesh = replay st mparam (calls res.events) mesh := by
  obtain ⟨tail, h1, h2, h3⟩ := GenerateMesh_spec st terminate mesh mparam res h
  simp only [List.nil_append] at h1
  rw [h1]
  exact ⟨h2, h3⟩

theorem GenerateMesh_line423_FindEdges (st : Stages) (terminate : CheckPoint → Bool)
    (mparam : MeshingParameters) (r : Run) (res : GenerateMeshResult)
    (h : GenerateMesh_line423 st terminate mparam r = some res)
    (hs : mparam.perfstepsstart ≤ MESHCONST_MESHEDGES) :
    Event.call Call.FindEdges ∈ res.events := by
  unfold GenerateMesh_line423 at h
  simp only [hs, if_true] at h
  cases hm : r.mesh with
  | none => simp [hm] at h
  | some m =>
    simp only [hm] at h
    split_ifs at h with h2
    · simp only [Option.some.injEq] at h
      subst h
      simp
    · obtain ⟨tail, e1, -, -⟩ := GenerateMesh_line429_spec st terminate mparam _ res h
      rw [e1]
      simp

theorem GenerateMesh_line426_reached (st : Stages) (terminate : CheckPoint → Bool)
    (mesh : Option Mesh) (mparam : MeshingParameters) (res : GenerateMeshResult)
    (h : GenerateMesh st terminate mesh mparam = some res)
    (hchk : Event.check CheckPoint.line426 true ∈ res.events)
    (hs : mparam.perfstepsstart ≤ MESHCONST_MESHEDGES) :
    Event.call Call.FindEdges ∈ res.events := by
  unfold GenerateMesh at h
  split_ifs at h with h1 h2 h3
  · simp only [Option.some.injEq] at h
    subst h
    simp at hchk
  · exact GenerateMesh_line423_FindEdges st terminate mparam _ res h hs
  · simp only [Option.some.injEq] at h
    subst h
    simp at hchk
  · exact GenerateMesh_line423_FindEdges st terminate mparam _ res h hs

/-- C2.  `GenerateMesh` returns whenever the mesh pointer is non-null or the run
starts with Analyse.  For every stage `s` after Analyse: if the read of the
cancellation flag at the stage boundary immediately before `s` yields true,
then `GenerateMesh` returns 0, that read is the last event of the run, every
function called belongs to a stage before `s` (so neither `s` nor a later
stage nor `FinalizeMesh` is executed), and the mesh returned is exactly the
result of the calls made, applied in order to the initial mesh.  For `s` =
MeshSurface and a run that includes MeshEdges, `FindEdges` has been called and
`MeshSurface` has not. -/
theorem GenerateMesh_cancel_before_stage (st : Stages) (terminate : CheckPoint → Bool)
    (mesh : Option Mesh) (mparam : MeshingParameters) (s : Int)
    (hs : s ∈ allStages) (hs1 : s ≠ MESHCONST_ANALYSE) :
    ((mesh ≠ none ∨ mparam.perfstepsstart ≤ MESHCONST_ANALYSE) →
      ∃ res, GenerateMesh st terminate mesh mparam = some res) ∧
    ∀ res, GenerateMesh st terminate mesh mparam = some res →
      Event.check (boundaryBefore s) true ∈ res.events →
        res.status = 0 ∧
        res.events.getLast? = some (Event.check (boundaryBefore s) true) ∧
        (∀ c ∈ calls res.events, c.stage < s) ∧
        res.mesh = replay st mparam (calls res.events) mesh ∧
        (s = MESHCONST_MESHSURFACE → mparam.perfstepsstart ≤ MESHCONST_MESHEDGES →
          Call.FindEdges ∈ calls res.events ∧ Call.MeshSurface ∉ calls res.events ∧
          Call.CalcSurfacesOfNode ∉ calls res.events) := by
  refine ⟨GenerateMesh_isSome st terminate mesh mparam, ?_⟩
  intro res h hchk
  obtain ⟨⟨hp, -, hc, -, -, -, -⟩, hm⟩ := GenerateMesh_events_ok st terminate mesh mparam res h
  obtain ⟨h0, hlast⟩ := hc _ hchk
  have hstage : ∀ c ∈ calls res.events, c.stage < s := by
    intro c hcm
    rw [mem_calls] at hcm
    have hlt := pairwise_before_last hp hlast _ hcm
    simp only [false_or] at hlt
    simp only [allStages, List.mem_cons, List.mem_singleton, List.not_mem_nil, or_false] at hs
    rcases hs with hs | hs | hs | hs | hs | hs
    · exact absurd hs hs1
    all_goals
      subst hs
      cases c <;>
        simp [boundaryBefore, Event.line, Call.stage, MESHCONST_ANALYSE, MESHCONST_MESHEDGES,
          MESHCONST_MESHSURFACE, MESHCONST_OPTSURFACE, MESHCONST_MESHVOLUME,
          MESHCONST_OPTVOLUME] at hlt ⊢
  refine ⟨h0, hlast, hstage, hm, ?_⟩
  intro hs3 hstart
  subst hs3
  refine ⟨?_, ?_, ?_⟩
  · rw [mem_calls]
    refine GenerateMesh_line426_reached st terminate mesh mparam res h ?_ hstart
    simpa [boundaryBefore, MESHCONST_MESHEDGES, MESHCONST_MESHSURFACE] using hchk
  · intro hc
    have := hstage _ hc
    simp [Call.stage] at this
  · intro hc
    have := hstage _ hc
    simp [Call.stage] at this

/-- Witness of C2: a full-window run on a fresh mesh in which the flag is set
when line 426 is reached. -/
theorem GenerateMesh_cancel_before_stage_witness :
    ∃ res, GenerateMesh (exampleStages MESHING3_RESULT.MESHING3_OK)
        (cancelAt CheckPoint.line426) none (exampleParams 1 6) = some res ∧
      Event.check (boundaryBefore MESHCONST_MESHSURFACE) true ∈ res.events ∧
      res.status = 0 ∧
      res.events.getLast? = some (Event.check (boundaryBefore MESHCONST_MESHSURFACE) true) ∧
      (∀ c ∈ calls res.events, c.stage < MESHCONST_MESHSURFACE) ∧
      Call.FindEdges ∈ calls res.events ∧ Call.MeshSurface ∉ calls res.events := by
  have hrun : GenerateMesh (exampleStages MESHING3_RESULT.MESHING3_OK)
      (cancelAt CheckPoint.line426) none (exampleParams 1 6) =
      some ⟨0, some (Analyse (fun _ g => g) exampleMesh (exampleParams 1 6)),
        [Event.call Call.Analyse, Event.check CheckPoint.line420 false,
         Event.call Call.FindEdges, Event.check CheckPoint.line426 true]⟩ := by
    simp [GenerateMesh, GenerateMesh_line423, exampleStages, exampleParams, cancelAt,
      MESHCONST_ANALYSE, MESHCONST_MESHEDGES, exampleMesh]
  have hchk : Event.check (boundaryBefore MESHCONST_MESHSURFACE) true ∈
      (GenerateMeshResult.mk 0 (some (Analyse (fun _ g => g) exampleMesh (exampleParams 1 6)))
        [Event.call Call.Analyse, Event.check CheckPoint.line420 false,
         Event.call Call.FindEdges, Event.check CheckPoint.line426 true]).events := by
    simp [boundaryBefore, MESHCONST_MESHSURFACE, MESHCONST_MESHEDGES]
  have h := (GenerateMesh_cancel_before_stage (exampleStages MESHING3_RESULT.MESHING3_OK)
    (cancelAt CheckPoint.line426) none (exampleParams 1 6) MESHCONST_MESHSURFACE
    (by simp [allStages]) (by simp [MESHCONST_MESHSURFACE, MESHCONST_ANALYSE])).2 _ hrun hchk
  exact ⟨_, hrun, hchk, h.1, h.2.1, h.2.2.1,
    (h.2.2.2.2 rfl (by simp [exampleParams, MESHCONST_MESHEDGES])).1,
    (h.2.2.2.2 rfl (by simp [exampleParams, MESHCONST_MESHEDGES])).2.1⟩

/-- C3.  `GenerateMesh` returns whenever the mesh pointer is non-null or the run
starts with Analyse.  It returns 1 if and only if the volume mesher was called
and returned a result other than `MESHING3_OK`.  In that case, whatever the
values read from the cancellation flag, the failing call is the last event of
the run and the only call of the volume mesher, and `RemoveIllegalElements`,
`MeshQuality3d`, `OptimizeVolume` and `FinalizeMesh` are not called. -/
theorem GenerateMesh_failure_iff_volume_failure (st : Stages) (terminate : CheckPoint → Bool)
    (mesh : Option Mesh) (mparam : MeshingParameters) :
    ((mesh ≠ none ∨ mparam.perfstepsstart ≤ MESHCONST_ANALYSE) →
      ∃ res, GenerateMesh st terminate mesh mparam = some res) ∧
    ∀ res, GenerateMesh st terminate mesh mparam = some res →
      (res.status = 1 ↔
        ∃ rr, rr ≠ MESHING3_RESULT.MESHING3_OK ∧ Call.MeshVolume rr ∈ calls res.events ∧
          ∃ m, (st.MeshVolume mparam m).1 = rr) ∧
      (res.status = 1 →
        ∃ rr, res.events.getLast? = some (Event.call (Call.MeshVolume rr)) ∧
          (calls res.events).filter Call.isMeshVolume = [Call.MeshVolume rr] ∧
          Call.RemoveIllegalElements ∉ calls res.events ∧
          Call.MeshQuality3d ∉ calls res.events ∧
          Call.OptimizeVolume ∉ calls res.events ∧
          Call.FinalizeMesh ∉ calls res.events) := by
  refine ⟨GenerateMesh_isSome st terminate mesh mparam, ?_⟩
  intro res h
  obtain ⟨⟨hp, -, -, -, h5, h6, h7⟩, -⟩ := GenerateMesh_events_ok st terminate mesh mparam res h
  constructor
  · constructor
    · intro h1
      obtain ⟨code, hl⟩ := h5 h1
      have hmem : Event.call (Call.MeshVolume (MESHING3_RESULT.failed code)) ∈ res.events :=
        List.mem_of_mem_getLast? (by rw [hl]; rfl)
      exact ⟨_, by simp, (mem_calls _ _).2 hmem, h7 _ hmem⟩
    · rintro ⟨rr, hne, hmem, -⟩
      cases rr with
      | MESHING3_OK => exact absurd rfl hne
      | failed code => exact h6 code ((mem_calls _ _).1 hmem)
  · intro h1
    obtain ⟨code, hl⟩ := h5 h1
    have hbefore := pairwise_before_last hp hl
    obtain ⟨ys, hys⟩ := List.getLast?_eq_some_iff.1 hl
    have hother : ∀ c, Event.call c ∈ res.events →
        c = Call.MeshVolume (MESHING3_RESULT.failed code) ∨ (Event.call c).line < 449 := by
      intro c hc
      rcases hbefore _ hc with he | he
      · exact Or.inl (by simpa using he)
      · exact Or.inr (by simpa [Event.line] using he)
    have hys' : ∀ c ∈ calls ys, Call.isMeshVolume c = false := by
      intro c hc
      rw [mem_calls] at hc
      rw [hys, List.pairwise_append] at hp
      have := hp.2.2 _ hc (Event.call (Call.MeshVolume (MESHING3_RESULT.failed code))) (by simp)
      cases c <;> simp [Event.line, Call.isMeshVolume] at this ⊢
    refine ⟨_, hl, ?_, ?_, ?_, ?_, ?_⟩
    · rw [hys, calls_append, List.filter_append]
      have : (calls ys).filter Call.isMeshVolume = [] := by
        rw [List.filter_eq_nil_iff]
        intro c hc
        simp [hys' c hc]
      simp [this, calls, Call.isMeshVolume]
    all_goals
      intro hc
      rw [mem_calls] at hc
      rcases hother _ hc with he | he
      · simp at he
      · simp [Event.line] at he

/-- Witness of C3: a full-window run in which the volume mesher gives up. -/
theorem GenerateMesh_failure_iff_volume_failure_witness :
    ∃ res, GenerateMesh (exampleStages (MESHING3_RESULT.failed 1)) (fun _ => false)
        none (exampleParams 1 6) = some res ∧ res.status = 1 ∧
      (calls res.events).filter Call.isMeshVolume =
        [Call.MeshVolume (MESHING3_RESULT.failed 1)] ∧
      Call.FinalizeMesh ∉ calls res.events := by
  have hrun : GenerateMesh (exampleStages (MESHING3_RESULT.failed 1)) (fun _ => false)
      none (exampleParams 1 6) =
      some ⟨1, some (Analyse (fun _ g => g) exampleMesh (exampleParams 1 6)),
        [Event.call Call.Analyse, Event.check CheckPoint.line420 false,
         Event.call Call.FindEdges, Event.check CheckPoint.line426 false,
         Event.call Call.MeshSurface, Event.call Call.CalcSurfacesOfNode,
         Event.check CheckPoint.line435 false, Event.call Call.OptimizeSurface,
         Event.check CheckPoint.line441 false,
         Event.call (Call.MeshVolume (MESHING3_RESULT.failed 1))]⟩ := by
    simp [GenerateMesh, GenerateMesh_line423, GenerateMesh_line429, GenerateMesh_line438,
      GenerateMesh_line445, exampleStages, exampleParams,
      MESHCONST_ANALYSE, MESHCONST_MESHEDGES, MESHCONST_MESHSURFACE, MESHCONST_OPTSURFACE,
      MESHCONST_MESHVOLUME, exampleMesh]
  have h := (GenerateMesh_failure_iff_volume_failure (exampleStages (MESHING3_RESULT.failed 1))
    (fun _ => false) none (exampleParams 1 6)).2 _ hrun
  have h1 := h.1.2 ⟨MESHING3_RESULT.failed 1, by simp, by simp [calls], exampleMesh, rfl⟩
  obtain ⟨rr, hl, hf, -, -, -, hfin⟩ := h.2 h1
  have hrr : rr = MESHING3_RESULT.failed 1 := by simpa using hl.symm
  subst hrr
  exact ⟨_, hrun, h1, hf, hfin⟩

/-- C10, as stated, fails: a run halted by cancellation before MeshSurface and
a run that completes every stage and finalizes both return 0. -/
theorem GenerateMesh_incomplete_status_eq_success :
    ∃ rc rs,
      GenerateMesh (exampleStages MESHING3_RESULT.MESHING3_OK) (cancelAt CheckPoint.line426)
        none (exampleParams 1 6) = some rc ∧
      calls rc.events = [Call.Analyse, Call.FindEdges] ∧
      Event.check CheckPoint.line426 true ∈ rc.events ∧
      GenerateMesh (exampleStages MESHING3_RESULT.MESHING3_OK) (fun _ => false)
        none (exampleParams 1 6) = some rs ∧
      calls rs.events = [Call.Analyse, Call.FindEdges, Call.MeshSurface,
        Call.CalcSurfacesOfNode, Call.OptimizeSurface,
        Call.MeshVolume MESHING3_RESULT.MESHING3_OK, Call.RemoveIllegalElements,
        Call.MeshQuality3d, Call.OptimizeVolume, Call.FinalizeMesh] ∧
      rc.status = 0 ∧ rs.status = 0 ∧ ¬ rc.status ≠ rs.status := by
  refine ⟨⟨0, some (Analyse (fun _ g => g) exampleMesh (exampleParams 1 6)),
        [Event.call Call.Analyse, Event.check CheckPoint.line420 false,
         Event.call Call.FindEdges, Event.check CheckPoint.line426 true]⟩,
     ⟨0, some (Analyse (fun _ g => g) exampleMesh (exampleParams 1 6)),
        [Event.call Call.Analyse, Event.check CheckPoint.line420 false,
         Event.call Call.FindEdges, Event.check CheckPoint.line426 false,
         Event.call Call.MeshSurface, Event.call Call.CalcSurfacesOfNode,
         Event.check CheckPoint.line435 false, Event.call Call.OptimizeSurface,
         Event.check CheckPoint.line441 false,
         Event.call (Call.MeshVolume MESHING3_RESULT.MESHING3_OK),
         Event.check CheckPoint.line452 false, Event.call Call.RemoveIllegalElements,
         Event.check CheckPoint.line455 false, Event.call Call.MeshQuality3d,
         Event.check CheckPoint.line460 false, Event.call Call.OptimizeVolume,
         Event.check CheckPoint.line469 false, Event.call Call.FinalizeMesh]⟩, ?_, ?_, ?_, ?_, ?_⟩
  · simp [GenerateMesh, GenerateMesh_line423, exampleStages, exampleParams, cancelAt,
      MESHCONST_ANALYSE, MESHCONST_MESHEDGES, exampleMesh]
  · simp [calls]
  · simp
  · simp [GenerateMesh, GenerateMesh_line423, GenerateMesh_line429, GenerateMesh_line438,
      GenerateMesh_line445, GenerateMesh_line460, GenerateMesh_line464, exampleStages,
      exampleParams, MESHCONST_ANALYSE, MESHCONST_MESHEDGES, MESHCONST_MESHSURFACE,
      MESHCONST_OPTSURFACE, MESHCONST_MESHVOLUME, MESHCONST_OPTVOLUME, exampleMesh]
  · simp [calls]

/-- C10 as amended.  A run halted by cancellation (some read of the flag yields
true) returns 0, a run that reaches `FinalizeMesh` returns 0 as well, and a
run in which the volume mesher fails returns 1: the status of an incomplete
run equals that of a successful one, and only the failure status differs from
them. -/
theorem GenerateMesh_status_values (st : Stages) (terminate : CheckPoint → Bool)
    (mesh : Option Mesh) (mparam : MeshingParameters) (res : GenerateMeshResult)
    (h : GenerateMesh st terminate mesh mparam = some res) :
    ((∃ cp, Event.check cp true ∈ res.events) → res.status = 0) ∧
    (Call.FinalizeMesh ∈ calls res.events → res.status = 0) ∧
    ((∃ code, Call.MeshVolume (MESHING3_RESULT.failed code) ∈ calls res.events) →
      res.status = 1) ∧
    (res.status = 0 ∨ res.status = 1) ∧ (0 : Int) ≠ 1 := by
  obtain ⟨⟨hp, -, h3, h4, h5, h6, -⟩, -⟩ := GenerateMesh_events_ok st terminate mesh mparam res h
  refine ⟨?_, ?_, ?_, h4, by decide⟩
  · rintro ⟨cp, hcp⟩
    exact (h3 cp hcp).1
  · intro hf
    rw [mem_calls] at hf
    rcases h4 with h0 | h1
    · exact h0
    · obtain ⟨code, hl⟩ := h5 h1
      rcases pairwise_before_last hp hl _ hf with he | he
      · simp at he
      · simp [Event.line] at he
  · rintro ⟨code, hc⟩
    exact h6 code ((mem_calls _ _).1 hc)

/-- Witness of the amended C10: the run cancelled at line 426. -/
theorem GenerateMesh_status_values_witness :
    ∃ res, GenerateMesh (exampleStages MESHING3_RESULT.MESHING3_OK)
        (cancelAt CheckPoint.line426) none (exampleParams 1 6) = some res ∧
      ((∃ cp, Event.check cp true ∈ res.events) → res.status = 0) := by
  have hrun : GenerateMesh (exampleStages MESHING3_RESULT.MESHING3_OK)
      (cancelAt CheckPoint.line426) none (exampleParams 1 6) =
      some ⟨0, some (Analyse (fun _ g => g) exampleMesh (exampleParams 1 6)),
        [Event.call Call.Analyse, Event.check CheckPoint.line420 false,
         Event.call Call.FindEdges, Event.check CheckPoint.line426 true]⟩ := by
    simp [GenerateMesh, GenerateMesh_line423, exampleStages, exampleParams, cancelAt,
      MESHCONST_ANALYSE, MESHCONST_MESHEDGES, exampleMesh]
  exact ⟨_, hrun, (GenerateMesh_status_values _ _ _ _ _ hrun).1⟩

/-! ## Theorems about `FindEdges` -/

theorem SetSize_length {α : Type} (a : List α) (n : Nat) (fill : α) :
    (SetSize a n fill).length = n := by
  simp only [SetSize, List.length_append, List.length_take, List.length_replicate]
  omega

theorem SetSize_of_le {α : Type} (a : List α) (n : Nat) (fill : α) (h : n ≤ a.length) :
    SetSize a n fill = a.take n := by
  simp [SetSize, Nat.sub_eq_zero_of_le h]

theorem getD_take_of_lt {α : Type} (a : List α) (n k : Nat) (d : α) (h : k < n) :
    (a.take n).getD k d = a.getD k d := by
  simp [List.getD_eq_getElem?_getD, List.getElem?_take, h]

theorem getD_set_self {α : Type} (a : List α) (k : Nat) (v d : α) (h : k < a.length) :
    (a.set k v).getD k d = v := by
  simp [List.getD_eq_getElem?_getD, List.getElem?_set, h]

theorem getD_set_of_ne {α : Type} (a : List α) (k k' : Nat) (v d : α) (h : k ≠ k') :
    (a.set k v).getD k' d = a.getD k' d := by
  simp [List.getD_eq_getElem?_getD, List.getElem?_set, h]

theorem divideBody_record (edge : GeometryEdge) (hv : Nat → ℚ) (s : DivideState)
    (hc : crossing hv s) (h1 : s.i1 + 1 ≤ divide_edge_sections) :
    divideBody edge hv s =
      { s with
        params := s.params.set s.i ((s.i1 : ℚ) / (divide_edge_sections : ℚ))
        mps := s.mps.set (s.i - 1) (edge.GetPoint
          ((s.params.set s.i ((s.i1 : ℚ) / (divide_edge_sections : ℚ))).getD s.i 0))
        i := s.i + 1
        i1 := s.i1 + 1 } := by
  have h2 : ¬ s.i1 + 1 > divide_edge_sections := by omega
  unfold crossing at hc
  simp only [divideBody, hc, h2, if_true, if_false]

theorem divideBody_record_last (edge : GeometryEdge) (hv : Nat → ℚ) (s : DivideState)
    (hc : crossing hv s) (h1 : s.i1 + 1 > divide_edge_sections) :
    divideBody edge hv s =
      { i := s.i + 1
        i1 := s.i1 + 1
        nsubedges := s.i + 1
        mps := SetSize (s.mps.set (s.i - 1) (edge.GetPoint
          ((s.params.set s.i ((s.i1 : ℚ) / (divide_edge_sections : ℚ))).getD s.i 0)))
          (s.i + 1 - 1) ⟨0, 0, 0⟩
        params := SetSize (s.params.set s.i ((s.i1 : ℚ) / (divide_edge_sections : ℚ)))
          (s.i + 1 + 1) 0 } := by
  unfold crossing at hc
  simp only [divideBody, hc, h1, if_true]

theorem divideBody_skip (edge : GeometryEdge) (hv : Nat → ℚ) (s : DivideState)
    (hc : ¬ crossing hv s) (h1 : s.i1 + 1 ≤ divide_edge_sections) :
    divideBody edge hv s = { s with i1 := s.i1 + 1 } := by
  have h2 : ¬ s.i1 + 1 > divide_edge_sections := by omega
  unfold crossing at hc
  simp only [divideBody, hc, h2, if_false]

theorem divideBody_skip_last (edge : GeometryEdge) (hv : Nat → ℚ) (s : DivideState)
    (hc : ¬ crossing hv s) (h1 : s.i1 + 1 > divide_edge_sections) :
    divideBody edge hv s =
      { i := s.i
        i1 := s.i1 + 1
        nsubedges := s.i
        mps := SetSize s.mps (s.i - 1) ⟨0, 0, 0⟩
        params := SetSize s.params (s.i + 1) 0 } := by
  unfold crossing at hc
  simp only [divideBody, hc, h1, if_true, if_false]

theorem divideBody_i1 (edge : GeometryEdge) (hv : Nat → ℚ) (s : DivideState) :
    (divideBody edge hv s).i1 = s.i1 + 1 := by
  by_cases hc : crossing hv s <;> by_cases h1 : s.i1 + 1 ≤ divide_edge_sections
  · rw [divideBody_record edge hv s hc h1]
  · rw [divideBody_record_last edge hv s hc (by omega)]
  · rw [divideBody_skip edge hv s hc h1]
  · rw [divideBody_skip_last edge hv s hc (by omega)]

/-- Induction over the `do ... while` loop: `P` holds when the body is entered,
`Q` when the loop is left. -/
theorem divideLoop_exit (edge : GeometryEdge) (hv : Nat → ℚ) (P Q : DivideState → Prop)
    (hstep : ∀ s, P s → s.i1 ≤ divide_edge_sections ∧
      ((divideBody edge hv s).i < (divideBody edge hv s).nsubedges → P (divideBody edge hv s)) ∧
      (¬ (divideBody edge hv s).i < (divideBody edge hv s).nsubedges →
        Q (divideBody edge hv s))) :
    ∀ fuel s, P s → divide_edge_sections + 1 - s.i1 ≤ fuel → Q (divideLoop edge hv fuel s) := by
  intro fuel
  induction fuel with
  | zero =>
    intro s hP hf
    have := (hstep s hP).1
    omega
  | succ fuel ih =>
    intro s hP hf
    obtain ⟨h1, h2, h3⟩ := hstep s hP
    simp only [divideLoop]
    split_ifs with hc
    · refine ih _ (h2 hc) ?_
      rw [divideBody_i1]
      omega
    · exact h3 hc

theorem Recorded_of_eq (edge : GeometryEdge) (s s' : DivideState)
    (hi : s'.i = s.i) (hi1 : s.i1 ≤ s'.i1)
    (hp : ∀ k, k < s.i → s'.params.getD k 0 = s.params.getD k 0)
    (hm : ∀ k, 1 ≤ k → k < s.i → s'.mps.getD (k - 1) ⟨0, 0, 0⟩ = s.mps.getD (k - 1) ⟨0, 0, 0⟩)
    (h : Recorded edge s) : Recorded edge s' := by
  obtain ⟨h1, h2⟩ := h
  constructor
  · intro k hk1 hk2
    rw [hi] at hk2
    obtain ⟨j, hj1, hj2, hj3, hj4⟩ := h1 k hk1 hk2
    exact ⟨j, hj1, lt_of_lt_of_le hj2 hi1, by rw [hp k hk2, hj3],
      by rw [hm k hk1 hk2, hp k hk2, hj4]⟩
  · intro k k' hk1 hk2 hk3
    rw [hi] at hk3
    rw [hp k (by omega), hp k' hk3]
    exact h2 k k' hk1 hk2 hk3

/-- Recording the quantile `s.i` at the sample `s.i1`. -/
theorem Recorded_record (edge : GeometryEdge) (s : DivideState)
    (hi : 1 ≤ s.i) (hi1 : s.i ≤ s.i1) (hplen : s.i < s.params.length)
    (hmlen : s.i - 1 < s.mps.length) (h : Recorded edge s) :
    Recorded edge
      { s with
        params := s.params.set s.i ((s.i1 : ℚ) / (divide_edge_sections : ℚ))
        mps := s.mps.set (s.i - 1) (edge.GetPoint
          ((s.params.set s.i ((s.i1 : ℚ) / (divide_edge_sections : ℚ))).getD s.i 0))
        i := s.i + 1
        i1 := s.i1 + 1 } := by
  obtain ⟨h1, h2⟩ := h
  have hself : (s.params.set s.i ((s.i1 : ℚ) / (divide_edge_sections : ℚ))).getD s.i 0 =
      (s.i1 : ℚ) / (divide_edge_sections : ℚ) := getD_set_self _ _ _ _ hplen
  constructor
  · intro k hk1 hk2
    simp only at hk2 ⊢
    by_cases hk : k = s.i
    · subst hk
      refine ⟨s.i1, hi1, by omega, hself, ?_⟩
      rw [getD_set_self _ _ _ _ hmlen]
    · have hk3 : k < s.i := by omega
      obtain ⟨j, hj1, hj2, hj3, hj4⟩ := h1 k hk1 hk3
      refine ⟨j, hj1, by omega, ?_, ?_⟩
      · rw [getD_set_of_ne _ _ _ _ _ (by omega), hj3]
      · rw [getD_set_of_ne _ _ _ _ _ (by omega), getD_set_of_ne _ _ _ _ _ (by omega), hj4]
  · intro k k' hk1 hk2 hk3
    simp only at hk3 ⊢
    by_cases hk : k' = s.i
    · subst hk
      obtain ⟨j, hj1, hj2, hj3, -⟩ := h1 k hk1 hk2
      rw [getD_set_of_ne _ _ _ _ _ (by omega), hself, hj3]
      have : (j : ℚ) < (s.i1 : ℚ) := by exact_mod_cast hj2
      have hpos : (0 : ℚ) < (divide_edge_sections : ℚ) := by norm_num [divide_edge_sections]
      exact div_lt_div_of_pos_right this hpos
    · rw [getD_set_of_ne _ _ _ _ _ (by omega), getD_set_of_ne _ _ _ _ _ (by omega)]
      exact h2 k k' hk1 hk2 (by omega)

theorem not_crossing_zero (hv : Nat → ℚ) (s : DivideState) (h0 : hv 0 = 0)
    (hi1 : s.i1 = 0) (hi : 1 ≤ s.i) : ¬ crossing hv s := by
  unfold crossing
  rw [hi1, h0]
  simp only [zero_div, zero_mul, ge_iff_le, not_le]
  exact_mod_cast hi

theorem Recorded_take (edge : GeometryEdge) (s : DivideState) (n i1' : Nat)
    (hi1 : s.i1 ≤ i1') (h : Recorded edge s) :
    Recorded edge
      { i := s.i, i1 := i1', nsubedges := n
        mps := s.mps.take (s.i - 1), params := s.params.take (s.i + 1) } := by
  refine Recorded_of_eq edge s _ rfl hi1 ?_ ?_ h
  · intro k hk
    exact getD_take_of_lt _ _ _ _ (by omega)
  · intro k hk1 hk2
    exact getD_take_of_lt _ _ _ _ (by omega)

theorem max_one_le {i i1 : Nat} (h : i ≤ max 1 i1) : i ≤ i1 + 1 := by
  rcases le_max_iff.1 h with h | h <;> omega

/-- One pass of the body keeps the invariant, or leaves the loop in a state
that satisfies `WalkPost`. -/
theorem WalkInv_step (edge : GeometryEdge) (hv : Nat → ℚ) (n0 : Nat) (h0 : hv 0 = 0)
    (s : DivideState) (h : WalkInv edge n0 s) :
    s.i1 ≤ divide_edge_sections ∧
    ((divideBody edge hv s).i < (divideBody edge hv s).nsubedges →
      WalkInv edge n0 (divideBody edge hv s)) ∧
    (¬ (divideBody edge hv s).i < (divideBody edge hv s).nsubedges →
      WalkPost edge n0 (divideBody edge hv s)) := by
  obtain ⟨hn, hpl, hml, hi, him, hi1, hin0, hfirst, hrec⟩ := h
  refine ⟨hi1, ?_⟩
  have hile1 : s.i ≤ s.i1 + 1 := max_one_le him
  have hmax : max 1 (s.i1 + 1) = s.i1 + 1 := max_eq_right (by omega)
  by_cases hc : crossing hv s
  · -- the quantile `s.i` is recorded at the sample `s.i1`
    have hi1pos : s.i1 ≠ 0 := fun hz => not_crossing_zero hv s h0 hz hi hc
    have hlt : s.i < n0 := hfirst hi1pos
    have hile : s.i ≤ s.i1 := by
      have : max 1 s.i1 = s.i1 := max_eq_right (by omega)
      omega
    have hrec' := Recorded_record edge s hi hile (by omega) (by omega) hrec
    by_cases hlast : s.i1 + 1 ≤ divide_edge_sections
    · rw [divideBody_record edge hv s hc hlast]
      constructor
      · intro hcont
        simp only at hcont
        exact ⟨hn, by simp only [List.length_set]; omega, by simp only [List.length_set]; omega,
          by simp, by simp only; omega, hlast, by simp only; omega,
          fun _ => by simp only; omega, hrec'⟩
      · intro hexit
        simp only at hexit
        exact ⟨by simp only; omega, by simp only; omega, by simp only; omega,
          by simp only [List.length_set]; omega, by simp only [List.length_set]; omega,
          by simp only; omega, by simp only; omega, hrec', fun _ => hn⟩
    · rw [divideBody_record_last edge hv s hc (by omega)]
      constructor
      · intro hcont
        simp only at hcont
        omega
      · intro _
        have hp2 : SetSize (s.params.set s.i ((s.i1 : ℚ) / (divide_edge_sections : ℚ)))
            (s.i + 1 + 1) 0 =
            (s.params.set s.i ((s.i1 : ℚ) / (divide_edge_sections : ℚ))).take (s.i + 1 + 1) :=
          SetSize_of_le _ _ _ (by simp only [List.length_set]; omega)
        have hm2 : SetSize (s.mps.set (s.i - 1) (edge.GetPoint
            ((s.params.set s.i ((s.i1 : ℚ) / (divide_edge_sections : ℚ))).getD s.i 0)))
            (s.i + 1 - 1) ⟨0, 0, 0⟩ =
            (s.mps.set (s.i - 1) (edge.GetPoint
            ((s.params.set s.i ((s.i1 : ℚ) / (divide_edge_sections : ℚ))).getD s.i 0))).take
              (s.i + 1 - 1) :=
          SetSize_of_le _ _ _ (by simp only [List.length_set]; omega)
        refine ⟨by simp only; omega, by simp only; omega, rfl, by simp [SetSize_length],
          by simp [SetSize_length], by simp only; omega, by simp only; omega, ?_,
          fun hle => by simp only at hle; omega⟩
        rw [hp2, hm2]
        exact Recorded_take edge _ (s.i + 1) (s.i1 + 1) (le_refl _) hrec'
  · by_cases hlast : s.i1 + 1 ≤ divide_edge_sections
    · rw [divideBody_skip edge hv s hc hlast]
      have hrec' : Recorded edge { s with i1 := s.i1 + 1 } :=
        Recorded_of_eq edge s _ rfl (by simp) (fun k _ => rfl) (fun k _ _ => rfl) hrec
      constructor
      · intro hcont
        simp only at hcont
        exact ⟨hn, hpl, hml, hi, by simp only; omega, hlast, hin0,
          fun _ => by simp only; omega, hrec'⟩
      · intro hexit
        simp only at hexit
        exact ⟨by simp only; omega, by simp only; omega, by simp only; omega,
          by simp only; omega, by simp only; omega, by simp only; omega, hile1,
          hrec', fun _ => hn⟩
    · rw [divideBody_skip_last edge hv s hc (by omega)]
      constructor
      · intro hcont
        simp only at hcont
        omega
      · intro _
        rw [SetSize_of_le _ _ _ (by omega : s.i + 1 ≤ s.params.length),
          SetSize_of_le _ _ _ (by omega : s.i - 1 ≤ s.mps.length)]
        refine ⟨hi, hin0, rfl, ?_, ?_, by simp only; omega, hile1,
          Recorded_take edge s s.i (s.i1 + 1) (by omega) hrec,
          fun hle => by simp only at hle; omega⟩
        · simp only [List.length_take]
          omega
        · simp only [List.length_take]
          omega

/-- The walk is left in a state that satisfies `WalkPost`, whatever the array
`hv` with `hv 0 = 0`. -/
theorem divideWalk_post (edge : GeometryEdge) (hv : Nat → ℚ) (h0 : hv 0 = 0) :
    WalkPost edge (targetSegments hv) (divideWalk edge hv) := by
  have hn : 1 ≤ targetSegments hv := by
    unfold targetSegments
    have : (1 : ℤ) ≤ max 1 ⌊hv divide_edge_sections + 1 / 2⌋ := le_max_left _ _
    omega
  unfold divideWalk
  refine divideLoop_exit edge hv (WalkInv edge (targetSegments hv))
    (WalkPost edge (targetSegments hv)) (WalkInv_step edge hv _ h0) _ _ ?_ (by simp)
  refine ⟨rfl, by simp [SetSize_length], by simp [SetSize_length], le_refl _, by simp,
    by simp, hn, fun h => absurd rfl h, ?_, ?_⟩
  · intro k hk1 hk2
    simp only at hk2
    omega
  · intro k k' hk1 hk2 hk3
    simp only at hk3
    omega

theorem pairwise_of_getD (l : List ℚ)
    (h : ∀ a b, a < b → b < l.length → l.getD a 0 < l.getD b 0) :
    l.Pairwise (fun a b => a < b) := by
  rw [List.pairwise_iff_getElem]
  intro a b ha hb hab
  have := h a b hab hb
  rwa [List.getD_eq_getElem _ _ ha, List.getD_eq_getElem _ _ hb] at this

theorem hvalue_zero (Length : Point3 → ℚ) (GetH : Point3 → ℚ) (edgepts : List Point3) :
    hvalue Length GetH edgepts 0 = 0 := rfl

theorem fixedEnds_length (s : DivideState) : (fixedEnds s).length = s.params.length := by
  simp [fixedEnds]

theorem fixedEnds_last (s : DivideState) (h : s.params.length = s.nsubedges + 1) :
    (fixedEnds s).getD s.nsubedges 0 = 1 := by
  unfold fixedEnds
  exact getD_set_self _ _ _ _ (by simp only [List.length_set]; omega)

theorem fixedEnds_first (s : DivideState) (h : s.params.length = s.nsubedges + 1)
    (hn : 1 ≤ s.nsubedges) : (fixedEnds s).getD 0 0 = 0 := by
  unfold fixedEnds
  rw [getD_set_of_ne _ _ _ _ _ (by omega)]
  exact getD_set_self _ _ _ _ (by omega)

theorem fixedEnds_inner (s : DivideState) (k : Nat) (h1 : 1 ≤ k) (h2 : k < s.nsubedges) :
    (fixedEnds s).getD k 0 = s.params.getD k 0 := by
  unfold fixedEnds
  rw [getD_set_of_ne _ _ _ _ _ (by omega), getD_set_of_ne _ _ _ _ _ (by omega)]

theorem fixEnds_eq (s : DivideState) :
    fixEnds s =
      if (fixedEnds s).getD s.nsubedges 0 ≤ (fixedEnds s).getD (s.nsubedges - 1) 0 then
        (SetSize s.mps (s.nsubedges - 2) ⟨0, 0, 0⟩,
          (SetSize (fixedEnds s) s.nsubedges 0).set s.nsubedges 1)
      else (s.mps, fixedEnds s) := rfl

/-- The facts about the recorded parameters used below, for a state in which
the walk was left. -/
theorem WalkPost_params (edge : GeometryEdge) (n0 : Nat) (s : DivideState)
    (h : WalkPost edge n0 s) :
    (∀ k, 1 ≤ k → k < s.nsubedges → ∃ j, k ≤ j ∧ j < s.i1 ∧
      (fixedEnds s).getD k 0 = (j : ℚ) / 1000 ∧
      s.mps.getD (k - 1) ⟨0, 0, 0⟩ = edge.GetPoint ((fixedEnds s).getD k 0)) ∧
    (∀ k k', 1 ≤ k → k < k' → k' < s.nsubedges →
      (fixedEnds s).getD k 0 < (fixedEnds s).getD k' 0) := by
  obtain ⟨-, -, hi, -, -, -, -, ⟨hr1, hr2⟩, -⟩ := h
  constructor
  · intro k hk1 hk2
    obtain ⟨j, hj1, hj2, hj3, hj4⟩ := hr1 k hk1 (by omega)
    rw [fixedEnds_inner s k hk1 hk2]
    refine ⟨j, hj1, hj2, ?_, hj4⟩
    rw [hj3]
    norm_num [divide_edge_sections]
  · intro k k' hk1 hk2 hk3
    rw [fixedEnds_inner s k hk1 (by omega), fixedEnds_inner s k' (by omega) hk3]
    exact hr2 k k' hk1 hk2 (by omega)

theorem sample_lt_one {j : Nat} (h : (j : ℚ) / 1000 < 1) : j < 1000 := by
  rw [div_lt_one (by norm_num)] at h
  exact_mod_cast h

theorem sample_pos {j : Nat} (h : 1 ≤ j) : (0 : ℚ) < (j : ℚ) / 1000 := by
  have : (0 : ℚ) < (j : ℚ) := by exact_mod_cast h
  positivity

/-- After a walk that was left properly, lines 230-239 give a well-formed division
with at most 1000 segments. -/
theorem fixEnds_wellformed (edge : GeometryEdge) (n0 : Nat) (s : DivideState)
    (hpost : WalkPost edge n0 s) :
    ∃ k, 1 ≤ k ∧ k ≤ 1000 ∧ k ≤ n0 ∧ WellDivided edge k (fixEnds s).1 (fixEnds s).2 := by
  rw [fixEnds_eq]
  obtain ⟨hp1, hp2⟩ := WalkPost_params edge n0 s hpost
  obtain ⟨hn1, hn0, hi, hpl, hml, hi1, hile, -, -⟩ := hpost
  have hlast := fixedEnds_last s hpl
  have hfirst := fixedEnds_first s hpl hn1
  have hlen := fixedEnds_length s
  simp only [divide_edge_sections] at hi1
  split_ifs with hcorr
  · -- the branch of line 233
    rw [hlast] at hcorr
    have hn2 : 2 ≤ s.nsubedges := by
      by_contra hlt
      have h1 : s.nsubedges = 1 := by omega
      rw [h1] at hcorr
      simp only [Nat.sub_self] at hcorr
      rw [hfirst] at hcorr
      norm_num at hcorr
    obtain ⟨j, hj1, hj2, hj3, -⟩ := hp1 (s.nsubedges - 1) (by omega) (by omega)
    have hj : j = 1000 := by
      rw [hj3, le_div_iff₀ (by norm_num)] at hcorr
      have : (1000 : ℚ) ≤ (j : ℚ) := by linarith
      have : 1000 ≤ j := by exact_mod_cast this
      omega
    have hone : (fixedEnds s).getD (s.nsubedges - 1) 0 = 1 := by
      rw [hj3, hj]
      norm_num
    have hset : (SetSize (fixedEnds s) s.nsubedges 0).set s.nsubedges 1 =
        (fixedEnds s).take s.nsubedges := by
      rw [SetSize_of_le _ _ _ (by omega), List.set_eq_of_length_le]
      simp only [List.length_take]
      omega
    rw [hset, SetSize_of_le _ _ _ (by omega)]
    show ∃ k, 1 ≤ k ∧ k ≤ 1000 ∧ k ≤ n0 ∧
      WellDivided edge k (s.mps.take (s.nsubedges - 2)) ((fixedEnds s).take s.nsubedges)
    refine ⟨s.nsubedges - 1, by omega, by omega, by omega, ?_, ?_, ?_, ?_, ?_, ?_⟩
    · simp only [List.length_take]
      omega
    · simp only [List.length_take]
      omega
    · apply pairwise_of_getD
      intro a b hab hb
      simp only [List.length_take] at hb
      rw [getD_take_of_lt _ _ _ _ (by omega), getD_take_of_lt _ _ _ _ (by omega)]
      rcases Nat.eq_zero_or_pos a with ha | ha
      · subst ha
        rw [hfirst]
        obtain ⟨j', hj1', -, hj3', -⟩ := hp1 b (by omega) (by omega)
        rw [hj3']
        exact sample_pos (by omega)
      · exact hp2 a b ha hab (by omega)
    · rw [getD_take_of_lt _ _ _ _ (by omega)]
      exact hfirst
    · rw [getD_take_of_lt _ _ _ _ (by omega)]
      exact hone
    · intro m hm1 hm2
      rw [getD_take_of_lt _ _ _ _ (by omega), getD_take_of_lt _ _ _ _ (by omega)]
      exact (hp1 m hm1 (by omega)).choose_spec.2.2.2
  · -- no correction
    rw [hlast] at hcorr
    simp only [not_le] at hcorr
    show ∃ k, 1 ≤ k ∧ k ≤ 1000 ∧ k ≤ n0 ∧ WellDivided edge k s.mps (fixedEnds s)
    have hk1000 : s.nsubedges ≤ 1000 := by
      by_contra hgt
      obtain ⟨j, hj1, hj2, hj3, -⟩ := hp1 (s.nsubedges - 1) (by omega) (by omega)
      rw [hj3] at hcorr
      have := sample_lt_one hcorr
      omega
    refine ⟨s.nsubedges, hn1, hk1000, hn0, hml, by omega, ?_, hfirst, hlast, ?_⟩
    · apply pairwise_of_getD
      intro a b hab hb
      rcases Nat.eq_zero_or_pos a with ha | ha
      · subst ha
        rw [hfirst]
        by_cases hbn : b = s.nsubedges
        · rw [hbn, hlast]
          norm_num
        · obtain ⟨j', hj1', -, hj3', -⟩ := hp1 b (by omega) (by omega)
          rw [hj3']
          exact sample_pos (by omega)
      · by_cases hbn : b = s.nsubedges
        · rw [hbn, hlast]
          by_cases han : a = s.nsubedges - 1
          · rw [han]
            exact hcorr
          · exact lt_trans (hp2 a (s.nsubedges - 1) ha (by omega) (by omega)) hcorr
        · exact hp2 a b ha hab (by omega)
    · intro m hm1 hm2
      exact (hp1 m hm1 hm2).choose_spec.2.2.2

/-- Whatever the edge and the size field, the division of an edge is well
formed, with at least one and at most 1000 segments and not more than the
target number. -/
theorem DivideEdge_wellformed (Length : Point3 → ℚ) (GetH : Point3 → ℚ) (edge : GeometryEdge) :
    ∃ k, 1 ≤ k ∧ k ≤ 1000 ∧ k ≤ targetSegments (edgeHvalue Length GetH edge) ∧
      WellDivided edge k (DivideEdge Length GetH edge).1 (DivideEdge Length GetH edge).2 :=
  fixEnds_wellformed edge _ _ (divideWalk_post edge _ (hvalue_zero _ _ _))

theorem crossing_iff (hv : Nat → ℚ) (n0 k j : Nat) (hpos : 0 < hv divide_edge_sections) :
    hv j / hv divide_edge_sections * (n0 : ℚ) ≥ (k : ℚ) ↔
      (k : ℚ) * hv divide_edge_sections ≤ hv j * (n0 : ℚ) := by
  rw [ge_iff_le, div_mul_eq_mul_div, le_div_iff₀ hpos]

theorem hv_mono (hv : Nat → ℚ) (hm : ∀ j, j < divide_edge_sections → hv j ≤ hv (j + 1))
    (a b : Nat) (hab : a ≤ b) (hb : b ≤ divide_edge_sections) : hv a ≤ hv b := by
  induction b with
  | zero =>
    have : a = 0 := by omega
    rw [this]
  | succ b ih =>
    rcases Nat.eq_or_lt_of_le hab with h | h
    · rw [h]
    · exact le_trans (ih (by omega) (by omega)) (hm b (by omega))

theorem GentleInv_step (edge : GeometryEdge) (hv : Nat → ℚ) (n0 : Nat) (hg : Gentle hv n0)
    (s : DivideState) (h : WalkInv edge n0 s ∧ GentleInv hv n0 s) :
    s.i1 ≤ divide_edge_sections ∧
    ((divideBody edge hv s).i < (divideBody edge hv s).nsubedges →
      WalkInv edge n0 (divideBody edge hv s) ∧ GentleInv hv n0 (divideBody edge hv s)) ∧
    (¬ (divideBody edge hv s).i < (divideBody edge hv s).nsubedges →
      WalkPost edge n0 (divideBody edge hv s) ∧ GentlePost hv n0 (divideBody edge hv s)) := by
  obtain ⟨hw, hginv, hrec⟩ := h
  obtain ⟨h0, hmono, hinc, hpos⟩ := hg
  obtain ⟨hw1, hw2, hw3⟩ := WalkInv_step edge hv n0 h0 s hw
  obtain ⟨hn, hpl, hml, hi, him, hi1, hin0, hfirst, -⟩ := hw
  refine ⟨hw1, ?_⟩
  suffices hmain : s.i1 + 1 ≤ divide_edge_sections ∧
      ((divideBody edge hv s).i < (divideBody edge hv s).nsubedges →
        GentleInv hv n0 (divideBody edge hv s)) ∧
      ∀ k, 1 ≤ k → k < (divideBody edge hv s).i →
        ∃ j : Nat, j < (divideBody edge hv s).i1 ∧
          (divideBody edge hv s).params.getD k 0 = (j : ℚ) / 1000 ∧
          FirstCrossing hv n0 k j by
    refine ⟨fun hc => ⟨hw2 hc, hmain.2.1 hc⟩, fun hc => ⟨hw3 hc, ?_, hmain.2.2⟩⟩
    rw [divideBody_i1]
    exact hmain.1
  rcases Nat.eq_zero_or_pos s.i1 with hz | hp
  · -- first pass: nothing is recorded at sample 0
    have hc : ¬ crossing hv s := not_crossing_zero hv s h0 hz hi
    have hlast : s.i1 + 1 ≤ divide_edge_sections := by
      simp only [divide_edge_sections]
      omega
    have hi_one : s.i = 1 := by
      rw [hz] at him
      simp at him
      omega
    rw [divideBody_skip edge hv s hc hlast]
    refine ⟨hlast, ?_, ?_⟩
    · intro hcont
      simp only at hcont
      have hn2 : 2 ≤ n0 := by omega
      refine ⟨Or.inr ?_, ?_⟩
      · simp only [hz, zero_add, Nat.sub_self, h0, zero_mul, hi_one, Nat.cast_one, sub_self,
          one_mul]
        exact ⟨le_refl _, hpos hn2⟩
      · intro k hk1 hk2
        simp only at hk2
        omega
    · intro k hk1 hk2
      simp only at hk2
      omega
  · -- later passes
    have hlt : s.i < n0 := hfirst (by omega)
    have hn2 : 2 ≤ n0 := by omega
    have hH := hpos hn2
    rcases hginv with hz | ⟨hlo, hhi⟩
    · omega
    have hstep : hv s.i1 * (n0 : ℚ) ≤ hv (s.i1 - 1) * (n0 : ℚ) + hv divide_edge_sections := by
      have := hinc (s.i1 - 1) (by omega)
      rw [Nat.sub_add_cancel hp] at this
      linarith
    have hge : hv (s.i1 - 1) * (n0 : ℚ) ≤ hv s.i1 * (n0 : ℚ) := by
      have := hmono (s.i1 - 1) (by omega)
      rw [Nat.sub_add_cancel hp] at this
      exact mul_le_mul_of_nonneg_right this (by positivity)
    have hlast : s.i1 + 1 ≤ divide_edge_sections := by
      by_contra hcon
      have hi1eq : s.i1 = divide_edge_sections := by omega
      rw [hi1eq] at hstep hhi
      have hcast : (s.i : ℚ) + 1 ≤ (n0 : ℚ) := by exact_mod_cast hlt
      have h1 : ((s.i : ℚ) + 1) * hv divide_edge_sections ≤
          (n0 : ℚ) * hv divide_edge_sections :=
        mul_le_mul_of_nonneg_right hcast (le_of_lt hH)
      linarith
    have hcross : crossing hv s ↔
        (s.i : ℚ) * hv divide_edge_sections ≤ hv s.i1 * (n0 : ℚ) := by
      unfold crossing
      rw [hn]
      exact crossing_iff hv n0 s.i s.i1 hH
    refine ⟨hlast, ?_⟩
    by_cases hc : crossing hv s
    · rw [divideBody_record edge hv s hc hlast]
      have hnew : ∀ k, 1 ≤ k → k < s.i + 1 →
          ∃ j : Nat, j < s.i1 + 1 ∧
            (s.params.set s.i ((s.i1 : ℚ) / (divide_edge_sections : ℚ))).getD k 0 =
            (j : ℚ) / 1000 ∧ FirstCrossing hv n0 k j := by
        intro k hk1 hk2
        by_cases hk : k = s.i
        · subst hk
          refine ⟨s.i1, by omega, ?_, ?_, ?_⟩
          · rw [getD_set_self _ _ _ _ (by omega)]
            norm_num [divide_edge_sections]
          · rw [crossing_iff hv n0 _ _ hH]
            exact hcross.1 hc
          · intro j' hj'
            rw [crossing_iff hv n0 _ _ hH, not_le]
            have := hv_mono hv hmono j' (s.i1 - 1) (by omega) (by omega)
            have : hv j' * (n0 : ℚ) ≤ hv (s.i1 - 1) * (n0 : ℚ) :=
              mul_le_mul_of_nonneg_right this (by positivity)
            linarith
        · obtain ⟨j, hj0, hj1, hj2⟩ := hrec k hk1 (by omega)
          exact ⟨j, by omega, by rw [getD_set_of_ne _ _ _ _ _ (by omega), hj1], hj2⟩
      refine ⟨fun _ => ⟨Or.inr ?_, hnew⟩, hnew⟩
      simp only [Nat.add_sub_cancel, Nat.cast_add, Nat.cast_one, add_sub_cancel_right]
      exact ⟨hcross.1 hc, by linarith⟩
    · rw [divideBody_skip edge hv s hc hlast]
      have hrec' : ∀ k, 1 ≤ k → k < s.i →
          ∃ j : Nat, j < s.i1 + 1 ∧ s.params.getD k 0 = (j : ℚ) / 1000 ∧
            FirstCrossing hv n0 k j := by
        intro k hk1 hk2
        obtain ⟨j, hj0, hj1, hj2⟩ := hrec k hk1 hk2
        exact ⟨j, by omega, hj1, hj2⟩
      refine ⟨fun _ => ⟨Or.inr ?_, hrec'⟩, hrec'⟩
      simp only [Nat.add_sub_cancel]
      have hnc := hc
      rw [hcross, not_le] at hnc
      exact ⟨by linarith, hnc⟩

/-- For a gentle cumulative array the walk is left before the samples are
exhausted, with every quantile recorded at its first crossing. -/
theorem divideWalk_gentle (edge : GeometryEdge) (hv : Nat → ℚ)
    (hg : Gentle hv (targetSegments hv)) :
    WalkPost edge (targetSegments hv) (divideWalk edge hv) ∧
      GentlePost hv (targetSegments hv) (divideWalk edge hv) := by
  have hn : 1 ≤ targetSegments hv := by
    unfold targetSegments
    have : (1 : ℤ) ≤ max 1 ⌊hv divide_edge_sections + 1 / 2⌋ := le_max_left _ _
    omega
  unfold divideWalk
  refine divideLoop_exit edge hv
    (fun s => WalkInv edge (targetSegments hv) s ∧ GentleInv hv (targetSegments hv) s)
    (fun s => WalkPost edge (targetSegments hv) s ∧ GentlePost hv (targetSegments hv) s)
    (GentleInv_step edge hv _ hg) _ _ ?_ (by simp)
  refine ⟨⟨rfl, by simp [SetSize_length], by simp [SetSize_length], le_refl _, by simp,
    by simp, hn, fun h => absurd rfl h, ?_, ?_⟩, Or.inl rfl, ?_⟩
  · intro k hk1 hk2
    simp only at hk2
    omega
  · intro k k' hk1 hk2 hk3
    simp only at hk3
    omega
  · intro k hk1 hk2
    simp only at hk2
    omega

theorem addPoints_length (Length : Point3 → ℚ) (eps : ℚ) (mesh : Mesh) (mps : List MeshPoint) :
    (addPoints Length eps mesh mps).2.length = mps.length := by
  induction mps generalizing mesh with
  | nil => rfl
  | cons mp mps ih => simp [addPoints, ih]

theorem emitSegments_length (seg_init : Segment) (face : GeometryFace) (facenr : Nat)
    (edge : GeometryEdge) (edgenr : Nat) (o : Bool) (pnums : List PointIndex)
    (params : List ℚ) (segnr : Nat) :
    (emitSegments seg_init face facenr edge edgenr o pnums params segnr).length =
      pnums.length - 1 := by
  simp [emitSegments]

/-- The number of segments emitted for an edge is the number of interior points
plus one. -/
theorem emitSegments_count (Length : Point3 → ℚ) (eps : ℚ) (mesh : Mesh)
    (seg_init : Segment) (face : GeometryFace) (facenr : Nat)
    (edge : GeometryEdge) (edgenr : Nat) (o : Bool) (startp endp : PointIndex)
    (mps : List MeshPoint) (params : List ℚ) (segnr : Nat) :
    (emitSegments seg_init face facenr edge edgenr o
      ([startp] ++ (addPoints Length eps mesh mps).2 ++ [endp]) params segnr).length =
      mps.length + 1 := by
  rw [emitSegments_length]
  simp [addPoints_length]

theorem hvalue_mono (Length : Point3 → ℚ) (GetH : Point3 → ℚ) (edgepts : List Point3)
    (hH : ∀ p, 0 < GetH p) (hL : ∀ v, 0 ≤ Length v) (j : Nat) :
    hvalue Length GetH edgepts j ≤ hvalue Length GetH edgepts (j + 1) := by
  simp only [hvalue, le_add_iff_nonneg_right]
  exact mul_nonneg (le_of_lt (one_div_pos.2 (hH _))) (hL _)

theorem targetSegments_pos (hv : Nat → ℚ) (h : 2 ≤ targetSegments hv) :
    0 < hv divide_edge_sections := by
  unfold targetSegments at h
  have h2 : (2 : ℤ) ≤ ⌊hv divide_edge_sections + 1 / 2⌋ := by
    rcases le_max_iff.1 (by omega : (2 : ℤ) ≤ max 1 ⌊hv divide_edge_sections + 1 / 2⌋) with h' | h'
    · omega
    · exact h'
  have := Int.le_floor.1 h2
  norm_num at this
  linarith

/-- For a gentle cumulative array the division has exactly the target number of
segments and every interior parameter is the first crossing of its
quantile. -/
theorem fixEnds_gentle (edge : GeometryEdge) (hv : Nat → ℚ) (n0 : Nat) (s : DivideState)
    (hpost : WalkPost edge n0 s) (hg : GentlePost hv n0 s) :
    WellDivided edge n0 (fixEnds s).1 (fixEnds s).2 ∧
    ∀ k, 1 ≤ k → k < n0 → ∃ j : Nat, j < divide_edge_sections ∧
      (fixEnds s).2.getD k 0 = (j : ℚ) / 1000 ∧ FirstCrossing hv n0 k j := by
  obtain ⟨k, hk1, -, -, hwd⟩ := fixEnds_wellformed edge n0 s hpost
  obtain ⟨hp1, -⟩ := WalkPost_params edge n0 s hpost
  obtain ⟨hn1, -, hi, hpl, -, -, -, -, hexit⟩ := hpost
  obtain ⟨hg1, hg2⟩ := hg
  have hn := hexit hg1
  have hlast := fixedEnds_last s hpl
  have hfirst := fixedEnds_first s hpl hn1
  have hnc : ¬ (fixedEnds s).getD s.nsubedges 0 ≤ (fixedEnds s).getD (s.nsubedges - 1) 0 := by
    rw [hlast, not_le]
    rcases Nat.lt_or_ge s.nsubedges 2 with h2 | h2
    · have h1 : s.nsubedges = 1 := by omega
      simp only [h1, Nat.sub_self]
      rw [hfirst]
      norm_num
    · obtain ⟨j, -, hj2, hj3, -⟩ := hp1 (s.nsubedges - 1) (by omega) (by omega)
      rw [hj3, div_lt_one (by norm_num)]
      have : j < 1000 := by
        simp only [divide_edge_sections] at hg1
        omega
      exact_mod_cast this
  have heq : fixEnds s = (s.mps, fixedEnds s) := by
    rw [fixEnds_eq, if_neg hnc]
  have hk : k = n0 := by
    have h1 := hwd.2.1
    rw [heq] at h1
    simp only [fixedEnds_length] at h1
    omega
  subst hk
  refine ⟨hwd, ?_⟩
  intro m hm1 hm2
  obtain ⟨j, hj0, hj1, hj2⟩ := hg2 m hm1 (by omega)
  refine ⟨j, by omega, ?_, hj2⟩
  rw [heq]
  simp only
  rw [fixedEnds_inner s m hm1 (by omega), hj1]

theorem getD_equidistant (edge : GeometryEdge) (j : Nat) (hj : j ≤ divide_edge_sections) :
    (edge.GetEquidistantPointArray (divide_edge_sections + 1)).getD j ⟨0, 0, 0⟩ =
      edge.GetPoint ((j : ℚ) / 1000) := by
  unfold GeometryEdge.GetEquidistantPointArray
  rw [List.getD_eq_getElem?_getD, List.getElem?_map,
    List.getElem?_range (by omega : j < divide_edge_sections + 1)]
  simp only [Option.map_some', Option.getD_some, Nat.add_sub_cancel]
  norm_num [divide_edge_sections]

/-- The cumulative array of a straight, uniformly parametrised edge of length
`L` in a constant size field `s`. -/
theorem edgeHvalue_uniform (Length : Point3 → ℚ) (edge : GeometryEdge) (L s : ℚ)
    (hstraight : ∀ a b, Length (edge.GetPoint b - edge.GetPoint a) = L * |b - a|)
    (j : Nat) (hj : j ≤ divide_edge_sections) :
    edgeHvalue Length (fun _ => s) edge j = (j : ℚ) * (1 / s * (L / 1000)) := by
  unfold edgeHvalue
  induction j with
  | zero => simp [hvalue]
  | succ j ih =>
    simp only [hvalue]
    rw [ih (by omega), getD_equidistant edge (j + 1) hj, getD_equidistant edge j (by omega),
      hstraight]
    have : |((j + 1 : ℕ) : ℚ) / 1000 - (j : ℚ) / 1000| = 1 / 1000 := by
      have h1 : ((j + 1 : ℕ) : ℚ) / 1000 - (j : ℚ) / 1000 = 1 / 1000 := by
        push_cast
        ring
      rw [h1]
      norm_num
    rw [this]
    push_cast
    ring

theorem lineEdge_straight (L : ℚ) (hL : 0 ≤ L) (a b : ℚ) :
    axisLength ((lineEdge L).GetPoint b - (lineEdge L).GetPoint a) = L * |b - a| := by
  have : (lineEdge L).GetPoint b - (lineEdge L).GetPoint a = ⟨L * b - L * a, 0 - 0, 0 - 0⟩ :=
    rfl
  rw [this]
  simp only [axisLength, sub_self, abs_zero, add_zero]
  rw [← mul_sub, abs_mul, abs_of_nonneg hL]

theorem axisLength_nonneg (v : Point3) : 0 ≤ axisLength v := by
  unfold axisLength
  positivity

theorem targetSegments_of_eq (hv : Nat → ℚ) (n : Nat) (hn : 1 ≤ n)
    (h : hv divide_edge_sections = (n : ℚ)) : targetSegments hv = n := by
  unfold targetSegments
  rw [h]
  have hfl : ⌊(n : ℚ) + 1 / 2⌋ = (n : ℤ) := by
    rw [Int.floor_eq_iff]
    constructor <;> (push_cast; linarith)
  rw [hfl]
  have : max (1 : ℤ) (n : ℤ) = (n : ℤ) := max_eq_right (by exact_mod_cast hn)
  rw [this]
  simp

/-- C4, as stated, fails: on a straight edge of length 1 with the constant
(positive) size 1/2000 the target count is `n = 2000`, but at most 1000
segments are produced. -/
theorem DivideEdge_target_not_reached :
    (∀ p : Point3, (0 : ℚ) < (fun _ => (1 : ℚ) / 2000) p) ∧
    targetSegments (edgeHvalue axisLength (fun _ => 1 / 2000) (lineEdge 1)) = 2000 ∧
    (DivideEdge axisLength (fun _ => 1 / 2000) (lineEdge 1)).1.length + 1 ≤ 1000 ∧
    ¬ ((DivideEdge axisLength (fun _ => 1 / 2000) (lineEdge 1)).1.length + 1 = 2000) := by
  have hv := edgeHvalue_uniform axisLength (lineEdge 1) 1 (1 / 2000)
    (lineEdge_straight 1 (by norm_num)) divide_edge_sections (le_refl _)
  have ht : targetSegments (edgeHvalue axisLength (fun _ => 1 / 2000) (lineEdge 1)) = 2000 := by
    apply targetSegments_of_eq _ 2000 (by norm_num)
    rw [hv]
    norm_num [divide_edge_sections]
  obtain ⟨k, hk1, hk2, -, hwd⟩ :=
    DivideEdge_wellformed axisLength (fun _ => 1 / 2000) (lineEdge 1)
  have hlen := hwd.1
  refine ⟨fun _ => by norm_num, ht, by omega, by omega⟩

theorem list_eq_of_getD (l1 l2 : List ℚ) (hlen : l1.length = l2.length)
    (h : ∀ i, i < l1.length → l1.getD i 0 = l2.getD i 0) : l1 = l2 := by
  apply List.ext_getElem hlen
  intro i h1 h2
  have := h i h1
  rwa [List.getD_eq_getElem _ _ h1, List.getD_eq_getElem _ _ h2] at this

/-- The division of a straight, uniformly parametrised edge in a constant size
field whose quotient `n` with the edge length divides 1000: the parameters
are `i / n`. -/
theorem uniform_division (Length : Point3 → ℚ) (edge : GeometryEdge) (L s : ℚ) (n : Nat)
    (hn : 0 < n) (hdiv : n ∣ 1000) (hs : 0 < s) (hLs : L = (n : ℚ) * s)
    (hstraight : ∀ a b, Length (edge.GetPoint b - edge.GetPoint a) = L * |b - a|) :
    targetSegments (edgeHvalue Length (fun _ => s) edge) = n ∧
    (DivideEdge Length (fun _ => s) edge).2 =
      (List.range (n + 1)).map (fun (i : Nat) => (i : ℚ) / (n : ℚ)) ∧
    (DivideEdge Length (fun _ => s) edge).1.length = n - 1 ∧
    (∀ (eps : ℚ) (mesh : Mesh) (seg_init : Segment) (face : GeometryFace) (facenr edgenr : Nat)
        (o : Bool) (startp endp : PointIndex) (segnr : Nat),
      (emitSegments seg_init face facenr edge edgenr o
        ([startp] ++ (addPoints Length eps mesh (DivideEdge Length (fun _ => s) edge).1).2 ++
          [endp])
        (DivideEdge Length (fun _ => s) edge).2 segnr).length = n) := by
  obtain ⟨m, hm⟩ := hdiv
  have hnq : (0 : ℚ) < (n : ℚ) := by exact_mod_cast hn
  have hn1000 : n ≤ 1000 := Nat.le_of_dvd (by norm_num) ⟨m, hm⟩
  have hmq : (n : ℚ) * (m : ℚ) = 1000 := by exact_mod_cast hm.symm
  have hv : ∀ j, j ≤ divide_edge_sections →
      edgeHvalue Length (fun _ => s) edge j = (j : ℚ) * (n : ℚ) / 1000 := by
    intro j hj
    rw [edgeHvalue_uniform Length edge L s hstraight j hj, hLs]
    field_simp
  have hvn : edgeHvalue Length (fun _ => s) edge divide_edge_sections = (n : ℚ) := by
    rw [hv _ (le_refl _)]
    norm_num [divide_edge_sections]
  have ht : targetSegments (edgeHvalue Length (fun _ => s) edge) = n :=
    targetSegments_of_eq _ n hn hvn
  have hg : Gentle (edgeHvalue Length (fun _ => s) edge)
      (targetSegments (edgeHvalue Length (fun _ => s) edge)) := by
    rw [ht]
    refine ⟨rfl, ?_, ?_, fun _ => by rw [hvn]; exact hnq⟩
    · intro j hj
      rw [hv j (by omega), hv (j + 1) (by omega)]
      push_cast
      have : (0 : ℚ) ≤ (n : ℚ) / 1000 := by positivity
      linarith
    · intro j hj
      rw [hv j (by omega), hv (j + 1) (by omega), hvn]
      push_cast
      have h1 : (n : ℚ) ≤ 1000 := by exact_mod_cast hn1000
      have h2 : ((j : ℚ) + 1) * (n : ℚ) / 1000 - (j : ℚ) * (n : ℚ) / 1000 = (n : ℚ) / 1000 := by
        ring
      rw [h2]
      have h3 : (n : ℚ) / 1000 ≤ 1 := by
        rw [div_le_one (by norm_num)]
        exact h1
      calc (n : ℚ) / 1000 * (n : ℚ) ≤ 1 * (n : ℚ) :=
            mul_le_mul_of_nonneg_right h3 (le_of_lt hnq)
        _ = (n : ℚ) := one_mul _
  obtain ⟨hpost, hgp⟩ := divideWalk_gentle edge _ hg
  obtain ⟨⟨h1, h2, h3, h4, h5, -⟩, hfirst⟩ := fixEnds_gentle edge _ _ _ hpost hgp
  rw [ht] at h1 h2 h5 hfirst
  have hparams : (DivideEdge Length (fun _ => s) edge).2 =
      (List.range (n + 1)).map (fun (i : Nat) => (i : ℚ) / (n : ℚ)) := by
    apply list_eq_of_getD
    · unfold DivideEdge
      rw [h2]
      simp
    · intro i hi
      have hi' : i < n + 1 := by
        unfold DivideEdge at hi
        omega
      have hrhs : ((List.range (n + 1)).map (fun (i : Nat) => (i : ℚ) / (n : ℚ))).getD i 0 =
          (i : ℚ) / (n : ℚ) := by
        rw [List.getD_eq_getElem?_getD, List.getElem?_map, List.getElem?_range hi']
        rfl
      rw [hrhs]
      unfold DivideEdge
      rcases Nat.eq_zero_or_pos i with hz | hpos
      · rw [hz, h4]
        simp
      · rcases Nat.lt_or_ge i n with hlt | hge
        · obtain ⟨j, hj0, hj1, hj2, hj3⟩ := hfirst i hpos hlt
          rw [hj1]
          -- the first crossing of the quantile `i` is the sample `i * m`
          have hcross : ∀ j', j' ≤ divide_edge_sections →
              (edgeHvalue Length (fun _ => s) edge j' /
                edgeHvalue Length (fun _ => s) edge divide_edge_sections * (n : ℚ) ≥ (i : ℚ) ↔
                i * m ≤ j') := by
            intro j' hj'
            rw [hv j' hj', hvn, ge_iff_le, div_mul_cancel₀ _ (ne_of_gt hnq),
              le_div_iff₀ (by norm_num), ← hmq]
            constructor
            · intro hle
              have : (i : ℚ) * (m : ℚ) ≤ (j' : ℚ) := by
                have h' : (i : ℚ) * (m : ℚ) * (n : ℚ) ≤ (j' : ℚ) * (n : ℚ) := by linarith
                exact le_of_mul_le_mul_right h' hnq
              exact_mod_cast this
            · intro hle
              have : (i : ℚ) * (m : ℚ) ≤ (j' : ℚ) := by exact_mod_cast hle
              have h' := mul_le_mul_of_nonneg_right this (le_of_lt hnq)
              linarith
          have hge : i * m ≤ j := (hcross j (by omega)).1 hj2
          have hle : j ≤ i * m := by
            by_contra hcon
            have hlt' : i * m < j := by omega
            exact hj3 (i * m) hlt' ((hcross (i * m) (by omega)).2 (le_refl _))
          have hj : j = i * m := by omega
          rw [hj]
          push_cast
          rw [← hmq]
          have hm0 : (m : ℚ) ≠ 0 := by
            intro h0
            rw [h0, mul_zero] at hmq
            norm_num at hmq
          field_simp
          ring
        · have hin : i = n := by omega
          rw [hin, h5]
          field_simp
  refine ⟨ht, hparams, h1, ?_⟩
  intro eps mesh seg_init face facenr edgenr o startp endp segnr
  rw [emitSegments_count]
  unfold DivideEdge
  omega

/-- C8.  For a straight, uniformly parametrised edge of length `L` and a
constant size field `s` with `L / s = n` a positive integer that divides 1000,
the division has `n - 1` interior points, `n` segments are emitted for it,
and its parameters are `params[i] = i / n` for `i = 0 .. n` (exact
arithmetic). -/
theorem DivideEdge_uniform (Length : Point3 → ℚ) (edge : GeometryEdge) (L s : ℚ) (n : Nat)
    (hn : 0 < n) (hdiv : n ∣ 1000) (hs : 0 < s) (hLs : L = (n : ℚ) * s)
    (hstraight : ∀ a b, Length (edge.GetPoint b - edge.GetPoint a) = L * |b - a|) :
    targetSegments (edgeHvalue Length (fun _ => s) edge) = n ∧
    (DivideEdge Length (fun _ => s) edge).2 =
      (List.range (n + 1)).map (fun (i : Nat) => (i : ℚ) / (n : ℚ)) ∧
    (DivideEdge Length (fun _ => s) edge).1.length = n - 1 ∧
    (∀ (eps : ℚ) (mesh : Mesh) (seg_init : Segment) (face : GeometryFace) (facenr edgenr : Nat)
        (o : Bool) (startp endp : PointIndex) (segnr : Nat),
      (emitSegments seg_init face facenr edge edgenr o
        ([startp] ++ (addPoints Length eps mesh (DivideEdge Length (fun _ => s) edge).1).2 ++
          [endp])
        (DivideEdge Length (fun _ => s) edge).2 segnr).length = n) :=
  uniform_division Length edge L s n hn hdiv hs hLs hstraight

/-- Witness of C8: a straight edge of length `L = 10` and the constant size
`s = 2` give `n = 5` and `params = [0, 0.2, 0.4, 0.6, 0.8, 1.0]`. -/
theorem DivideEdge_uniform_witness :
    targetSegments (edgeHvalue axisLength (fun _ => 2) (lineEdge 10)) = 5 ∧
    (DivideEdge axisLength (fun _ => 2) (lineEdge 10)).2 = [0, 1 / 5, 2 / 5, 3 / 5, 4 / 5, 1] ∧
    (DivideEdge axisLength (fun _ => 2) (lineEdge 10)).1.length = 4 := by
  have h := DivideEdge_uniform axisLength (lineEdge 10) 10 2 5 (by norm_num) (by norm_num)
    (by norm_num) (by norm_num) (lineEdge_straight 10 (by norm_num))
  refine ⟨h.1, ?_, h.2.2.1⟩
  rw [h.2.1]
  norm_num [List.range, List.range.loop]

theorem makeSegment_reversed (seg_init : Segment) (face : GeometryFace) (facenr : Nat)
    (edge : GeometryEdge) (edgenr : Nat) (pnums : List PointIndex) (params : List ℚ)
    (segnr i : Nat) :
    makeSegment seg_init face facenr edge edgenr false pnums params segnr i =
      swapEnds (makeSegment seg_init face facenr edge edgenr true pnums params segnr i) := by
  simp [makeSegment, swapEnds]

theorem emitSegments_reversed (seg_init : Segment) (face : GeometryFace) (facenr : Nat)
    (edge : GeometryEdge) (edgenr : Nat) (pnums : List PointIndex) (params : List ℚ)
    (segnr : Nat) :
    emitSegments seg_init face facenr edge edgenr false pnums params segnr =
      (emitSegments seg_init face facenr edge edgenr true pnums params segnr).map swapEnds := by
  simp [emitSegments, makeSegment_reversed]

theorem makeSegment_points (seg_init : Segment) (face : GeometryFace) (facenr : Nat)
    (edge : GeometryEdge) (edgenr : Nat) (pnums : List PointIndex) (params : List ℚ)
    (segnr i : Nat) :
    (makeSegment seg_init face facenr edge edgenr true pnums params segnr i).p0 =
      pnums.getD i 0 ∧
    (makeSegment seg_init face facenr edge edgenr true pnums params segnr i).p1 =
      pnums.getD (i + 1) 0 := by
  simp [makeSegment]

theorem FindEdges_edge_eq (Length : Point3 → ℚ) (seg_init : Segment)
    (geo : NetgenGeometry) (vert2meshpt : List (Nat × PointIndex)) (face : GeometryFace)
    (facenr : Nat) (st : Mesh × Nat) (oe : OrientedEdge) (e : GeometryEdge)
    (startp endp : PointIndex) (hE : geo.edges.get? oe.edgenr = some e)
    (hs : vert2meshpt.lookup e.GetStartVertex.GetHash = some startp)
    (he : vert2meshpt.lookup e.GetEndVertex.GetHash = some endp) :
    FindEdges_edge Length seg_init geo vert2meshpt face facenr st oe =
      if startp = endp ∧ e.GetLength < 1 / 10000000000 * geo.bounding_box_Diam then
        some (st.1, st.2)
      else
        some
          ({ (addPoints Length (geo.bounding_box_Diam * (1 / 100000000)) st.1
                (DivideEdge Length st.1.GetH e).1).1 with
             segments :=
               (addPoints Length (geo.bounding_box_Diam * (1 / 100000000)) st.1
                (DivideEdge Length st.1.GetH e).1).1.segments ++
               emitSegments seg_init face facenr e oe.edgenr oe.OrientedLikeGlobal
                 ([startp] ++ (addPoints Length (geo.bounding_box_Diam * (1 / 100000000)) st.1
                   (DivideEdge Length st.1.GetH e).1).2 ++ [endp])
                 (DivideEdge Length st.1.GetH e).2 st.2 },
           st.2 + (emitSegments seg_init face facenr e oe.edgenr oe.OrientedLikeGlobal
                 ([startp] ++ (addPoints Length (geo.bounding_box_Diam * (1 / 100000000)) st.1
                   (DivideEdge Length st.1.GetH e).1).2 ++ [endp])
                 (DivideEdge Length st.1.GetH e).2 st.2).length) := by
  unfold FindEdges_edge
  simp only [hE, hs, he]

theorem FindEdges_edge_no_edge (Length : Point3 → ℚ) (seg_init : Segment)
    (geo : NetgenGeometry) (vert2meshpt : List (Nat × PointIndex)) (face : GeometryFace)
    (facenr : Nat) (st : Mesh × Nat) (oe : OrientedEdge)
    (hE : geo.edges.get? oe.edgenr = none) :
    FindEdges_edge Length seg_init geo vert2meshpt face facenr st oe = none := by
  unfold FindEdges_edge
  simp only [hE]

theorem FindEdges_edge_no_vertex (Length : Point3 → ℚ) (seg_init : Segment)
    (geo : NetgenGeometry) (vert2meshpt : List (Nat × PointIndex)) (face : GeometryFace)
    (facenr : Nat) (st : Mesh × Nat) (oe : OrientedEdge) (e : GeometryEdge)
    (hE : geo.edges.get? oe.edgenr = some e)
    (hv : vert2meshpt.lookup e.GetStartVertex.GetHash = none ∨
      vert2meshpt.lookup e.GetEndVertex.GetHash = none) :
    FindEdges_edge Length seg_init geo vert2meshpt face facenr st oe = none := by
  unfold FindEdges_edge
  simp only [hE]
  rcases hv with hv | hv
  · simp only [hv]
  · cases hs : vert2meshpt.lookup e.GetStartVertex.GetHash <;> simp only [hv]

theorem addPoints_segments (Length : Point3 → ℚ) (eps : ℚ) (mesh : Mesh)
    (mps : List MeshPoint) :
    (addPoints Length eps mesh mps).1.segments = mesh.segments := by
  induction mps generalizing mesh with
  | nil => rfl
  | cons mp mps ih =>
    simp only [addPoints]
    rw [ih]
    unfold findOrAddPoint
    split <;> rfl

theorem endPoints_emitSegments_canonical (seg_init : Segment) (face : GeometryFace)
    (facenr : Nat) (edge : GeometryEdge) (edgenr : Nat) (pnums : List PointIndex)
    (params : List ℚ) (segnr : Nat) :
    endPoints (emitSegments seg_init face facenr edge edgenr true pnums params segnr) =
      (List.range (pnums.length - 1)).map (fun k => (pnums.getD k 0, pnums.getD (k + 1) 0)) := by
  simp [endPoints, emitSegments, makeSegment]

theorem endPoints_emitSegments_reversed (seg_init : Segment) (face : GeometryFace)
    (facenr : Nat) (edge : GeometryEdge) (edgenr : Nat) (pnums : List PointIndex)
    (params : List ℚ) (segnr : Nat) :
    endPoints (emitSegments seg_init face facenr edge edgenr false pnums params segnr) =
      (List.range (pnums.length - 1)).map (fun k => (pnums.getD (k + 1) 0, pnums.getD k 0)) := by
  simp [endPoints, emitSegments, makeSegment]

theorem swap_new_segments (n : Nat) (R : Mesh) (c : Nat) (E : List Segment)
    (hseg : R.segments.length = n) :
    Option.map
        (fun r : Mesh × Nat =>
          ({ r.1 with
             segments := r.1.segments.take n ++ (r.1.segments.drop n).map swapEnds }, r.2))
        (some ({ R with segments := R.segments ++ E }, c + E.length)) =
      some ({ R with segments := R.segments ++ E.map swapEnds },
        c + (E.map swapEnds).length) := by
  simp only [Option.map_some', List.length_map]
  rw [List.take_left' hseg, List.drop_left' hseg]

/-- C7.  The segments emitted for an edge referenced with reversed orientation
are, one by one and in the same order, the segments emitted for the canonical
orientation with the two point indices exchanged and `dist`, `u`, `v` of
the two end point geometry infos exchanged, every other field being equal
(the running identifier `edgenr` too when the counter starts at the same
value, and it is the only field that depends on the counter).  So the
canonical segment `k` leads from `pnums[k]` to `pnums[k+1]` and the reversed
segment `k` from `pnums[k+1]` to `pnums[k]`.  The same holds for the loop body
of `FindEdges`: from the same state it yields the same points and counter for
both orientations, and the new segments differ by `swapEnds`. -/
theorem emitSegments_orientation_symmetry (Length : Point3 → ℚ) (seg_init : Segment)
    (geo : NetgenGeometry) (vert2meshpt : List (Nat × PointIndex)) (face : GeometryFace)
    (facenr : Nat) (edge : GeometryEdge) (edgenr : Nat) (pnums : List PointIndex)
    (params : List ℚ) (segnr segnr' : Nat) (st : Mesh × Nat) :
    emitSegments seg_init face facenr edge edgenr false pnums params segnr =
      (emitSegments seg_init face facenr edge edgenr true pnums params segnr).map swapEnds ∧
    (emitSegments seg_init face facenr edge edgenr false pnums params segnr').map
        (fun seg => { seg with edgenr := 0 }) =
      (emitSegments seg_init face facenr edge edgenr true pnums params segnr).map
        (fun seg => { swapEnds seg with edgenr := 0 }) ∧
    endPoints (emitSegments seg_init face facenr edge edgenr true pnums params segnr) =
      (List.range (pnums.length - 1)).map (fun k => (pnums.getD k 0, pnums.getD (k + 1) 0)) ∧
    endPoints (emitSegments seg_init face facenr edge edgenr false pnums params segnr') =
      (List.range (pnums.length - 1)).map (fun k => (pnums.getD (k + 1) 0, pnums.getD k 0)) ∧
    FindEdges_edge Length seg_init geo vert2meshpt face facenr st ⟨edgenr, false⟩ =
      (FindEdges_edge Length seg_init geo vert2meshpt face facenr st ⟨edgenr, true⟩).map
        (fun r =>
          ({ r.1 with
             segments := r.1.segments.take st.1.segments.length ++
               (r.1.segments.drop st.1.segments.length).map swapEnds }, r.2)) := by
  refine ⟨emitSegments_reversed _ _ _ _ _ _ _ _, ?_, ?_, ?_, ?_⟩
  · simp [emitSegments, makeSegment, swapEnds]
  · exact endPoints_emitSegments_canonical _ _ _ _ _ _ _ _
  · exact endPoints_emitSegments_reversed _ _ _ _ _ _ _ _
  · cases hE : geo.edges.get? edgenr with
    | none =>
      rw [FindEdges_edge_no_edge _ _ _ _ _ _ _ ⟨edgenr, false⟩ hE,
        FindEdges_edge_no_edge _ _ _ _ _ _ _ ⟨edgenr, true⟩ hE]
      rfl
    | some e =>
      cases hs : vert2meshpt.lookup e.GetStartVertex.GetHash with
      | none =>
        rw [FindEdges_edge_no_vertex _ _ _ _ _ _ _ ⟨edgenr, false⟩ e hE (Or.inl hs),
          FindEdges_edge_no_vertex _ _ _ _ _ _ _ ⟨edgenr, true⟩ e hE (Or.inl hs)]
        rfl
      | some startp =>
        cases he : vert2meshpt.lookup e.GetEndVertex.GetHash with
        | none =>
          rw [FindEdges_edge_no_vertex _ _ _ _ _ _ _ ⟨edgenr, false⟩ e hE (Or.inr he),
            FindEdges_edge_no_vertex _ _ _ _ _ _ _ ⟨edgenr, true⟩ e hE (Or.inr he)]
          rfl
        | some endp =>
          rw [FindEdges_edge_eq _ _ _ _ _ _ _ ⟨edgenr, false⟩ e startp endp hE hs he,
            FindEdges_edge_eq _ _ _ _ _ _ _ ⟨edgenr, true⟩ e startp endp hE hs he]
          by_cases hcol : startp = endp ∧
              e.GetLength < 1 / 10000000000 * geo.bounding_box_Diam
          · rw [if_pos hcol, if_pos hcol]
            simp only [Option.map_some', List.take_length, List.drop_length, List.map_nil,
              List.append_nil]
          · rw [if_neg hcol, if_neg hcol, emitSegments_reversed]
            exact (swap_new_segments _ _ _ _
              (congrArg List.length (addPoints_segments Length _ st.1 _))).symm

theorem Point3.sub_mk (a b c d e f : ℚ) :
    (Point3.mk a b c - Point3.mk d e f) = Point3.mk (a - d) (b - e) (c - f) := rfl

/-- The division of the short edge of `shortEdgeGeometry` in the size field 3/5: one
interior point, in the middle. -/
theorem DivideEdge_shortEdge :
    DivideEdge axisLength (fun _ => 3 / 5) (lineEdge (6 / 5)) =
      ([⟨3 / 5, 0, 0⟩], [0, 1 / 2, 1]) := by
  have h := uniform_division axisLength (lineEdge (6 / 5)) (6 / 5) (3 / 5) 2 (by norm_num)
    (by norm_num) (by norm_num) (by norm_num) (lineEdge_straight (6 / 5) (by norm_num))
  obtain ⟨k, -, -, -, hwd⟩ :=
    DivideEdge_wellformed axisLength (fun _ => 3 / 5) (lineEdge (6 / 5))
  have hp : (DivideEdge axisLength (fun _ => 3 / 5) (lineEdge (6 / 5))).2 = [0, 1 / 2, 1] := by
    rw [h.2.1]
    norm_num [List.range, List.range.loop]
  obtain ⟨hw1, hw2, -, -, -, hw6⟩ := hwd
  rw [hp] at hw2 hw6
  have hk : k = 2 := by simpa using hw2.symm
  subst hk
  have hm := hw6 1 (le_refl _) (by norm_num)
  have hlen : (DivideEdge axisLength (fun _ => 3 / 5) (lineEdge (6 / 5))).1.length = 1 := hw1
  have hmps : (DivideEdge axisLength (fun _ => 3 / 5) (lineEdge (6 / 5))).1 =
      [⟨3 / 5, 0, 0⟩] := by
    match hd : (DivideEdge axisLength (fun _ => 3 / 5) (lineEdge (6 / 5))).1 with
    | [] => rw [hd] at hlen; simp at hlen
    | [p] =>
      rw [hd] at hm
      simp only [Nat.sub_self, List.getD_cons_zero, List.getD_cons_succ] at hm
      rw [hm]
      simp only [lineEdge]
      norm_num
    | p :: q :: r => rw [hd] at hlen; simp at hlen
  exact Prod.ext hmps hp

theorem findOrAddPoint_shortEdge (mesh : Mesh)
    (hp : mesh.points = [⟨0, 0, 0⟩, ⟨6 / 5, 0, 0⟩, ⟨100000000, 0, 0⟩]) :
    findOrAddPoint axisLength (100000000 * (1 / 100000000)) mesh ⟨3 / 5, 0, 0⟩ = (mesh, 0) := by
  unfold findOrAddPoint
  rw [hp]
  have h0 : decide (axisLength ((⟨0, 0, 0⟩ : Point3) - ⟨3 / 5, 0, 0⟩) <
      100000000 * (1 / 100000000)) = true := by
    rw [Point3.sub_mk]
    simp only [axisLength]
    norm_num [abs_of_pos]
  simp only [List.findIdx?_cons, h0]
  rfl

/-- One pass of the loop body of `FindEdges` for the edge of `shortEdgeGeometry`: no point
is added and the chain of the edge is 0, 0, 1. -/
theorem FindEdges_edge_shortEdge (mesh : Mesh) (segnr : Nat) (o : Bool)
    (hH : mesh.GetH = fun _ => 3 / 5)
    (hp : mesh.points = [⟨0, 0, 0⟩, ⟨6 / 5, 0, 0⟩, ⟨100000000, 0, 0⟩]) :
    FindEdges_edge axisLength zeroSegment shortEdgeGeometry [(2, 2), (1, 1), (0, 0)] seamFace 0
        (mesh, segnr) ⟨0, o⟩ =
      some ({ mesh with
              segments := mesh.segments ++
                emitSegments zeroSegment seamFace 0 (lineEdge (6 / 5)) 0 o [0, 0, 1]
                  [0, 1 / 2, 1] segnr }, segnr + 2) := by
  have hne : ¬ ((0 : PointIndex) = 1 ∧
      (lineEdge (6 / 5)).GetLength < 1 / 10000000000 * shortEdgeGeometry.bounding_box_Diam) :=
    fun h => absurd h.1 (by decide)
  rw [FindEdges_edge_eq axisLength zeroSegment shortEdgeGeometry [(2, 2), (1, 1), (0, 0)]
    seamFace 0 (mesh, segnr) ⟨0, o⟩ (lineEdge (6 / 5)) 0 1 rfl (by decide) (by decide),
    if_neg hne]
  have hadd : addPoints axisLength (shortEdgeGeometry.bounding_box_Diam * (1 / 100000000)) mesh
      (DivideEdge axisLength mesh.GetH (lineEdge (6 / 5))).1 = (mesh, [0]) := by
    rw [hH, DivideEdge_shortEdge]
    simp only [addPoints]
    have := findOrAddPoint_shortEdge mesh hp
    simp only [shortEdgeGeometry]
    rw [this]
  simp only [hadd]
  rw [hH, DivideEdge_shortEdge]
  simp only [emitSegments_length]
  rfl

/-- C6, as stated, fails.  In the run of `FindEdges` on `shortEdgeGeometry` the
tolerance is 1.  The interior division point (3/5, 0, 0) of the edge lies at
distance 3/5 from the end vertex (6/5, 0, 0) of the same edge, yet it is
assigned the index 0 of the start vertex (the first mesh point within the
tolerance) while the end vertex has index 1: no point is added and the chain
of the edge is 0, 0, 1 in both passes over the edge. -/
theorem FindEdges_near_points_distinct_indices :
    ∃ m, FindEdges axisLength zeroSegment shortEdgeGeometry fineMesh = some m ∧
      m.points = [⟨0, 0, 0⟩, ⟨6 / 5, 0, 0⟩, ⟨100000000, 0, 0⟩] ∧
      endPoints m.segments = [(0, 0), (0, 1), (0, 0), (1, 0)] ∧
      (DivideEdge axisLength fineMesh.GetH (lineEdge (6 / 5))).1 = [⟨3 / 5, 0, 0⟩] ∧
      axisLength ((⟨3 / 5, 0, 0⟩ : Point3) - m.points.getD 1 ⟨0, 0, 0⟩) <
        shortEdgeGeometry.bounding_box_Diam * (1 / 100000000) := by
  have hv : addVertices shortEdgeGeometry (addFaceDescriptors shortEdgeGeometry fineMesh) =
      ({ addFaceDescriptors shortEdgeGeometry fineMesh with
          points := [⟨0, 0, 0⟩, ⟨6 / 5, 0, 0⟩, ⟨100000000, 0, 0⟩] },
        [(2, 2), (1, 1), (0, 0)]) := rfl
  have h1 := FindEdges_edge_shortEdge
    { addFaceDescriptors shortEdgeGeometry fineMesh with
      points := [⟨0, 0, 0⟩, ⟨6 / 5, 0, 0⟩, ⟨100000000, 0, 0⟩] } 0 true rfl rfl
  have h2 := FindEdges_edge_shortEdge
    { addFaceDescriptors shortEdgeGeometry fineMesh with
      points := [⟨0, 0, 0⟩, ⟨6 / 5, 0, 0⟩, ⟨100000000, 0, 0⟩]
      segments := (addFaceDescriptors shortEdgeGeometry fineMesh).segments ++
        emitSegments zeroSegment seamFace 0 (lineEdge (6 / 5)) 0 true [0, 0, 1]
          [0, 1 / 2, 1] 0 } (0 + 2) false rfl rfl
  have hrun : FindEdges axisLength zeroSegment shortEdgeGeometry fineMesh =
      some { addFaceDescriptors shortEdgeGeometry fineMesh with
        points := [⟨0, 0, 0⟩, ⟨6 / 5, 0, 0⟩, ⟨100000000, 0, 0⟩]
        segments := ((addFaceDescriptors shortEdgeGeometry fineMesh).segments ++
          emitSegments zeroSegment seamFace 0 (lineEdge (6 / 5)) 0 true [0, 0, 1]
            [0, 1 / 2, 1] 0) ++
          emitSegments zeroSegment seamFace 0 (lineEdge (6 / 5)) 0 false [0, 0, 1]
            [0, 1 / 2, 1] (0 + 2) } := by
    unfold FindEdges
    simp only [hv]
    have hf : shortEdgeGeometry.faces.enum = [(0, seamFace)] := rfl
    rw [hf]
    have hb : seamFace.boundaries = [[⟨0, true⟩, ⟨0, false⟩]] := rfl
    simp only [foldlM?, hb, h1, h2, Option.map_some']
  refine ⟨_, hrun, rfl, ?_, ?_, ?_⟩
  · have hs : (addFaceDescriptors shortEdgeGeometry fineMesh).segments = [] := rfl
    simp only [hs, List.nil_append, endPoints, List.map_append]
    have hc := endPoints_emitSegments_canonical zeroSegment seamFace 0 (lineEdge (6 / 5)) 0
      [0, 0, 1] [0, 1 / 2, 1] 0
    have hr := endPoints_emitSegments_reversed zeroSegment seamFace 0 (lineEdge (6 / 5)) 0
      [0, 0, 1] [0, 1 / 2, 1] (0 + 2)
    simp only [endPoints] at hc hr
    rw [hc, hr]
    decide
  · have := DivideEdge_shortEdge
    have hH : fineMesh.GetH = fun _ => 3 / 5 := rfl
    rw [hH, this]
  · simp only [List.getD_cons_succ, List.getD_cons_zero, Point3.sub_mk, axisLength,
      shortEdgeGeometry]
    norm_num [abs_of_neg]

/-- C6 as amended.  An interior division point is assigned the index of the
first mesh point that lies closer to it than the tolerance, when there is one,
and then no point is added; otherwise the point is added and assigned the new
index.  So the point it shares its index with lies within the tolerance of
it, and it shares the index of an earlier point `p` exactly when `p` is the
first mesh point within the tolerance. -/
theorem findOrAddPoint_first_within_tolerance (Length : Point3 → ℚ) (eps : ℚ) (mesh : Mesh)
    (mp : MeshPoint) :
    ((∃ p ∈ mesh.points, Length (p - mp) < eps) →
      (findOrAddPoint Length eps mesh mp).1 = mesh ∧
      (findOrAddPoint Length eps mesh mp).2 < mesh.points.length ∧
      Length (mesh.points.getD (findOrAddPoint Length eps mesh mp).2 ⟨0, 0, 0⟩ - mp) < eps ∧
      ∀ i : Nat, i < (findOrAddPoint Length eps mesh mp).2 →
        ¬ Length (mesh.points.getD i ⟨0, 0, 0⟩ - mp) < eps) ∧
    ((¬ ∃ p ∈ mesh.points, Length (p - mp) < eps) →
      (findOrAddPoint Length eps mesh mp).1.points = mesh.points ++ [mp] ∧
      (findOrAddPoint Length eps mesh mp).2 = mesh.points.length) := by
  unfold findOrAddPoint
  cases hf : mesh.points.findIdx? (fun p => decide (Length (p - mp) < eps)) with
  | none =>
    rw [List.findIdx?_eq_none_iff] at hf
    constructor
    · rintro ⟨p, hp, hlt⟩
      have := hf p hp
      simp [hlt] at this
    · intro _
      exact ⟨rfl, rfl⟩
  | some i =>
    rw [List.findIdx?_eq_some_iff_getElem] at hf
    obtain ⟨hi, hlt, hfirst⟩ := hf
    constructor
    · intro _
      refine ⟨rfl, hi, ?_, ?_⟩
      · simp only
        rw [List.getD_eq_getElem _ _ hi]
        simpa using hlt
      · intro j hj
        have hj' : @LT.lt Nat _ j i := hj
        rw [List.getD_eq_getElem _ _ (by omega)]
        have := hfirst j hj'
        simpa using this
    · intro hno
      exfalso
      exact hno ⟨mesh.points[i], List.getElem_mem _, by simpa using hlt⟩

/-- Witness of the amended C6: the interior point of the short edge and the
points of the mesh after the vertices were added. -/
theorem findOrAddPoint_first_within_tolerance_witness :
    (findOrAddPoint axisLength 1
      { fineMesh with points := [⟨0, 0, 0⟩, ⟨6 / 5, 0, 0⟩, ⟨100000000, 0, 0⟩] }
      ⟨3 / 5, 0, 0⟩).2 < 3 := by
  have h := (findOrAddPoint_first_within_tolerance axisLength 1
    { fineMesh with points := [⟨0, 0, 0⟩, ⟨6 / 5, 0, 0⟩, ⟨100000000, 0, 0⟩] }
    ⟨3 / 5, 0, 0⟩).1 ⟨⟨0, 0, 0⟩, by simp, by
      rw [Point3.sub_mk]
      simp only [axisLength]
      norm_num [abs_of_pos]⟩
  exact h.2.1

/-! ## The cancellation flag at the entry of `GenerateMesh` -/

/-- C11 fails as stated: the flag is set at every read, the window starts at
Analyse, and `GenerateMesh` still calls `Analyse` (before its first read of the
flag at line 420); the size field of the mesh, 3/5 before the call, is 1
afterwards.  The run returns 0 and calls nothing else. -/
theorem GenerateMesh_flag_set_runs_Analyse :
    ∃ res m, GenerateMesh analysingStages (fun _ => true) (some fineMesh)
        (exampleParams 1 6) = some res ∧
      res.status = 0 ∧
      res.events = [Event.call Call.Analyse, Event.check CheckPoint.line420 true] ∧
      Call.Analyse ∈ calls res.events ∧
      res.mesh = some m ∧ fineMesh.GetH ⟨0, 0, 0⟩ = 3 / 5 ∧ m.GetH ⟨0, 0, 0⟩ = 1 := by
  refine ⟨⟨0, some (Analyse analysingStages.SetLocalMeshsize
    { fineMesh with geomtype := analysingStages.GetGeomType } (exampleParams 1 6)),
    [Event.call Call.Analyse, Event.check CheckPoint.line420 true]⟩, _, ?_, rfl, rfl, ?_, rfl,
    rfl, ?_⟩
  · simp [GenerateMesh, exampleParams, MESHCONST_ANALYSE]
  · simp [calls]
  · simp [Analyse, analysingStages, exampleParams]

/-- C11, amended.  When the first read of the cancellation flag (line 420)
yields true, as it does when the flag is set at the call, `GenerateMesh`
returns 0 and line 420 is the only place where it reads the flag.  If the
stage window starts at Analyse, `Analyse` has been run before that read: it is
the only function called and the mesh returned is the one `Analyse` produced,
with its new size field.  If the window starts later, no function is called
and the mesh pointer is returned as it was.  In both cases no stage after
Analyse and no `FinalizeMesh` is executed. -/
theorem GenerateMesh_flag_set_at_call (st : Stages) (terminate : CheckPoint → Bool)
    (mesh : Option Mesh) (mparam : MeshingParameters)
    (hset : terminate CheckPoint.line420 = true) :
    ∃ res, GenerateMesh st terminate mesh mparam = some res ∧ res.status = 0 ∧
      (mparam.perfstepsstart ≤ MESHCONST_ANALYSE →
        res.events = [Event.call Call.Analyse, Event.check CheckPoint.line420 true] ∧
        calls res.events = [Call.Analyse] ∧
        res.mesh = some (Analyse st.SetLocalMeshsize
          { (mesh.getD st.make_shared) with geomtype := st.GetGeomType } mparam)) ∧
      (¬ mparam.perfstepsstart ≤ MESHCONST_ANALYSE →
        res.events = [Event.check CheckPoint.line420 true] ∧
        calls res.events = [] ∧ res.mesh = mesh) ∧
      (∀ c ∈ calls res.events, c = Call.Analyse) := by
  by_cases hs : mparam.perfstepsstart ≤ MESHCONST_ANALYSE
  · refine ⟨⟨0, some (Analyse st.SetLocalMeshsize
      { (mesh.getD st.make_shared) with geomtype := st.GetGeomType } mparam),
      [Event.call Call.Analyse, Event.check CheckPoint.line420 true]⟩, ?_, rfl, ?_, ?_, ?_⟩
    · cases mesh <;> simp [GenerateMesh, hs, hset]
    · intro _
      exact ⟨rfl, by simp [calls], rfl⟩
    · intro h
      exact absurd hs h
    · intro c hc
      simpa [calls] using hc
  · refine ⟨⟨0, mesh, [Event.check CheckPoint.line420 true]⟩, ?_, rfl, ?_, ?_, ?_⟩
    · simp [GenerateMesh, hs, hset]
    · intro h
      exact absurd h hs
    · intro _
      exact ⟨rfl, by simp [calls], rfl⟩
    · intro c hc
      simp [calls] at hc

/-- Witness of the amended C11: the flag is set at every read and the window
starts at MeshEdges, so nothing is called. -/
theorem GenerateMesh_flag_set_at_call_witness :
    ∃ res, GenerateMesh analysingStages (fun _ => true) (some fineMesh)
        (exampleParams 2 6) = some res ∧ res.status = 0 ∧
      calls res.events = [] := by
  obtain ⟨res, h, h0, -, h2, -⟩ := GenerateMesh_flag_set_at_call analysingStages
    (fun _ => true) (some fineMesh) (exampleParams 2 6) rfl
  exact ⟨res, h, h0, (h2 (by simp [exampleParams, MESHCONST_ANALYSE])).2.1⟩

/-! ## Theorems about `MeshSurface` -/

theorem MeshSurface_twoFace (mparam : MeshingParameters) :
    MeshSurface failingEngine (fun _ => 0) twoFaceGeometry twoFaceMesh mparam =
      ({ twoFaceMesh with surfelements := [⟨1, [2, 0]⟩, ⟨2, [1, 2]⟩] },
       [⟨0, ⟨[(⟨0, 1, 0⟩, 2), (⟨0, 0, 0⟩, 0)],
            [(1, 2, ⟨1, 0, 0⟩, ⟨1, 0, 0⟩), (2, 1, ⟨1, 0, 0⟩, ⟨1, 0, 0⟩)]⟩,
          [2, 0, 1], 2, 0, MESHING2_RESULT.failed 1, 1⟩,
        ⟨1, ⟨[(⟨1, 0, 0⟩, 1), (⟨0, 1, 0⟩, 2)], [(1, 2, ⟨2, 0, 0⟩, ⟨2, 0, 0⟩)]⟩,
          [0, 1, 2], 2, 1, MESHING2_RESULT.MESHING2_OK, 2⟩]) := by
  simp [MeshSurface, MeshSurface_face, prepareFace, twoFaceGeometry, twoFaceMesh, failingEngine,
    registerSegments, registerPoint, addBoundaryElements, tagNew, zeroSegment,
    Meshing2.AddPoint, Meshing2.AddBoundaryElement, List.enum, List.enumFrom, List.range',
    List.modify, List.range, List.range.loop]

/-- C12 does not hold of the code.  On the two-face geometry the engine fails
on face number 1 (`k = 0`).  `MeshSurface` stores the result code (line 350)
and never reads it: it tags the element the failed call appended with the
face index 1 like the product of a success, goes on to the next face, and
returns.  `GenerateMesh`, started at MeshSurface, then runs every later stage,
calls `FinalizeMesh` and returns 0, the status of a successful run.  The engine
is invoked once per face. -/
theorem MeshSurface_ignores_engine_failure :
    ((MeshSurface failingEngine (fun _ => 0) twoFaceGeometry twoFaceMesh
        (exampleParams 3 6)).2.map fun f => (f.k, f.res)) =
      [(0, MESHING2_RESULT.failed 1), (1, MESHING2_RESULT.MESHING2_OK)] ∧
    (MeshSurface failingEngine (fun _ => 0) twoFaceGeometry twoFaceMesh
        (exampleParams 3 6)).1.surfelements = [⟨1, [2, 0]⟩, ⟨2, [1, 2]⟩] ∧
    ∃ res, GenerateMesh failingSurfaceStages (fun _ => false) (some twoFaceMesh)
        (exampleParams 3 6) = some res ∧
      res.status = 0 ∧
      calls res.events =
        [Call.MeshSurface, Call.CalcSurfacesOfNode, Call.OptimizeSurface,
         Call.MeshVolume MESHING3_RESULT.MESHING3_OK, Call.RemoveIllegalElements,
         Call.MeshQuality3d, Call.OptimizeVolume, Call.FinalizeMesh] ∧
      res.mesh.map (fun m => m.surfelements) = some [⟨1, [2, 0]⟩, ⟨2, [1, 2]⟩] := by
  refine ⟨?_, ?_, ?_⟩
  · rw [MeshSurface_twoFace]
    rfl
  · rw [MeshSurface_twoFace]
  · have h := GenerateMesh_isSome failingSurfaceStages (fun _ => false) (some twoFaceMesh)
      (exampleParams 3 6) (Or.inl (by simp))
    obtain ⟨res, hres⟩ := h
    refine ⟨res, hres, ?_⟩
    simp only [GenerateMesh, GenerateMesh_line423, GenerateMesh_line429, GenerateMesh_line438,
      GenerateMesh_line445, GenerateMesh_line460, GenerateMesh_line464, exampleParams,
      MESHCONST_ANALYSE, MESHCONST_MESHEDGES, MESHCONST_MESHSURFACE, MESHCONST_OPTSURFACE,
      MESHCONST_MESHVOLUME, MESHCONST_OPTVOLUME, failingSurfaceStages, exampleStages] at hres
    norm_num at hres
    subst hres
    refine ⟨rfl, by simp [calls], ?_⟩
    simp only [Option.map_some', Option.some.injEq]
    exact congrArg (fun r => r.1.surfelements) (MeshSurface_twoFace _)

theorem foldl_modify_lookup {α : Type} (f : α → α) (hf : ∀ a, f (f a) = f a)
    (idxs : List Nat) (l : List α) (m : Nat) :
    (idxs.foldl (fun l i => l.modify f i) l)[m]? =
      if m ∈ idxs then l[m]?.map f else l[m]? := by
  induction idxs generalizing l with
  | nil => simp
  | cons i is ih =>
    simp only [List.foldl_cons]
    rw [ih, List.getElem?_modify]
    by_cases h1 : m ∈ is <;> by_cases h2 : i = m
    · subst h2
      cases l[i]? <;> simp [h1, hf]
    · have h3 : ¬ m = i := fun h => h2 h.symm
      cases l[m]? <;> simp [h1, h2, h3]
    · subst h2
      cases l[i]? <;> simp [h1]
    · have h3 : ¬ m = i := fun h => h2 h.symm
      cases l[m]? <;> simp [h1, h2, h3]

theorem tagNew_eq (k noldsurfels : Nat) (els : List Element2d) :
    tagNew k noldsurfels els =
      els.take noldsurfels ++
        (els.drop noldsurfels).map fun e => { e with index := k + 1 } := by
  apply List.ext_getElem?
  intro m
  unfold tagNew
  rw [foldl_modify_lookup (fun e : Element2d => { e with index := k + 1 }) (fun a => rfl)]
  simp only [List.mem_range'_1, List.getElem?_append, List.getElem?_map, List.getElem?_drop,
    List.getElem?_take, List.length_take]
  by_cases h1 : m < noldsurfels
  · by_cases h2 : m < els.length
    · have h3 : ¬ (noldsurfels ≤ m ∧ m < noldsurfels + (els.length - noldsurfels)) := by omega
      have h4 : m < min noldsurfels els.length := by omega
      simp [h3, h4, h1]
    · have h3 : ¬ (noldsurfels ≤ m ∧ m < noldsurfels + (els.length - noldsurfels)) := by omega
      have h4 : ¬ m < min noldsurfels els.length := by omega
      have h5 : els[m]? = none := List.getElem?_eq_none (by omega)
      have h6 : els[noldsurfels + (m - min noldsurfels els.length)]? = none :=
        List.getElem?_eq_none (by omega)
      simp [h3, h4, h5, h6]
  · by_cases h2 : m < els.length
    · have h3 : noldsurfels ≤ m ∧ m < noldsurfels + (els.length - noldsurfels) := by omega
      have h4 : ¬ m < min noldsurfels els.length := by omega
      have h5 : noldsurfels + (m - min noldsurfels els.length) = m := by omega
      simp [h3, h4, h5]
    · have h3 : ¬ (noldsurfels ≤ m ∧ m < noldsurfels + (els.length - noldsurfels)) := by omega
      have h4 : ¬ m < min noldsurfels els.length := by omega
      have h5 : els[m]? = none := List.getElem?_eq_none (by omega)
      have h6 : els[noldsurfels + (m - min noldsurfels els.length)]? = none :=
        List.getElem?_eq_none (by omega)
      simp [h3, h4, h5, h6]

theorem MeshSurface_face_surfelements (engine : Meshing2GenerateMesh)
    (mparam : MeshingParameters) (st : Mesh × List Nat × List FaceRun)
    (kf : Nat × GeometryFace) :
    ∃ f : FaceRun,
      (MeshSurface_face engine mparam st kf).2.2 = st.2.2 ++ [f] ∧ f.k = kf.1 ∧
      f.noldsurfels = st.1.surfelements.length ∧
      f.nse = (engine kf.2 (prepareFace st.1 kf.1 st.2.1).meshing st.1 mparam mparam.maxh
        (kf.1 + 1)).2.surfelements.length ∧
      (MeshSurface_face engine mparam st kf).1.surfelements =
        (engine kf.2 (prepareFace st.1 kf.1 st.2.1).meshing st.1 mparam mparam.maxh
            (kf.1 + 1)).2.surfelements.take st.1.surfelements.length ++
          ((engine kf.2 (prepareFace st.1 kf.1 st.2.1).meshing st.1 mparam mparam.maxh
            (kf.1 + 1)).2.surfelements.drop st.1.surfelements.length).map
              fun e => { e with index := kf.1 + 1 } :=
  ⟨_, rfl, rfl, rfl, rfl, tagNew_eq _ _ _⟩

theorem MeshSurface_face_appended (engine : Meshing2GenerateMesh) (happ : AppendsOnly engine)
    (mparam : MeshingParameters) (st : Mesh × List Nat × List FaceRun)
    (kf : Nat × GeometryFace) :
    (MeshSurface_face engine mparam st kf).1.surfelements =
      st.1.surfelements ++
        ((engine kf.2 (prepareFace st.1 kf.1 st.2.1).meshing st.1 mparam mparam.maxh
          (kf.1 + 1)).2.surfelements.drop st.1.surfelements.length).map
            fun e => { e with index := kf.1 + 1 } := by
  obtain ⟨f, -, -, -, -, h⟩ := MeshSurface_face_surfelements engine mparam st kf
  rw [h]
  obtain ⟨t, ht⟩ := happ kf.2 (prepareFace st.1 kf.1 st.2.1).meshing st.1 mparam mparam.maxh
    (kf.1 + 1)
  rw [← ht]
  simp

theorem lookup_of_initial {α : Type} {l1 l2 : List α} (h : l1 <+: l2) (i : Nat)
    (hi : i < l1.length) : l2[i]? = l1[i]? := by
  obtain ⟨t, ht⟩ := h
  rw [← ht, List.getElem?_append_left hi]

theorem MeshSurface_faces_tagged (engine : Meshing2GenerateMesh) (happ : AppendsOnly engine)
    (mparam : MeshingParameters) (faces : List GeometryFace) (n : Nat)
    (st : Mesh × List Nat × List FaceRun) :
    ∃ newlog,
      ((faces.enumFrom n).foldl (MeshSurface_face engine mparam) st).2.2 = st.2.2 ++ newlog ∧
      newlog.map (fun f => f.k) = List.range' n faces.length ∧
      st.1.surfelements <+:
        ((faces.enumFrom n).foldl (MeshSurface_face engine mparam) st).1.surfelements ∧
      (∀ f ∈ newlog, ∀ i, f.noldsurfels ≤ i → i < f.nse →
        ∃ e, ((faces.enumFrom n).foldl (MeshSurface_face engine mparam) st).1.surfelements[i]?
          = some e ∧ e.index = f.k + 1) ∧
      (∀ i, st.1.surfelements.length ≤ i →
        i < ((faces.enumFrom n).foldl (MeshSurface_face engine mparam) st).1.surfelements.length →
        ∃ f ∈ newlog, f.noldsurfels ≤ i ∧ i < f.nse) := by
  induction faces generalizing n st with
  | nil =>
    refine ⟨[], by simp, by simp, by simp, by simp, ?_⟩
    intro i h1 h2
    simp only [List.enumFrom_nil, List.foldl_nil] at h2
    omega
  | cons face rest ih =>
    simp only [List.enumFrom_cons, List.foldl_cons]
    obtain ⟨f0, hlog, hk, hold, hnse, -⟩ :=
      MeshSurface_face_surfelements engine mparam st (n, face)
    have hsurf := MeshSurface_face_appended engine happ mparam st (n, face)
    obtain ⟨t, ht⟩ := happ face (prepareFace st.1 n st.2.1).meshing st.1 mparam mparam.maxh
      (n + 1)
    simp only at hk hold hnse hsurf
    rw [← ht] at hnse hsurf
    simp only [List.drop_left, List.length_append] at hnse hsurf
    obtain ⟨newlog, h1, h2, h3, h4, h5⟩ := ih (n + 1) (MeshSurface_face engine mparam st (n, face))
    have hlen1 : (MeshSurface_face engine mparam st (n, face)).1.surfelements.length = f0.nse := by
      rw [hsurf, hnse]
      simp
    have hpre01 : st.1.surfelements <+:
        (MeshSurface_face engine mparam st (n, face)).1.surfelements := by
      rw [hsurf]
      exact ⟨_, rfl⟩
    refine ⟨f0 :: newlog, ?_, ?_, hpre01.trans h3, ?_, ?_⟩
    · rw [h1, hlog]
      simp
    · simp only [List.map_cons, hk, h2, List.length_cons]
      rw [List.range'_succ]
    · intro f hf i hi1 hi2
      rcases List.mem_cons.mp hf with hf | hf
      · subst hf
        rw [lookup_of_initial h3 i (by omega), hsurf,
          List.getElem?_append_right (by omega), List.getElem?_map]
        have hit : i - st.1.surfelements.length < t.length := by omega
        rw [List.getElem?_eq_getElem hit]
        exact ⟨_, rfl, by simp [hk]⟩
      · exact h4 f hf i hi1 hi2
    · intro i hi1 hi2
      by_cases hi : i < f0.nse
      · exact ⟨f0, List.mem_cons_self _ _, by omega, hi⟩
      · obtain ⟨f, hf, hf1, hf2⟩ := h5 i (by omega) hi2
        exact ⟨f, List.mem_cons_of_mem _ hf, hf1, hf2⟩

theorem failingEngine_appends : AppendsOnly failingEngine := by
  intro face meshing mesh mparam h facenr
  exact ⟨_, rfl⟩

/-- C13.  Let the engine only append surface elements.  For every face `k` and
every state in which its turn comes, the surface elements after the body of
the face loop are the ones that existed before the engine call, unchanged,
followed by the ones the engine appended, each with its index set to `k+1`.
For the whole of `MeshSurface`: the faces are done once each in the order
`0, 1, ...`; the surface elements the mesh had before are still its first
ones; every element at a position `noldsurfels ≤ i < nse` of a face `k` (the
elements appended by the engine call of that face) has index `k+1` in the final
mesh; every position behind the elements the mesh had before lies in the range
of one of the faces; hence, if the mesh had no surface element, every final
surface element has an index in `1 .. number of faces`. -/
theorem MeshSurface_tags_new_elements (engine : Meshing2GenerateMesh)
    (happ : AppendsOnly engine) (glob2loc_uninit : Nat → Nat) (geo : NetgenGeometry)
    (mesh : Mesh) (mparam : MeshingParameters) :
    (∀ (st : Mesh × List Nat × List FaceRun) (kf : Nat × GeometryFace),
      (MeshSurface_face engine mparam st kf).1.surfelements =
        st.1.surfelements ++
          ((engine kf.2 (prepareFace st.1 kf.1 st.2.1).meshing st.1 mparam mparam.maxh
            (kf.1 + 1)).2.surfelements.drop st.1.surfelements.length).map
              fun e => { e with index := kf.1 + 1 }) ∧
    (MeshSurface engine glob2loc_uninit geo mesh mparam).2.map (fun f => f.k) =
      List.range geo.faces.length ∧
    mesh.surfelements <+: (MeshSurface engine glob2loc_uninit geo mesh mparam).1.surfelements ∧
    (∀ f ∈ (MeshSurface engine glob2loc_uninit geo mesh mparam).2, ∀ i,
      f.noldsurfels ≤ i → i < f.nse →
      ∃ e, (MeshSurface engine glob2loc_uninit geo mesh mparam).1.surfelements[i]? = some e ∧
        e.index = f.k + 1) ∧
    (∀ i, mesh.surfelements.length ≤ i →
      i < (MeshSurface engine glob2loc_uninit geo mesh mparam).1.surfelements.length →
      ∃ f ∈ (MeshSurface engine glob2loc_uninit geo mesh mparam).2,
        f.noldsurfels ≤ i ∧ i < f.nse) ∧
    (mesh.surfelements = [] →
      ∀ e ∈ (MeshSurface engine glob2loc_uninit geo mesh mparam).1.surfelements,
        1 ≤ e.index ∧ e.index ≤ geo.faces.length) := by
  obtain ⟨newlog, h1, h2, h3, h4, h5⟩ := MeshSurface_faces_tagged engine happ mparam geo.faces 0
    (mesh, (List.range mesh.points.length).map glob2loc_uninit, [])
  simp only [List.nil_append] at h1
  have hk : (MeshSurface engine glob2loc_uninit geo mesh mparam).2.map (fun f => f.k) =
      List.range geo.faces.length := by
    simp only [MeshSurface, List.enum]
    rw [h1, h2, List.range_eq_range']
  have htag : ∀ f ∈ (MeshSurface engine glob2loc_uninit geo mesh mparam).2, ∀ i,
      f.noldsurfels ≤ i → i < f.nse →
      ∃ e, (MeshSurface engine glob2loc_uninit geo mesh mparam).1.surfelements[i]? = some e ∧
        e.index = f.k + 1 := by
    intro f hf i hi1 hi2
    simp only [MeshSurface, List.enum] at hf ⊢
    rw [h1] at hf
    exact h4 f hf i hi1 hi2
  have hcov : ∀ i, mesh.surfelements.length ≤ i →
      i < (MeshSurface engine glob2loc_uninit geo mesh mparam).1.surfelements.length →
      ∃ f ∈ (MeshSurface engine glob2loc_uninit geo mesh mparam).2,
        f.noldsurfels ≤ i ∧ i < f.nse := by
    intro i hi1 hi2
    simp only [MeshSurface, List.enum] at hi2 ⊢
    rw [h1]
    exact h5 i hi1 hi2
  refine ⟨fun st kf => MeshSurface_face_appended engine happ mparam st kf, hk, h3, htag, hcov, ?_⟩
  intro hempty e he
  obtain ⟨i, hi, hie⟩ := List.getElem_of_mem he
  obtain ⟨f, hf, hf1, hf2⟩ := hcov i (by simp [hempty]) hi
  obtain ⟨e', he1, he2⟩ := htag f hf i hf1 hf2
  rw [List.getElem?_eq_getElem hi, hie] at he1
  cases he1
  have hfk : f.k ∈ (MeshSurface engine glob2loc_uninit geo mesh mparam).2.map (fun f => f.k) :=
    List.mem_map_of_mem _ hf
  rw [hk, List.mem_range] at hfk
  omega

/-- Witness of C13: the engine that appends one element per call, on the
two-face geometry and a mesh without surface elements. -/
theorem MeshSurface_tags_new_elements_witness :
    AppendsOnly failingEngine ∧
    ∀ e ∈ (MeshSurface failingEngine (fun _ => 0) twoFaceGeometry twoFaceMesh
        (exampleParams 3 6)).1.surfelements, 1 ≤ e.index ∧ e.index ≤ 2 :=
  ⟨failingEngine_appends,
    (MeshSurface_tags_new_elements failingEngine failingEngine_appends (fun _ => 0)
      twoFaceGeometry twoFaceMesh (exampleParams 3 6)).2.2.2.2.2 rfl⟩

/-! ## Theorems about the registration scans of `MeshSurface` -/

theorem registerSegments_eq_foldl (mesh : Mesh) (k : Nat) (s : SurfaceState) :
    registerSegments mesh k s = (faceEndpoints mesh k).foldl (registerPoint mesh) s := by
  unfold registerSegments faceEndpoints
  generalize mesh.segments = segs
  induction segs generalizing s with
  | nil => rfl
  | cons seg segs ih =>
    simp only [List.foldl_cons, List.filter_cons]
    by_cases h : seg.si = k + 1
    · simp only [h, if_true, decide_True, List.flatMap_cons, List.cons_append, List.nil_append,
        List.foldl_cons]
      exact ih _
    · simp only [h, if_false, decide_False]
      exact ih _

theorem getD_mem_of_lt (l : List Nat) (j : Nat) (hj : j < l.length) : l.getD j 0 ∈ l := by
  rw [List.getD_eq_getElem _ _ hj]
  exact List.getElem_mem _

theorem Registered_step (mesh : Mesh) (n : Nat) (s : SurfaceState) (acc : List PointIndex)
    (p : PointIndex) (hp : p < n) (h : Registered mesh n s acc) :
    Registered mesh n (registerPoint mesh s p) (if p ∈ acc then acc else acc ++ [p]) := by
  obtain ⟨h1, h2, h3, h4, h5, h6, h7⟩ := h
  by_cases hmem : p ∈ acc
  · rw [if_pos hmem]
    obtain ⟨j, hj, hjp⟩ := List.getElem_of_mem hmem
    have hg := h6 j hj
    rw [List.getD_eq_getElem _ _ hj, hjp] at hg
    have hne : ¬ s.glob2loc.getD p 0 = 0 := by omega
    unfold registerPoint
    rw [if_neg hne]
    exact ⟨h1, h2, h3, h4, h5, h6, h7⟩
  · rw [if_neg hmem]
    have hz := h7 p hmem
    unfold registerPoint
    rw [if_pos hz]
    refine ⟨?_, h2, ?_, ?_, ?_, ?_, ?_⟩
    · simp only [Meshing2.AddPoint, h1, List.map_append, List.map_cons, List.map_nil]
    · simp only [h3, List.length_append, List.length_singleton]
    · simp only [List.length_set, h4]
    · exact List.Nodup.append h5 (List.nodup_singleton p) (by simpa using hmem)
    · intro j hj
      simp only [List.length_append, List.length_singleton] at hj
      rcases Nat.lt_or_ge j acc.length with hlt | hge
      · have hq : (acc ++ [p]).getD j 0 = acc.getD j 0 := List.getD_append _ _ _ _ hlt
        rw [hq]
        have hqmem := getD_mem_of_lt acc j hlt
        have hne : p ≠ acc.getD j 0 := fun he => hmem (he ▸ hqmem)
        simp only
        rw [getD_set_of_ne _ _ _ _ _ hne]
        exact h6 j hlt
      · have hj' : j = acc.length := by omega
        subst hj'
        have hq : (acc ++ [p]).getD acc.length 0 = p := by
          rw [List.getD_append_right _ _ _ _ (le_refl _)]
          simp
        rw [hq]
        simp only
        rw [getD_set_self _ _ _ _ (by rw [h4]; exact hp), h3]
    · intro q hq
      simp only [List.mem_append, List.mem_singleton, not_or] at hq
      simp only
      rw [getD_set_of_ne _ _ _ _ _ (fun he => hq.2 he.symm)]
      exact h7 q hq.1

theorem Registered_foldl (mesh : Mesh) (n : Nat) (l : List PointIndex) :
    ∀ (s : SurfaceState) (acc : List PointIndex), (∀ p ∈ l, p < n) → Registered mesh n s acc →
      Registered mesh n (l.foldl (registerPoint mesh) s)
        (l.foldl (fun acc p => if p ∈ acc then acc else acc ++ [p]) acc) := by
  induction l with
  | nil =>
    intro s acc _ h
    exact h
  | cons p l ih =>
    intro s acc hl h
    simp only [List.foldl_cons]
    exact ih _ _ (fun q hq => hl q (List.mem_cons_of_mem _ hq))
      (Registered_step mesh n s acc p (hl p (List.mem_cons_self _ _)) h)

theorem firstSeen_foldl_spec (ends : List PointIndex) (l : List PointIndex) :
    ∀ (pre acc : List PointIndex), ends = pre ++ l → acc.Nodup → (∀ p, p ∈ acc ↔ p ∈ pre) →
      acc.Pairwise (fun p q => ends.indexOf p < ends.indexOf q) →
      (l.foldl (fun acc p => if p ∈ acc then acc else acc ++ [p]) acc).Nodup ∧
      (∀ p, p ∈ l.foldl (fun acc p => if p ∈ acc then acc else acc ++ [p]) acc ↔ p ∈ ends) ∧
      (l.foldl (fun acc p => if p ∈ acc then acc else acc ++ [p]) acc).Pairwise
        (fun p q => ends.indexOf p < ends.indexOf q) := by
  induction l with
  | nil =>
    intro pre acc he hn hm hp
    simp only [List.append_nil] at he
    subst he
    exact ⟨hn, hm, hp⟩
  | cons x l ih =>
    intro pre acc he hn hm hp
    simp only [List.foldl_cons]
    have he' : ends = (pre ++ [x]) ++ l := by
      rw [he]
      simp
    by_cases hx : x ∈ acc
    · rw [if_pos hx]
      refine ih (pre ++ [x]) acc he' hn ?_ hp
      intro p
      rw [hm p, List.mem_append, List.mem_singleton]
      constructor
      · exact Or.inl
      · rintro (h | h)
        · exact h
        · subst h
          exact (hm p).1 hx
    · rw [if_neg hx]
      have hxpre : x ∉ pre := fun h => hx ((hm x).2 h)
      refine ih (pre ++ [x]) (acc ++ [x]) he' ?_ ?_ ?_
      · exact List.Nodup.append hn (List.nodup_singleton x) (by simpa using hx)
      · intro p
        simp only [List.mem_append, List.mem_singleton, hm p]
      · rw [List.pairwise_append]
        refine ⟨hp, List.pairwise_singleton _ _, ?_⟩
        intro p hpacc q hq
        rw [List.mem_singleton] at hq
        subst hq
        have hppre : p ∈ pre := (hm p).1 hpacc
        rw [he, List.indexOf_append_of_mem hppre, List.indexOf_append_of_not_mem hxpre,
          List.indexOf_cons_self]
        have := List.indexOf_lt_length.2 hppre
        omega

theorem firstSeen_spec (ends : List PointIndex) :
    (firstSeen ends).Nodup ∧ (∀ p, p ∈ firstSeen ends ↔ p ∈ ends) ∧
    (firstSeen ends).Pairwise (fun p q => ends.indexOf p < ends.indexOf q) :=
  firstSeen_foldl_spec ends ends [] [] rfl List.nodup_nil (fun p => by simp) List.Pairwise.nil

theorem addBoundaryElements_spec (mesh : Mesh) (k : Nat) (s : SurfaceState) :
    (addBoundaryElements mesh k s).glob2loc = s.glob2loc ∧
    (addBoundaryElements mesh k s).cntp = s.cntp ∧
    (addBoundaryElements mesh k s).meshing.points = s.meshing.points ∧
    (addBoundaryElements mesh k s).meshing.boundary = s.meshing.boundary ++
      (mesh.segments.filter fun seg => decide (seg.si = k + 1)).map fun seg =>
        (s.glob2loc.getD seg.p0 0, s.glob2loc.getD seg.p1 0,
          (⟨((k + 1 : Nat) : Int), seg.epgeominfo0.u, seg.epgeominfo0.v⟩ : PointGeomInfo),
          (⟨((k + 1 : Nat) : Int), seg.epgeominfo1.u, seg.epgeominfo1.v⟩ : PointGeomInfo)) := by
  unfold addBoundaryElements
  generalize mesh.segments = segs
  induction segs generalizing s with
  | nil => simp
  | cons seg segs ih =>
    simp only [List.foldl_cons, List.filter_cons]
    by_cases h : seg.si = k + 1
    · simp only [h, if_true, decide_True, List.map_cons]
      obtain ⟨h1, h2, h3, h4⟩ := ih
        { s with
          meshing := s.meshing.AddBoundaryElement (s.glob2loc.getD seg.p0 0)
            (s.glob2loc.getD seg.p1 0)
            ⟨((k + 1 : Nat) : Int), seg.epgeominfo0.u, seg.epgeominfo0.v⟩
            ⟨((k + 1 : Nat) : Int), seg.epgeominfo1.u, seg.epgeominfo1.v⟩ }
      refine ⟨h1, h2, h3, ?_⟩
      rw [h4]
      simp [Meshing2.AddBoundaryElement]
    · simp only [h, if_false, decide_False]
      exact ih s

theorem registerPoint_length (mesh : Mesh) (s : SurfaceState) (p : PointIndex) :
    (registerPoint mesh s p).glob2loc.length = s.glob2loc.length := by
  unfold registerPoint
  split_ifs
  · simp
  · rfl

theorem prepareFace_length (mesh : Mesh) (k : Nat) (g : List Nat) :
    (prepareFace mesh k g).glob2loc.length = g.length := by
  unfold prepareFace
  simp only
  rw [(addBoundaryElements_spec mesh k _).1, registerSegments_eq_foldl]
  have : ∀ (l : List PointIndex) (s : SurfaceState),
      (l.foldl (registerPoint mesh) s).glob2loc.length = s.glob2loc.length := by
    intro l
    induction l with
    | nil => intro s; rfl
    | cons p l ih =>
      intro s
      simp only [List.foldl_cons]
      rw [ih, registerPoint_length]
  rw [this]
  simp

theorem prepareFace_registered (mesh : Mesh) (k : Nat) (g : List Nat)
    (hvalid : ∀ p ∈ faceEndpoints mesh k, p < g.length) :
    Registered mesh g.length
      (registerSegments mesh k ⟨⟨[], []⟩, List.replicate g.length 0, 0⟩)
      (firstSeen (faceEndpoints mesh k)) := by
  rw [registerSegments_eq_foldl]
  refine Registered_foldl mesh g.length _ _ [] hvalid ⟨rfl, rfl, rfl, by simp, List.nodup_nil,
    ?_, ?_⟩
  · intro j hj
    simp at hj
  · intro p _
    simp only [List.getD_eq_getElem?_getD, List.getElem?_replicate]
    split_ifs <;> rfl

theorem MeshSurface_faces_log (engine : Meshing2GenerateMesh) (mparam : MeshingParameters)
    (faces : List GeometryFace) (np : Nat) :
    ∀ (n : Nat) (st : Mesh × List Nat × List FaceRun), st.2.1.length = np →
      (∀ f ∈ st.2.2, ∃ (m : Mesh) (g : List Nat), g.length = np ∧
        f.meshing = (prepareFace m f.k g).meshing ∧
        f.glob2loc = (prepareFace m f.k g).glob2loc ∧ f.cntp = (prepareFace m f.k g).cntp) →
      ∀ f ∈ ((faces.enumFrom n).foldl (MeshSurface_face engine mparam) st).2.2,
        ∃ (m : Mesh) (g : List Nat), g.length = np ∧
          f.meshing = (prepareFace m f.k g).meshing ∧
          f.glob2loc = (prepareFace m f.k g).glob2loc ∧ f.cntp = (prepareFace m f.k g).cntp := by
  induction faces with
  | nil =>
    intro n st _ h
    exact h
  | cons face rest ih =>
    intro n st hlen h
    simp only [List.enumFrom_cons, List.foldl_cons]
    refine ih (n + 1) _ ?_ ?_
    · simp only [MeshSurface_face]
      rw [prepareFace_length, hlen]
    · intro f hf
      simp only [MeshSurface_face, List.mem_append, List.mem_singleton] at hf
      rcases hf with hf | hf
      · exact h f hf
      · subst hf
        exact ⟨st.1, st.2.1, hlen, rfl, rfl, rfl⟩

/-- C20.  Let every end point of a segment of face `k` be an index of the array
`glob2loc`.  After the two scans of the segments for face `k` (lines 308-342),
whatever the array holds from the faces processed before: the points
registered with the engine are the distinct end points of the segments tagged
`k+1`, each once, in the order in which the scan first sees them, each with
its position in the mesh; `cntp` is their number; `glob2loc` sends the `j`-th
registered point to `j` (counted from 1) and every other point to 0; the state
after the scans depends on the array before them through its size only; the
boundary constraints submitted are those of the segments tagged `k+1`, in
order, and both local indices of each lie in `1 .. cntp`.  In a run of
`MeshSurface`, what is recorded for each face is the result of these scans on
an array that has one entry per point of the initial mesh. -/
theorem prepareFace_registers (mesh : Mesh) (k : Nat) (g : List Nat)
    (hvalid : ∀ p ∈ faceEndpoints mesh k, p < g.length) :
    (prepareFace mesh k g).meshing.points =
      (firstSeen (faceEndpoints mesh k)).map
        (fun pi => (mesh.points.getD pi ⟨0, 0, 0⟩, pi)) ∧
    (firstSeen (faceEndpoints mesh k)).Nodup ∧
    (∀ p, p ∈ firstSeen (faceEndpoints mesh k) ↔ p ∈ faceEndpoints mesh k) ∧
    (firstSeen (faceEndpoints mesh k)).Pairwise
      (fun p q => (faceEndpoints mesh k).indexOf p < (faceEndpoints mesh k).indexOf q) ∧
    (prepareFace mesh k g).cntp = (firstSeen (faceEndpoints mesh k)).length ∧
    (∀ j, j < (firstSeen (faceEndpoints mesh k)).length →
      (prepareFace mesh k g).glob2loc.getD ((firstSeen (faceEndpoints mesh k)).getD j 0) 0 =
        j + 1) ∧
    (∀ p, p ∉ firstSeen (faceEndpoints mesh k) → (prepareFace mesh k g).glob2loc.getD p 0 = 0) ∧
    (∀ g' : List Nat, g'.length = g.length →
      (prepareFace mesh k g').meshing = (prepareFace mesh k g).meshing ∧
      (prepareFace mesh k g').glob2loc = (prepareFace mesh k g).glob2loc ∧
      (prepareFace mesh k g').cntp = (prepareFace mesh k g).cntp) ∧
    (prepareFace mesh k g).meshing.boundary =
      ((mesh.segments.filter fun seg => decide (seg.si = k + 1)).map fun seg =>
        ((prepareFace mesh k g).glob2loc.getD seg.p0 0,
          (prepareFace mesh k g).glob2loc.getD seg.p1 0,
          (⟨((k + 1 : Nat) : Int), seg.epgeominfo0.u, seg.epgeominfo0.v⟩ : PointGeomInfo),
          (⟨((k + 1 : Nat) : Int), seg.epgeominfo1.u, seg.epgeominfo1.v⟩ : PointGeomInfo))) ∧
    (∀ b ∈ (prepareFace mesh k g).meshing.boundary,
      1 ≤ b.1 ∧ b.1 ≤ (prepareFace mesh k g).cntp ∧
      1 ≤ b.2.1 ∧ b.2.1 ≤ (prepareFace mesh k g).cntp) ∧
    (∀ (engine : Meshing2GenerateMesh) (glob2loc_uninit : Nat → Nat) (geo : NetgenGeometry)
        (mesh0 : Mesh) (mparam : MeshingParameters),
      ∀ f ∈ (MeshSurface engine glob2loc_uninit geo mesh0 mparam).2,
        ∃ (m : Mesh) (g0 : List Nat), g0.length = mesh0.points.length ∧
          f.meshing = (prepareFace m f.k g0).meshing ∧
          f.glob2loc = (prepareFace m f.k g0).glob2loc ∧
          f.cntp = (prepareFace m f.k g0).cntp) := by
  obtain ⟨hn, hm, hp⟩ := firstSeen_spec (faceEndpoints mesh k)
  obtain ⟨r1, r2, r3, r4, -, r6, r7⟩ := prepareFace_registered mesh k g hvalid
  obtain ⟨b1, b2, b3, b4⟩ := addBoundaryElements_spec mesh k
    (registerSegments mesh k ⟨⟨[], []⟩, List.replicate g.length 0, 0⟩)
  have hs : prepareFace mesh k g = addBoundaryElements mesh k
      (registerSegments mesh k ⟨⟨[], []⟩, List.replicate g.length 0, 0⟩) := rfl
  have hbnd : (prepareFace mesh k g).meshing.boundary =
      ((mesh.segments.filter fun seg => decide (seg.si = k + 1)).map fun seg =>
        ((prepareFace mesh k g).glob2loc.getD seg.p0 0,
          (prepareFace mesh k g).glob2loc.getD seg.p1 0,
          (⟨((k + 1 : Nat) : Int), seg.epgeominfo0.u, seg.epgeominfo0.v⟩ : PointGeomInfo),
          (⟨((k + 1 : Nat) : Int), seg.epgeominfo1.u, seg.epgeominfo1.v⟩ : PointGeomInfo))) := by
    rw [hs, b4, b1, r2, List.nil_append]
  have hloc : ∀ p ∈ faceEndpoints mesh k,
      1 ≤ (prepareFace mesh k g).glob2loc.getD p 0 ∧
      (prepareFace mesh k g).glob2loc.getD p 0 ≤ (prepareFace mesh k g).cntp := by
    intro p hpe
    obtain ⟨j, hj, hjp⟩ := List.getElem_of_mem ((hm p).2 hpe)
    have h6 := r6 j hj
    rw [List.getD_eq_getElem _ _ hj, hjp] at h6
    rw [hs, b1, b2, h6, r3]
    omega
  refine ⟨by rw [hs, b3, r1], hn, hm, hp, by rw [hs, b2, r3], ?_, ?_, ?_, hbnd, ?_, ?_⟩
  · intro j hj
    rw [hs, b1]
    exact r6 j hj
  · intro p hpn
    rw [hs, b1]
    exact r7 p hpn
  · intro g' hg'
    unfold prepareFace
    rw [hg']
    exact ⟨rfl, rfl, rfl⟩
  · intro b hb
    rw [hbnd, List.mem_map] at hb
    obtain ⟨seg, hseg, rfl⟩ := hb
    have h0 : seg.p0 ∈ faceEndpoints mesh k := by
      unfold faceEndpoints
      rw [List.mem_flatMap]
      exact ⟨seg, hseg, by simp⟩
    have h1 : seg.p1 ∈ faceEndpoints mesh k := by
      unfold faceEndpoints
      rw [List.mem_flatMap]
      exact ⟨seg, hseg, by simp⟩
    exact ⟨(hloc _ h0).1, (hloc _ h0).2, (hloc _ h1).1, (hloc _ h1).2⟩
  · intro engine glob2loc_uninit geo mesh0 mparam f hf
    exact MeshSurface_faces_log engine mparam geo.faces mesh0.points.length 0
      (mesh0, (List.range mesh0.points.length).map glob2loc_uninit, []) (by simp)
      (fun f hf => by simp at hf) f hf

/-- Witness of C20: the face number 0 of the two-face mesh, whose segments are
(2, 0) and (0, 2); the points registered are 2 and 0, in this order. -/
theorem prepareFace_registers_witness :
    (∀ p ∈ faceEndpoints twoFaceMesh 0, p < [7, 7, 7].length) ∧
    (prepareFace twoFaceMesh 0 [7, 7, 7]).meshing.points =
      [(⟨0, 1, 0⟩, 2), (⟨0, 0, 0⟩, 0)] ∧
    (prepareFace twoFaceMesh 0 [7, 7, 7]).cntp = 2 := by
  have hv : ∀ p ∈ faceEndpoints twoFaceMesh 0, p < [7, 7, 7].length := by
    intro p hp
    simp [faceEndpoints, twoFaceMesh, zeroSegment] at hp
    rcases hp with hp | hp | hp <;> (subst hp; decide)
  have h := prepareFace_registers twoFaceMesh 0 [7, 7, 7] hv
  have hfs : firstSeen (faceEndpoints twoFaceMesh 0) = [2, 0] := by
    simp [firstSeen, faceEndpoints, twoFaceMesh, zeroSegment]
  refine ⟨hv, ?_, ?_⟩
  · rw [h.1, hfs]
    simp [twoFaceMesh]
  · rw [h.2.2.2.2.1, hfs]
    rfl

/-! ## Further theorems about the division of an edge -/

/-- C14.  For every edge and every size field (positive or not), whether or not
the walk exhausts the 1000 samples and whether or not the last two parameters
coincide, the output of the edge-division step is well formed: there is a
`k ≥ 1` such that exactly `k` segments are emitted for the edge, there are
exactly `k - 1` interior points, the final parameter array has `k + 1` entries,
increases strictly, starts with 0 and ends with 1, and `k` is at most the
target count `max (1, round (H[1000]))` (and at most 1000). -/
theorem DivideEdge_output_wellformed (Length : Point3 → ℚ) (GetH : Point3 → ℚ)
    (edge : GeometryEdge) :
    ∃ k, 1 ≤ k ∧ k ≤ targetSegments (edgeHvalue Length GetH edge) ∧ k ≤ 1000 ∧
      (∀ (eps : ℚ) (mesh : Mesh) (seg_init : Segment) (face : GeometryFace)
          (facenr edgenr : Nat) (o : Bool) (startp endp : PointIndex) (segnr : Nat),
        (emitSegments seg_init face facenr edge edgenr o
          ([startp] ++ (addPoints Length eps mesh (DivideEdge Length GetH edge).1).2 ++ [endp])
          (DivideEdge Length GetH edge).2 segnr).length = k) ∧
      (DivideEdge Length GetH edge).1.length = k - 1 ∧
      (DivideEdge Length GetH edge).2.length = k + 1 ∧
      (DivideEdge Length GetH edge).2.Pairwise (fun a b => a < b) ∧
      (DivideEdge Length GetH edge).2.getD 0 0 = 0 ∧
      (DivideEdge Length GetH edge).2.getD k 0 = 1 := by
  obtain ⟨k, hk1, hk2, hk3, h1, h2, h3, h4, h5, -⟩ := DivideEdge_wellformed Length GetH edge
  refine ⟨k, hk1, hk3, hk2, ?_, h1, h2, h3, h4, h5⟩
  intro eps mesh seg_init face facenr edgenr o startp endp segnr
  rw [emitSegments_count, h1]
  omega

theorem edgeHvalue_lineEdge_succ (GetH : Point3 → ℚ) (j : Nat)
    (hj : j + 1 ≤ divide_edge_sections) :
    edgeHvalue axisLength GetH (lineEdge 1) (j + 1) =
      edgeHvalue axisLength GetH (lineEdge 1) j +
        1 / GetH ⟨((j + 1 : ℕ) : ℚ) / 1000, 0, 0⟩ * (1 / 1000) := by
  unfold edgeHvalue
  simp only [hvalue]
  rw [getD_equidistant (lineEdge 1) (j + 1) hj, getD_equidistant (lineEdge 1) j (by omega),
    lineEdge_straight 1 (by norm_num)]
  have h1 : |((j + 1 : ℕ) : ℚ) / 1000 - (j : ℚ) / 1000| = 1 / 1000 := by
    have h1 : ((j + 1 : ℕ) : ℚ) / 1000 - (j : ℚ) / 1000 = 1 / 1000 := by
      push_cast
      ring
    rw [h1]
    norm_num
  have h2 : (lineEdge 1).GetPoint (((j + 1 : ℕ) : ℚ) / 1000) =
      ⟨((j + 1 : ℕ) : ℚ) / 1000, 0, 0⟩ := by
    simp [lineEdge]
  rw [h1, h2, one_mul]

theorem targetSegments_of_bounds (hv : Nat → ℚ) (n : Nat) (hn : 1 ≤ n)
    (h1 : (n : ℚ) ≤ hv divide_edge_sections + 1 / 2)
    (h2 : hv divide_edge_sections + 1 / 2 < (n : ℚ) + 1) : targetSegments hv = n := by
  unfold targetSegments
  have hfl : ⌊hv divide_edge_sections + 1 / 2⌋ = (n : ℤ) := by
    rw [Int.floor_eq_iff]
    constructor <;> (push_cast; linarith)
  rw [hfl]
  have : max (1 : ℤ) (n : ℤ) = (n : ℤ) := max_eq_right (by exact_mod_cast hn)
  rw [this]
  simp

theorem edgeHvalue_spikeStart (j : Nat) (hj : j + 1 ≤ divide_edge_sections) :
    edgeHvalue axisLength spikeStartField (lineEdge 1) (j + 1) = 3 + (j : ℚ) / 1000000 := by
  induction j with
  | zero =>
    rw [edgeHvalue_lineEdge_succ _ 0 hj]
    have h0 : edgeHvalue axisLength spikeStartField (lineEdge 1) 0 = 0 := rfl
    rw [h0]
    norm_num [spikeStartField]
  | succ j ih =>
    rw [edgeHvalue_lineEdge_succ _ (j + 1) hj, ih (by omega)]
    have hne : ¬ (((j + 1 + 1 : ℕ) : ℚ) / 1000 = 1 / 1000) := by
      intro h
      have h3 : ((j + 1 + 1 : ℕ) : ℚ) = 1 := by
        have h5 := congrArg (fun x : ℚ => x * 1000) h
        simpa using h5
      have h4 : j + 1 + 1 = 1 := by exact_mod_cast h3
      omega
    simp only [spikeStartField, hne, if_false]
    push_cast
    ring

theorem targetSegments_spikeStart :
    targetSegments (edgeHvalue axisLength spikeStartField (lineEdge 1)) = 3 := by
  have h1000 := edgeHvalue_spikeStart 999 (by norm_num [divide_edge_sections])
  norm_num at h1000
  apply targetSegments_of_bounds _ 3 (by norm_num)
  · simp only [divide_edge_sections]
    rw [h1000]
    norm_num
  · simp only [divide_edge_sections]
    rw [h1000]
    norm_num

theorem divideWalk_spikeStart :
    divideWalk (lineEdge 1) (edgeHvalue axisLength spikeStartField (lineEdge 1)) =
      { i := 3, i1 := 3, nsubedges := 3
        mps := [⟨1 / 1000, 0, 0⟩, ⟨1 / 500, 0, 0⟩]
        params := [0, 1 / 1000, 1 / 500, 0] } := by
  have h0 : edgeHvalue axisLength spikeStartField (lineEdge 1) 0 = 0 := rfl
  have h1 := edgeHvalue_spikeStart 0 (by norm_num [divide_edge_sections])
  have h2 := edgeHvalue_spikeStart 1 (by norm_num [divide_edge_sections])
  have h1000 := edgeHvalue_spikeStart 999 (by norm_num [divide_edge_sections])
  norm_num at h1 h2 h1000
  unfold divideWalk
  rw [targetSegments_spikeStart]
  refine divideLoop_exit (lineEdge 1) (edgeHvalue axisLength spikeStartField (lineEdge 1))
    (fun s =>
      s = ⟨1, 0, 3, [⟨0, 0, 0⟩, ⟨0, 0, 0⟩], [0, 0, 0, 0]⟩ ∨
      s = ⟨1, 1, 3, [⟨0, 0, 0⟩, ⟨0, 0, 0⟩], [0, 0, 0, 0]⟩ ∨
      s = ⟨2, 2, 3, [⟨1 / 1000, 0, 0⟩, ⟨0, 0, 0⟩], [0, 1 / 1000, 0, 0]⟩)
    (fun s => s = ⟨3, 3, 3, [⟨1 / 1000, 0, 0⟩, ⟨1 / 500, 0, 0⟩], [0, 1 / 1000, 1 / 500, 0]⟩)
    ?_ _ _ (Or.inl rfl) (by simp [divide_edge_sections])
  intro s hs
  rcases hs with hs | hs | hs
  · subst hs
    have hb := divideBody_skip (lineEdge 1)
      (edgeHvalue axisLength spikeStartField (lineEdge 1))
      ⟨1, 0, 3, [⟨0, 0, 0⟩, ⟨0, 0, 0⟩], [0, 0, 0, 0]⟩
      (by simp only [crossing]; rw [h0]; norm_num) (by norm_num [divide_edge_sections])
    rw [hb]
    refine ⟨by norm_num [divide_edge_sections], fun _ => Or.inr (Or.inl rfl), fun h => ?_⟩
    exact absurd (by norm_num) h
  · subst hs
    have hb := divideBody_record (lineEdge 1)
      (edgeHvalue axisLength spikeStartField (lineEdge 1))
      ⟨1, 1, 3, [⟨0, 0, 0⟩, ⟨0, 0, 0⟩], [0, 0, 0, 0]⟩
      (by simp only [crossing, divide_edge_sections]; rw [h1, h1000]; norm_num)
      (by norm_num [divide_edge_sections])
    rw [hb]
    refine ⟨by norm_num [divide_edge_sections], fun _ => Or.inr (Or.inr ?_), fun h => ?_⟩
    · norm_num [divide_edge_sections, lineEdge]
    · exact absurd (by norm_num) h
  · subst hs
    have hb := divideBody_record (lineEdge 1)
      (edgeHvalue axisLength spikeStartField (lineEdge 1))
      ⟨2, 2, 3, [⟨1 / 1000, 0, 0⟩, ⟨0, 0, 0⟩], [0, 1 / 1000, 0, 0]⟩
      (by simp only [crossing, divide_edge_sections]; rw [h2, h1000]; norm_num)
      (by norm_num [divide_edge_sections])
    rw [hb]
    refine ⟨by norm_num [divide_edge_sections], fun h => ?_, fun _ => ?_⟩
    · exact absurd h (by norm_num)
    · norm_num [divide_edge_sections, lineEdge]

/-- C15 fails as stated.  On a straight edge of length 1, in the positive size
field that is 1/3000 at the first sample point after the start and 1000
elsewhere, the target count is `n = 3` and the walk records both quantiles:
the final parameters are `[0, 1/1000, 2/1000, 1]`.  The first sample at which
`H[j] / H[1000] * n ≥ 2` is `j = 1`, but `params[2]` is `2/1000`: the sample 1
was used for the quantile 1, and the walk records at most one quantile per
sample. -/
theorem DivideEdge_quantile_recorded_late :
    (∀ p, 0 < spikeStartField p) ∧
    targetSegments (edgeHvalue axisLength spikeStartField (lineEdge 1)) = 3 ∧
    (DivideEdge axisLength spikeStartField (lineEdge 1)).2 = [0, 1 / 1000, 2 / 1000, 1] ∧
    FirstCrossing (edgeHvalue axisLength spikeStartField (lineEdge 1)) 3 2 1 ∧
    (DivideEdge axisLength spikeStartField (lineEdge 1)).2.getD 2 0 ≠ ((1 : ℕ) : ℚ) / 1000 := by
  have h0 : edgeHvalue axisLength spikeStartField (lineEdge 1) 0 = 0 := rfl
  have h1 := edgeHvalue_spikeStart 0 (by norm_num [divide_edge_sections])
  have h1000 := edgeHvalue_spikeStart 999 (by norm_num [divide_edge_sections])
  norm_num at h1 h1000
  have hp : (DivideEdge axisLength spikeStartField (lineEdge 1)).2 =
      [0, 1 / 1000, 2 / 1000, 1] := by
    unfold DivideEdge
    rw [divideWalk_spikeStart]
    norm_num [fixEnds, SetSize]
  refine ⟨?_, targetSegments_spikeStart, hp, ⟨?_, ?_⟩, ?_⟩
  · intro p
    unfold spikeStartField
    split_ifs <;> norm_num
  · simp only [divide_edge_sections]
    rw [h1, h1000]
    norm_num
  · intro j hj
    have hj0 : j = 0 := by omega
    subst hj0
    rw [h0]
    norm_num
  · rw [hp]
    norm_num

/-! ## Theorems about the quantile walk that hold whatever the comparison of line 213 gives -/

theorem divideBodyWith_record (edge : GeometryEdge) (test : Nat → Nat → Nat → Bool)
    (s : DivideState) (hc : test s.i1 s.i s.nsubedges = true)
    (h1 : s.i1 + 1 ≤ divide_edge_sections) :
    divideBodyWith edge test s =
      { s with
        params := s.params.set s.i ((s.i1 : ℚ) / (divide_edge_sections : ℚ))
        mps := s.mps.set (s.i - 1) (edge.GetPoint
          ((s.params.set s.i ((s.i1 : ℚ) / (divide_edge_sections : ℚ))).getD s.i 0))
        i := s.i + 1
        i1 := s.i1 + 1 } := by
  have h2 : ¬ s.i1 + 1 > divide_edge_sections := by omega
  simp only [divideBodyWith, hc, h2, if_true, if_false]

theorem divideBodyWith_record_last (edge : GeometryEdge) (test : Nat → Nat → Nat → Bool)
    (s : DivideState) (hc : test s.i1 s.i s.nsubedges = true)
    (h1 : s.i1 + 1 > divide_edge_sections) :
    divideBodyWith edge test s =
      { i := s.i + 1
        i1 := s.i1 + 1
        nsubedges := s.i + 1
        mps := SetSize (s.mps.set (s.i - 1) (edge.GetPoint
          ((s.params.set s.i ((s.i1 : ℚ) / (divide_edge_sections : ℚ))).getD s.i 0)))
          (s.i + 1 - 1) ⟨0, 0, 0⟩
        params := SetSize (s.params.set s.i ((s.i1 : ℚ) / (divide_edge_sections : ℚ)))
          (s.i + 1 + 1) 0 } := by
  simp only [divideBodyWith, hc, h1, if_true]

theorem divideBodyWith_skip (edge : GeometryEdge) (test : Nat → Nat → Nat → Bool)
    (s : DivideState) (hc : test s.i1 s.i s.nsubedges = false)
    (h1 : s.i1 + 1 ≤ divide_edge_sections) :
    divideBodyWith edge test s = { s with i1 := s.i1 + 1 } := by
  have h2 : ¬ s.i1 + 1 > divide_edge_sections := by omega
  simp only [divideBodyWith, hc, h2, if_false, Bool.false_eq_true]

theorem divideBodyWith_skip_last (edge : GeometryEdge) (test : Nat → Nat → Nat → Bool)
    (s : DivideState) (hc : test s.i1 s.i s.nsubedges = false)
    (h1 : s.i1 + 1 > divide_edge_sections) :
    divideBodyWith edge test s =
      { i := s.i
        i1 := s.i1 + 1
        nsubedges := s.i
        mps := SetSize s.mps (s.i - 1) ⟨0, 0, 0⟩
        params := SetSize s.params (s.i + 1) 0 } := by
  simp only [divideBodyWith, hc, h1, if_true, if_false, Bool.false_eq_true]

theorem divideBodyWith_i1 (edge : GeometryEdge) (test : Nat → Nat → Nat → Bool)
    (s : DivideState) : (divideBodyWith edge test s).i1 = s.i1 + 1 := by
  cases hc : test s.i1 s.i s.nsubedges <;> by_cases h1 : s.i1 + 1 ≤ divide_edge_sections
  · rw [divideBodyWith_skip edge test s hc h1]
  · rw [divideBodyWith_skip_last edge test s hc (by omega)]
  · rw [divideBodyWith_record edge test s hc h1]
  · rw [divideBodyWith_record_last edge test s hc (by omega)]

/-- Induction over the `do ... while` loop: `P` holds when the body is entered,
`Q` when the loop is left. -/
theorem divideLoopWith_exit (edge : GeometryEdge) (test : Nat → Nat → Nat → Bool)
    (P Q : DivideState → Prop)
    (hstep : ∀ s, P s → s.i1 ≤ divide_edge_sections ∧
      ((divideBodyWith edge test s).i < (divideBodyWith edge test s).nsubedges →
        P (divideBodyWith edge test s)) ∧
      (¬ (divideBodyWith edge test s).i < (divideBodyWith edge test s).nsubedges →
        Q (divideBodyWith edge test s))) :
    ∀ fuel s, P s → divide_edge_sections + 1 - s.i1 ≤ fuel →
      Q (divideLoopWith edge test fuel s) := by
  intro fuel
  induction fuel with
  | zero =>
    intro s hP hf
    have := (hstep s hP).1
    omega
  | succ fuel ih =>
    intro s hP hf
    obtain ⟨h1, h2, h3⟩ := hstep s hP
    simp only [divideLoopWith]
    split_ifs with hc
    · refine ih _ (h2 hc) ?_
      rw [divideBodyWith_i1]
      omega
    · exact h3 hc

/-- One pass of the body keeps `WalkInv`, or leaves the loop in a state that
satisfies `WalkPost`, whatever the comparison gives after the sample 0. -/
theorem WalkInv_stepWith (edge : GeometryEdge) (test : Nat → Nat → Nat → Bool) (n0 : Nat)
    (h0 : ∀ i, 1 ≤ i → test 0 i n0 = false)
    (s : DivideState) (h : WalkInv edge n0 s) :
    s.i1 ≤ divide_edge_sections ∧
    ((divideBodyWith edge test s).i < (divideBodyWith edge test s).nsubedges →
      WalkInv edge n0 (divideBodyWith edge test s)) ∧
    (¬ (divideBodyWith edge test s).i < (divideBodyWith edge test s).nsubedges →
      WalkPost edge n0 (divideBodyWith edge test s)) := by
  obtain ⟨hn, hpl, hml, hi, him, hi1, hin0, hfirst, hrec⟩ := h
  refine ⟨hi1, ?_⟩
  have hile1 : s.i ≤ s.i1 + 1 := max_one_le him
  have hmax : max 1 (s.i1 + 1) = s.i1 + 1 := max_eq_right (by omega)
  cases hc : test s.i1 s.i s.nsubedges
  · by_cases hlast : s.i1 + 1 ≤ divide_edge_sections
    · rw [divideBodyWith_skip edge test s hc hlast]
      have hrec' : Recorded edge { s with i1 := s.i1 + 1 } :=
        Recorded_of_eq edge s _ rfl (by simp) (fun k _ => rfl) (fun k _ _ => rfl) hrec
      constructor
      · intro hcont
        simp only at hcont
        exact ⟨hn, hpl, hml, hi, by simp only; omega, hlast, hin0,
          fun _ => by simp only; omega, hrec'⟩
      · intro hexit
        simp only at hexit
        exact ⟨by simp only; omega, by simp only; omega, by simp only; omega,
          by simp only; omega, by simp only; omega, by simp only; omega, hile1,
          hrec', fun _ => hn⟩
    · rw [divideBodyWith_skip_last edge test s hc (by omega)]
      constructor
      · intro hcont
        simp only at hcont
        omega
      · intro _
        rw [SetSize_of_le _ _ _ (by omega : s.i + 1 ≤ s.params.length),
          SetSize_of_le _ _ _ (by omega : s.i - 1 ≤ s.mps.length)]
        refine ⟨hi, hin0, rfl, ?_, ?_, by simp only; omega, hile1,
          Recorded_take edge s s.i (s.i1 + 1) (by omega) hrec,
          fun hle => by simp only at hle; omega⟩
        · simp only [List.length_take]
          omega
        · simp only [List.length_take]
          omega
  · -- the quantile `s.i` is recorded at the sample `s.i1`
    have hi1pos : s.i1 ≠ 0 := by
      intro hz
      rw [hz, hn, h0 s.i hi] at hc
      exact Bool.noConfusion hc
    have hlt : s.i < n0 := hfirst hi1pos
    have hile : s.i ≤ s.i1 := by
      have : max 1 s.i1 = s.i1 := max_eq_right (by omega)
      omega
    have hrec' := Recorded_record edge s hi hile (by omega) (by omega) hrec
    by_cases hlast : s.i1 + 1 ≤ divide_edge_sections
    · rw [divideBodyWith_record edge test s hc hlast]
      constructor
      · intro hcont
        simp only at hcont
        exact ⟨hn, by simp only [List.length_set]; omega, by simp only [List.length_set]; omega,
          by simp, by simp only; omega, hlast, by simp only; omega,
          fun _ => by simp only; omega, hrec'⟩
      · intro hexit
        simp only at hexit
        exact ⟨by simp only; omega, by simp only; omega, by simp only; omega,
          by simp only [List.length_set]; omega, by simp only [List.length_set]; omega,
          by simp only; omega, by simp only; omega, hrec', fun _ => hn⟩
    · rw [divideBodyWith_record_last edge test s hc (by omega)]
      constructor
      · intro hcont
        simp only at hcont
        omega
      · intro _
        have hp2 : SetSize (s.params.set s.i ((s.i1 : ℚ) / (divide_edge_sections : ℚ)))
            (s.i + 1 + 1) 0 =
            (s.params.set s.i ((s.i1 : ℚ) / (divide_edge_sections : ℚ))).take (s.i + 1 + 1) :=
          SetSize_of_le _ _ _ (by simp only [List.length_set]; omega)
        have hm2 : SetSize (s.mps.set (s.i - 1) (edge.GetPoint
            ((s.params.set s.i ((s.i1 : ℚ) / (divide_edge_sections : ℚ))).getD s.i 0)))
            (s.i + 1 - 1) ⟨0, 0, 0⟩ =
            (s.mps.set (s.i - 1) (edge.GetPoint
            ((s.params.set s.i ((s.i1 : ℚ) / (divide_edge_sections : ℚ))).getD s.i 0))).take
              (s.i + 1 - 1) :=
          SetSize_of_le _ _ _ (by simp only [List.length_set]; omega)
        refine ⟨by simp only; omega, by simp only; omega, rfl, by simp [SetSize_length],
          by simp [SetSize_length], by simp only; omega, by simp only; omega, ?_,
          fun hle => by simp only at hle; omega⟩
        rw [hp2, hm2]
        exact Recorded_take edge _ (s.i + 1) (s.i1 + 1) (le_refl _) hrec'

theorem sample_lt {a b : Nat} (h : (a : ℚ) / 1000 < (b : ℚ) / 1000) : a < b := by
  have h2 := mul_lt_mul_of_pos_right h (by norm_num : (0 : ℚ) < 1000)
  rw [div_mul_cancel₀ _ (by norm_num : (1000 : ℚ) ≠ 0),
    div_mul_cancel₀ _ (by norm_num : (1000 : ℚ) ≠ 0)] at h2
  exact_mod_cast h2

theorem sample_inj {a b : Nat} (h : (a : ℚ) / 1000 = (b : ℚ) / 1000) : a = b := by
  rw [div_left_inj' (by norm_num)] at h
  exact_mod_cast h

/-- The entries below `s.i` decide whether `TestedInv` holds. -/
theorem TestedInv_of_eq (test : Nat → Nat → Nat → Bool) (n0 : Nat) (s s' : DivideState)
    (hi : s'.i = s.i) (hi1 : s'.i1 = s.i1) (hpos : 1 ≤ s.i)
    (hp : ∀ k, k < s.i → s'.params.getD k 0 = s.params.getD k 0)
    (h : TestedInv test n0 s) : TestedInv test n0 s' := by
  obtain ⟨h1, h2⟩ := h
  constructor
  · intro k hk1 hk2
    rw [hi] at hk2
    obtain ⟨j, hj1, hj2, hj3, hj4⟩ := h1 k hk1 hk2
    refine ⟨j, by omega, by rw [hp k hk2, hj2], hj3, ?_⟩
    intro j' hj' hor
    refine hj4 j' hj' ?_
    rcases hor with hor | hor
    · exact Or.inl hor
    · rw [hp (k - 1) (by omega)] at hor
      exact Or.inr hor
  · intro j' hj' hor
    rw [hi1] at hj'
    rw [hi] at hor ⊢
    refine h2 j' hj' ?_
    rcases hor with hor | hor
    · exact Or.inl hor
    · rw [hp (s.i - 1) (by omega)] at hor
      exact Or.inr hor

/-- Recording the quantile `s.i` at the sample `s.i1` keeps `TestedInv`. -/
theorem TestedInv_record (test : Nat → Nat → Nat → Bool) (n0 : Nat) (s : DivideState)
    (mps : List MeshPoint) (hi : 1 ≤ s.i) (hplen : s.i < s.params.length)
    (hc : test s.i1 s.i n0 = true) (h : TestedInv test n0 s) :
    TestedInv test n0
      { s with
        params := s.params.set s.i ((s.i1 : ℚ) / (divide_edge_sections : ℚ))
        mps := mps
        i := s.i + 1
        i1 := s.i1 + 1 } := by
  obtain ⟨h1, h2⟩ := h
  have hself : (s.params.set s.i ((s.i1 : ℚ) / (divide_edge_sections : ℚ))).getD s.i 0 =
      (s.i1 : ℚ) / 1000 := by
    rw [getD_set_self _ _ _ _ hplen]
    norm_num [divide_edge_sections]
  constructor
  · intro k hk1 hk2
    simp only at hk2 ⊢
    by_cases hk : k = s.i
    · subst hk
      refine ⟨s.i1, by omega, hself, hc, ?_⟩
      intro j' hj' hor
      refine h2 j' hj' ?_
      rcases hor with hor | hor
      · exact Or.inl hor
      · rw [getD_set_of_ne _ _ _ _ _ (by omega)] at hor
        exact Or.inr hor
    · obtain ⟨j, hj1, hj2, hj3, hj4⟩ := h1 k hk1 (by omega)
      refine ⟨j, by omega, by rw [getD_set_of_ne _ _ _ _ _ (by omega), hj2], hj3, ?_⟩
      intro j' hj' hor
      refine hj4 j' hj' ?_
      rcases hor with hor | hor
      · exact Or.inl hor
      · rw [getD_set_of_ne _ _ _ _ _ (by omega)] at hor
        exact Or.inr hor
  · intro j' hj' hor
    simp only at hj' hor ⊢
    rcases hor with hor | hor
    · omega
    · rw [Nat.add_sub_cancel, hself] at hor
      have := sample_lt hor
      omega

/-- A failed comparison at the sample `s.i1` keeps `TestedInv`. -/
theorem TestedInv_skip (test : Nat → Nat → Nat → Bool) (n0 : Nat) (s : DivideState)
    (hc : test s.i1 s.i n0 = false) (h : TestedInv test n0 s) :
    TestedInv test n0 { s with i1 := s.i1 + 1 } := by
  obtain ⟨h1, h2⟩ := h
  constructor
  · intro k hk1 hk2
    obtain ⟨j, hj1, hj2, hj3⟩ := h1 k hk1 hk2
    exact ⟨j, by simp only; omega, hj2, hj3⟩
  · intro j' hj' hor
    simp only at hj' hor ⊢
    by_cases hj : j' = s.i1
    · rw [hj]
      exact hc
    · exact h2 j' (by omega) hor

/-- One pass of the body keeps `TestedInv`. -/
theorem TestedInv_step (edge : GeometryEdge) (test : Nat → Nat → Nat → Bool) (n0 : Nat)
    (s : DivideState) (hw : WalkInv edge n0 s) (h : TestedInv test n0 s)
    (hpos : s.i1 = 0 → test 0 s.i n0 = false) :
    TestedInv test n0 (divideBodyWith edge test s) := by
  obtain ⟨hn, hpl, hml, hi, him, hi1, hin0, hfirst, hrec⟩ := hw
  cases hc : test s.i1 s.i s.nsubedges
  · have hc' : test s.i1 s.i n0 = false := by rw [← hn]; exact hc
    have hs := TestedInv_skip test n0 s hc' h
    by_cases hlast : s.i1 + 1 ≤ divide_edge_sections
    · rw [divideBodyWith_skip edge test s hc hlast]
      exact hs
    · rw [divideBodyWith_skip_last edge test s hc (by omega),
        SetSize_of_le _ _ _ (by omega : s.i + 1 ≤ s.params.length)]
      refine TestedInv_of_eq test n0 _ _ ?_ ?_ ?_ ?_ hs
      · rfl
      · rfl
      · exact hi
      · intro k hk
        simp only at hk
        exact getD_take_of_lt _ _ _ _ (by omega)
  · have hc' : test s.i1 s.i n0 = true := by rw [← hn]; exact hc
    have hi1pos : s.i1 ≠ 0 := by
      intro hz
      rw [hz, hpos hz] at hc'
      exact Bool.noConfusion hc'
    have hlt : s.i < n0 := hfirst hi1pos
    have hr := TestedInv_record test n0 s (s.mps.set (s.i - 1) (edge.GetPoint
      ((s.params.set s.i ((s.i1 : ℚ) / (divide_edge_sections : ℚ))).getD s.i 0))) hi
      (by omega) hc' h
    by_cases hlast : s.i1 + 1 ≤ divide_edge_sections
    · rw [divideBodyWith_record edge test s hc hlast]
      exact hr
    · have hp2 : SetSize (s.params.set s.i ((s.i1 : ℚ) / (divide_edge_sections : ℚ)))
          (s.i + 1 + 1) 0 =
          (s.params.set s.i ((s.i1 : ℚ) / (divide_edge_sections : ℚ))).take (s.i + 1 + 1) :=
        SetSize_of_le _ _ _ (by simp only [List.length_set]; omega)
      rw [divideBodyWith_record_last edge test s hc (by omega), hp2]
      refine TestedInv_of_eq test n0 _ _ ?_ ?_ ?_ ?_ hr
      · rfl
      · rfl
      · simp
      · intro k hk
        simp only at hk
        exact getD_take_of_lt _ _ _ _ (by omega)

/-- The walk is left in a state that satisfies `WalkPost`, with every recorded
quantile recorded at its first success, whatever the comparison gives after
the sample 0. -/
theorem divideWalkWith_post (edge : GeometryEdge) (test : Nat → Nat → Nat → Bool) (n : Nat)
    (hn : 1 ≤ n) (h0 : ∀ i, 1 ≤ i → test 0 i n = false) :
    WalkPost edge n (divideWalkWith edge test n) ∧
      TestedPost test n (divideWalkWith edge test n) := by
  unfold divideWalkWith
  refine divideLoopWith_exit edge test
    (fun s => WalkInv edge n s ∧ TestedInv test n s)
    (fun s => WalkPost edge n s ∧ TestedPost test n s) ?_ _ _ ?_ (by simp)
  · intro s ⟨hw, ht⟩
    obtain ⟨h1, h2, h3⟩ := WalkInv_stepWith edge test n h0 s hw
    have ht' := TestedInv_step edge test n s hw ht (fun _ => h0 s.i hw.2.2.2.1)
    exact ⟨h1, fun hc => ⟨h2 hc, ht'⟩, fun hc => ⟨h3 hc, ht'.1⟩⟩
  · refine ⟨⟨rfl, by simp [SetSize_length], by simp [SetSize_length], le_refl _, by simp,
      by simp, hn, fun h => absurd rfl h, ?_, ?_⟩, ?_, ?_⟩
    · intro k hk1 hk2
      simp only at hk2
      omega
    · intro k k' hk1 hk2 hk3
      simp only at hk3
      omega
    · intro k hk1 hk2
      simp only at hk2
      omega
    · intro j' hj'
      simp only at hj'
      omega

/-- When increasing samples below 1000 exist at which the comparisons for the
quantiles `1 .. n - 1` succeed, the walk reaches the target before the samples
are exhausted. -/
theorem divideWalkWith_reachable (edge : GeometryEdge) (test : Nat → Nat → Nat → Bool)
    (n : Nat) (hn : 1 ≤ n) (h0 : ∀ i, 1 ≤ i → test 0 i n = false)
    (J : Nat → Nat) (hJ : Reachable test n J) :
    WalkPost edge n (divideWalkWith edge test n) ∧
      (divideWalkWith edge test n).i1 ≤ divide_edge_sections := by
  obtain ⟨hJ1, hJ2⟩ := hJ
  unfold divideWalkWith
  refine divideLoopWith_exit edge test
    (fun s => WalkInv edge n s ∧ (s.i < n → s.i1 ≤ J s.i))
    (fun s => WalkPost edge n s ∧ s.i1 ≤ divide_edge_sections) ?_ _ _ ?_ (by simp)
  · intro s ⟨hw, hr⟩
    obtain ⟨h1, h2, h3⟩ := WalkInv_stepWith edge test n h0 s hw
    obtain ⟨hsn, hpl, hml, hi, him, hi1, hin0, hfirst, hrec⟩ := hw
    have hlast : s.i1 + 1 ≤ divide_edge_sections := by
      rcases Nat.eq_zero_or_pos s.i1 with hz | hp
      · rw [hz]
        simp [divide_edge_sections]
      · have hlt := hfirst (by omega)
        have := (hJ1 s.i hi hlt).1
        have := hr hlt
        omega
    have hmain : (divideBodyWith edge test s).i1 ≤ divide_edge_sections ∧
        ((divideBodyWith edge test s).i < n →
          (divideBodyWith edge test s).i1 ≤ J (divideBodyWith edge test s).i) := by
      cases hc : test s.i1 s.i s.nsubedges
      · rw [divideBodyWith_skip edge test s hc hlast]
        refine ⟨hlast, ?_⟩
        intro hlt
        simp only at hlt ⊢
        have h5 := hr hlt
        have h6 := (hJ1 s.i hi hlt).2
        have hne : s.i1 ≠ J s.i := by
          intro he
          rw [← he, ← hsn, hc] at h6
          exact Bool.noConfusion h6
        omega
      · rw [divideBodyWith_record edge test s hc hlast]
        refine ⟨hlast, ?_⟩
        intro hlt
        simp only at hlt ⊢
        have h5 := hr (by omega)
        have h6 := hJ2 s.i hi hlt
        omega
    exact ⟨h1, fun hc => ⟨h2 hc, hmain.2⟩, fun hc => ⟨h3 hc, hmain.1⟩⟩
  · refine ⟨⟨rfl, by simp [SetSize_length], by simp [SetSize_length], le_refl _, by simp,
      by simp, hn, fun h => absurd rfl h, ?_, ?_⟩, ?_⟩
    · intro k hk1 hk2
      simp only at hk2
      omega
    · intro k k' hk1 hk2 hk3
      simp only at hk3
      omega
    · intro _
      exact Nat.zero_le _

theorem getD_lt_of_pairwise (l : List ℚ) (h : l.Pairwise (fun a b => a < b)) (a b : Nat)
    (hab : a < b) (hb : b < l.length) : l.getD a 0 < l.getD b 0 := by
  rw [List.pairwise_iff_getElem] at h
  have := h a b (by omega) hb hab
  rwa [List.getD_eq_getElem _ _ (by omega : a < l.length), List.getD_eq_getElem _ _ hb]

/-- An interior parameter of the final array is the one the walk recorded. -/
theorem fixEnds_inner_param (edge : GeometryEdge) (n0 : Nat) (s : DivideState)
    (hpost : WalkPost edge n0 s) (i : Nat) (h1 : 1 ≤ i)
    (h2 : i + 1 < (fixEnds s).2.length) :
    i < s.nsubedges ∧ (fixEnds s).2.getD i 0 = s.params.getD i 0 := by
  obtain ⟨hn1, hn0, hi, hpl, hml, hi1, hile, -, -⟩ := hpost
  have hlen := fixedEnds_length s
  rw [fixEnds_eq] at h2 ⊢
  split_ifs at h2 ⊢ with hcorr
  · simp only [List.length_set, SetSize_length] at h2
    refine ⟨by omega, ?_⟩
    show ((SetSize (fixedEnds s) s.nsubedges 0).set s.nsubedges 1).getD i 0 = s.params.getD i 0
    rw [getD_set_of_ne _ _ _ _ _ (by omega), SetSize_of_le _ _ _ (by omega),
      getD_take_of_lt _ _ _ _ (by omega), fixedEnds_inner s i h1 (by omega)]
  · simp only [fixedEnds_length] at h2
    refine ⟨by omega, ?_⟩
    show (fixedEnds s).getD i 0 = s.params.getD i 0
    exact fixedEnds_inner s i h1 (by omega)

/-- After a walk that was left properly, every interior parameter of the final
array is the sample at which the comparison for its quantile first succeeded
after the sample of the quantile before. -/
theorem fixEnds_first_success (edge : GeometryEdge) (test : Nat → Nat → Nat → Bool) (n0 : Nat)
    (s : DivideState) (hpost : WalkPost edge n0 s) (ht : TestedPost test n0 s) :
    ∀ i, 1 ≤ i → i + 1 < (fixEnds s).2.length →
      ∃ j : Nat, i ≤ j ∧ j < divide_edge_sections ∧
        (fixEnds s).2.getD i 0 = (j : ℚ) / 1000 ∧ FirstSuccess test n0 (fixEnds s).2 i j := by
  intro i h1 h2
  obtain ⟨k, -, -, -, hwd⟩ := fixEnds_wellformed edge n0 s hpost
  obtain ⟨-, hlen, hpw, -, hlast, -⟩ := hwd
  obtain ⟨hin, hpi⟩ := fixEnds_inner_param edge n0 s hpost i h1 h2
  have hsi : s.i = s.nsubedges := hpost.2.2.1
  obtain ⟨j, -, hj2, hj3, hj4⟩ := ht i h1 (by omega)
  obtain ⟨j', hj1', -, hj3', -⟩ := hpost.2.2.2.2.2.2.2.1.1 i h1 (by omega)
  have hjj : j = j' := by
    apply sample_inj
    rw [← hj2, hj3']
    norm_num [divide_edge_sections]
  have hlt : (fixEnds s).2.getD i 0 < (fixEnds s).2.getD k 0 :=
    getD_lt_of_pairwise _ hpw i k (by omega) (by omega)
  rw [hlast, hpi, hj2] at hlt
  refine ⟨j, by omega, sample_lt_one hlt, by rw [hpi, hj2], hj3, ?_⟩
  intro j'' hj'' hor
  refine hj4 j'' hj'' ?_
  rcases hor with hor | hor
  · exact Or.inl hor
  · rcases Nat.lt_or_ge i 2 with hi2 | hi2
    · exact Or.inl (by omega)
    · rw [(fixEnds_inner_param edge n0 s hpost (i - 1) (by omega) (by omega)).2] at hor
      exact Or.inr hor

/-- After a walk that was left before the samples were exhausted, the final
array has one entry more than the target number. -/
theorem fixEnds_full (edge : GeometryEdge) (n0 : Nat) (s : DivideState)
    (hpost : WalkPost edge n0 s) (hlate : s.i1 ≤ divide_edge_sections) :
    (fixEnds s).2.length = n0 + 1 := by
  obtain ⟨hp1, -⟩ := WalkPost_params edge n0 s hpost
  obtain ⟨hn1, -, hi, hpl, -, -, -, -, hexit⟩ := hpost
  have hn := hexit hlate
  have hlast := fixedEnds_last s hpl
  have hfirst := fixedEnds_first s hpl hn1
  have hnc : ¬ (fixedEnds s).getD s.nsubedges 0 ≤ (fixedEnds s).getD (s.nsubedges - 1) 0 := by
    rw [hlast, not_le]
    rcases Nat.lt_or_ge s.nsubedges 2 with h2 | h2
    · have h1 : s.nsubedges = 1 := by omega
      simp only [h1, Nat.sub_self]
      rw [hfirst]
      norm_num
    · obtain ⟨j, -, hj2, hj3, -⟩ := hp1 (s.nsubedges - 1) (by omega) (by omega)
      rw [hj3, div_lt_one (by norm_num)]
      have : j < 1000 := by
        simp only [divide_edge_sections] at hlate
        omega
      exact_mod_cast this
  rw [fixEnds_eq, if_neg hnc]
  show (fixedEnds s).length = n0 + 1
  rw [fixedEnds_length, hpl, hn]

theorem divideBody_eq_With (edge : GeometryEdge) (hv : Nat → ℚ) (s : DivideState) :
    divideBody edge hv s = divideBodyWith edge (exactTest hv) s := by
  simp only [divideBody, divideBodyWith, exactTest, decide_eq_true_eq]

theorem divideLoop_eq_With (edge : GeometryEdge) (hv : Nat → ℚ) (fuel : Nat) (s : DivideState) :
    divideLoop edge hv fuel s = divideLoopWith edge (exactTest hv) fuel s := by
  induction fuel generalizing s with
  | zero => rfl
  | succ fuel ih =>
    simp only [divideLoop, divideLoopWith, divideBody_eq_With, ih]

/-- The block "DivideEdge" in exact arithmetic is the instance of `DivideEdgeWith`
for the target number of line 204 and the comparison of line 213 computed
without rounding. -/
theorem DivideEdge_eq_With (Length : Point3 → ℚ) (GetH : Point3 → ℚ) (edge : GeometryEdge) :
    DivideEdge Length GetH edge =
      DivideEdgeWith edge (exactTest (edgeHvalue Length GetH edge))
        (targetSegments (edgeHvalue Length GetH edge)) := by
  unfold DivideEdge DivideEdgeWith divideWalk divideWalkWith
  rw [divideLoop_eq_With]

theorem exactTest_zero (hv : Nat → ℚ) (h0 : hv 0 = 0) (i n : Nat) (hi : 1 ≤ i) :
    exactTest hv 0 i n = false := by
  unfold exactTest
  rw [h0]
  simp only [zero_div, zero_mul, ge_iff_le, decide_eq_false_iff_not, not_le]
  exact_mod_cast hi

theorem targetSegments_ge_one (hv : Nat → ℚ) : 1 ≤ targetSegments hv := by
  unfold targetSegments
  have : (1 : ℤ) ≤ max 1 ⌊hv divide_edge_sections + 1 / 2⌋ := le_max_left _ _
  omega

/-! ## The number of segments of the division of an edge -/

/-- The comparison of line 213 in exact arithmetic on a straight edge of length
3 in the constant size field 1, for the target number 3. -/
theorem exactTest_line3 (j i : Nat) (hj : j ≤ divide_edge_sections) :
    exactTest (edgeHvalue axisLength (fun _ => 1) (lineEdge 3)) j i 3 =
      decide (1000 * i ≤ 3 * j) := by
  have hv := edgeHvalue_uniform axisLength (lineEdge 3) 3 1 (lineEdge_straight 3 (by norm_num))
  unfold exactTest
  rw [hv j hj, hv _ (le_refl _)]
  have h1 : (j : ℚ) * (1 / 1 * (3 / 1000)) /
      (((divide_edge_sections : ℕ) : ℚ) * (1 / 1 * (3 / 1000))) * ((3 : ℕ) : ℚ) =
      3 * (j : ℚ) / 1000 := by
    norm_num [divide_edge_sections]
    ring
  rw [h1]
  have hiff : (3 * (j : ℚ) / 1000 ≥ (i : ℚ)) ↔ 1000 * i ≤ 3 * j := by
    rw [ge_iff_le, le_div_iff₀ (by norm_num : (0 : ℚ) < 1000)]
    constructor
    · intro h
      have h2 : ((1000 * i : ℕ) : ℚ) ≤ ((3 * j : ℕ) : ℚ) := by
        push_cast
        linarith
      exact_mod_cast h2
    · intro h
      have h2 : ((1000 * i : ℕ) : ℚ) ≤ ((3 * j : ℕ) : ℚ) := by exact_mod_cast h
      push_cast at h2
      linarith
  exact decide_eq_decide.2 hiff

theorem targetSegments_line3 :
    targetSegments (edgeHvalue axisLength (fun _ => 1) (lineEdge 3)) = 3 := by
  apply targetSegments_of_eq _ 3 (by norm_num)
  rw [edgeHvalue_uniform axisLength (lineEdge 3) 3 1 (lineEdge_straight 3 (by norm_num)) _
    (le_refl _)]
  norm_num [divide_edge_sections]

/-- On a straight edge of length 3 in the constant size field 1, with the
comparison computed without rounding, the comparisons for the quantiles 1 and 2
succeed at the samples 334 and 668. -/
theorem reachable_line3 :
    Reachable (exactTest (edgeHvalue axisLength (fun _ => 1) (lineEdge 3))) 3
      (fun i => 334 * i) := by
  constructor
  · intro i hi1 hi2
    simp only
    refine ⟨by simp only [divide_edge_sections]; omega, ?_⟩
    rw [exactTest_line3 _ _ (by simp only [divide_edge_sections]; omega)]
    exact decide_eq_true (by omega)
  · intro i hi1 hi2
    simp only
    omega

/-- C4, amended.  Let `n ≥ 1` be the target number of segments of line 204 and
let `test i1 i n` be the value the machine computes for the comparison
`hvalue[i1]/hvalue[1000]*n >= i` of line 213; it is false at the sample 0,
where `hvalue[0] = 0`.  Whatever the edge and whatever the comparisons give at
the other samples, the division of the edge has `k` segments for a `k` with
`1 ≤ k ≤ n` and `k ≤ 1000`: exactly `k` segments are emitted, there are exactly
`k - 1` interior points, and the `k + 1` parameters increase strictly from
`params[0] = 0` to `params[k] = 1`.  The target is reached, `k = n`, exactly
when there are samples `J 1 < J 2 < ... < J (n-1)` below 1000 such that the
comparison for the quantile `i` succeeds at the sample `J i`.  So `k < n`
whenever `n > 1000`. -/
theorem DivideEdgeWith_segment_count (edge : GeometryEdge) (test : Nat → Nat → Nat → Bool)
    (n : Nat) (hn : 1 ≤ n) (h0 : ∀ i, 1 ≤ i → test 0 i n = false) :
    ∃ k, 1 ≤ k ∧ k ≤ n ∧ k ≤ 1000 ∧
      (∀ (Length : Point3 → ℚ) (eps : ℚ) (mesh : Mesh) (seg_init : Segment)
          (face : GeometryFace) (facenr edgenr : Nat) (o : Bool) (startp endp : PointIndex)
          (segnr : Nat),
        (emitSegments seg_init face facenr edge edgenr o
          ([startp] ++ (addPoints Length eps mesh (DivideEdgeWith edge test n).1).2 ++ [endp])
          (DivideEdgeWith edge test n).2 segnr).length = k) ∧
      (DivideEdgeWith edge test n).1.length = k - 1 ∧
      (DivideEdgeWith edge test n).2.length = k + 1 ∧
      (DivideEdgeWith edge test n).2.Pairwise (fun a b => a < b) ∧
      (DivideEdgeWith edge test n).2.getD 0 0 = 0 ∧
      (DivideEdgeWith edge test n).2.getD k 0 = 1 ∧
      (k = n ↔ ∃ J : Nat → Nat,
        (∀ i, 1 ≤ i → i < n → J i < divide_edge_sections ∧ test (J i) i n = true) ∧
        ∀ i, 1 ≤ i → i + 1 < n → J i < J (i + 1)) := by
  obtain ⟨hpost, htest⟩ := divideWalkWith_post edge test n hn h0
  obtain ⟨k, hk1, hk2, hk3, h1, h2, h3, h4, h5, -⟩ := fixEnds_wellformed edge n _ hpost
  have hfs := fixEnds_first_success edge test n _ hpost htest
  refine ⟨k, hk1, hk3, hk2, ?_, h1, h2, h3, h4, h5, ?_, ?_⟩
  · intro Length eps mesh seg_init face facenr edgenr o startp endp segnr
    rw [emitSegments_count]
    unfold DivideEdgeWith
    rw [h1]
    omega
  · intro hkn
    have hex : ∀ i, ∃ j : Nat, 1 ≤ i → i < n →
        j < divide_edge_sections ∧ test j i n = true ∧
          (fixEnds (divideWalkWith edge test n)).2.getD i 0 = (j : ℚ) / 1000 := by
      intro i
      by_cases hi : 1 ≤ i ∧ i < n
      · obtain ⟨j, -, hj2, hj3, hj4, -⟩ := hfs i hi.1 (by rw [h2]; omega)
        exact ⟨j, fun _ _ => ⟨hj2, hj4, hj3⟩⟩
      · exact ⟨0, fun h1 h2 => absurd ⟨h1, h2⟩ hi⟩
    choose J hJ using hex
    refine ⟨J, fun i hi1 hi2 => ⟨(hJ i hi1 hi2).1, (hJ i hi1 hi2).2.1⟩, ?_⟩
    intro i hi1 hi2
    have hlt := getD_lt_of_pairwise _ h3 i (i + 1) (by omega) (by rw [h2]; omega)
    rw [(hJ i hi1 (by omega)).2.2, (hJ (i + 1) (by omega) hi2).2.2] at hlt
    exact sample_lt hlt
  · rintro ⟨J, hJ⟩
    obtain ⟨hpost', hlate⟩ := divideWalkWith_reachable edge test n hn h0 J hJ
    have := fixEnds_full edge n _ hpost' hlate
    omega

/-- Witness of the amended C4: a straight edge of length 3 in the constant size
field 1, with the comparison of line 213 computed without rounding.  The
target number is 3, the comparisons for the quantiles 1 and 2 succeed at the
samples 334 and 668, and the division has 3 segments. -/
theorem DivideEdgeWith_segment_count_witness :
    targetSegments (edgeHvalue axisLength (fun _ => 1) (lineEdge 3)) = 3 ∧
    (∀ i, 1 ≤ i →
      exactTest (edgeHvalue axisLength (fun _ => 1) (lineEdge 3)) 0 i 3 = false) ∧
    (DivideEdgeWith (lineEdge 3)
      (exactTest (edgeHvalue axisLength (fun _ => 1) (lineEdge 3))) 3).1.length = 2 ∧
    (DivideEdgeWith (lineEdge 3)
      (exactTest (edgeHvalue axisLength (fun _ => 1) (lineEdge 3))) 3).2.length = 4 := by
  have h0 : ∀ i, 1 ≤ i →
      exactTest (edgeHvalue axisLength (fun _ => 1) (lineEdge 3)) 0 i 3 = false :=
    fun i hi => exactTest_zero _ rfl i 3 hi
  obtain ⟨k, -, -, -, -, hm, hp, -, -, -, hiff⟩ :=
    DivideEdgeWith_segment_count (lineEdge 3)
      (exactTest (edgeHvalue axisLength (fun _ => 1) (lineEdge 3))) 3 (by norm_num) h0
  have hk : k = 3 := by
    exact hiff.2 ⟨fun i => 334 * i, reachable_line3⟩
  subst hk
  exact ⟨targetSegments_line3, h0, hm, hp⟩

/-- C15, amended.  Let `n ≥ 1` be the target number of segments of line 204 and
let `test i1 i n` be the value the machine computes for the comparison
`hvalue[i1]/hvalue[1000]*n >= i` of line 213; it is false at the sample 0,
where `hvalue[0] = 0`.  Whatever the edge and whatever the comparisons give at
the other samples, for every interior index `i` of the final parameter array
the entry `params[i]` is `j / 1000` for a sample `j` with `i ≤ j < 1000` and
`params[i-1] < j / 1000` at which the comparison for the quantile `i`
succeeds, and `j` is the first such sample: the comparison for the quantile
`i` fails at every earlier sample whose parameter exceeds `params[i-1]`.  For
`i = 1` these are all the earlier samples, since `params[0] = 0` and the
comparison fails at the sample 0. -/
theorem DivideEdgeWith_first_success (edge : GeometryEdge) (test : Nat → Nat → Nat → Bool)
    (n : Nat) (hn : 1 ≤ n) (h0 : ∀ i, 1 ≤ i → test 0 i n = false) :
    ∀ i, 1 ≤ i → i + 1 < (DivideEdgeWith edge test n).2.length →
      ∃ j : Nat, i ≤ j ∧ j < divide_edge_sections ∧
        (DivideEdgeWith edge test n).2.getD i 0 = (j : ℚ) / 1000 ∧
        (DivideEdgeWith edge test n).2.getD (i - 1) 0 < (j : ℚ) / 1000 ∧
        test j i n = true ∧
        ∀ j', j' < j → (DivideEdgeWith edge test n).2.getD (i - 1) 0 < (j' : ℚ) / 1000 →
          test j' i n = false := by
  obtain ⟨hpost, htest⟩ := divideWalkWith_post edge test n hn h0
  obtain ⟨k, -, -, -, -, -, hpw, -⟩ := fixEnds_wellformed edge n _ hpost
  intro i hi1 hi2
  obtain ⟨j, hj1, hj2, hj3, hj4, hj5⟩ :=
    fixEnds_first_success edge test n _ hpost htest i hi1 hi2
  have hlt := getD_lt_of_pairwise _ hpw (i - 1) i (by omega) (by unfold DivideEdgeWith at hi2; omega)
  rw [hj3] at hlt
  exact ⟨j, hj1, hj2, hj3, hlt, hj4, fun j' hj' hlt' => hj5 j' hj' (Or.inr hlt')⟩

/-- Witness of the amended C15: a straight edge of length 3 in the constant size
field 1, with the comparison of line 213 computed without rounding and the
target number 3.  The comparison for the quantile 1 first succeeds at the
sample 334, and `params[1]` is `334 / 1000`. -/
theorem DivideEdgeWith_first_success_witness :
    (∀ i, 1 ≤ i →
      exactTest (edgeHvalue axisLength (fun _ => 1) (lineEdge 3)) 0 i 3 = false) ∧
    (DivideEdgeWith (lineEdge 3)
      (exactTest (edgeHvalue axisLength (fun _ => 1) (lineEdge 3))) 3).2.getD 1 0 =
      ((334 : ℕ) : ℚ) / 1000 := by
  have h0 : ∀ i, 1 ≤ i →
      exactTest (edgeHvalue axisLength (fun _ => 1) (lineEdge 3)) 0 i 3 = false :=
    fun i hi => exactTest_zero _ rfl i 3 hi
  obtain ⟨hpost, hlate⟩ := divideWalkWith_reachable (lineEdge 3) _ 3 (by norm_num) h0 _
    reachable_line3
  have hlen : (DivideEdgeWith (lineEdge 3)
      (exactTest (edgeHvalue axisLength (fun _ => 1) (lineEdge 3))) 3).2.length = 4 :=
    fixEnds_full (lineEdge 3) 3 _ hpost hlate
  obtain ⟨k, -, -, -, -, -, -, hfirst, -⟩ := fixEnds_wellformed (lineEdge 3) 3 _ hpost
  have hfirst' : (DivideEdgeWith (lineEdge 3)
      (exactTest (edgeHvalue axisLength (fun _ => 1) (lineEdge 3))) 3).2.getD 0 0 = 0 := hfirst
  obtain ⟨j, -, hj2, hj3, -, hj4, hj5⟩ :=
    DivideEdgeWith_first_success (lineEdge 3)
      (exactTest (edgeHvalue axisLength (fun _ => 1) (lineEdge 3))) 3 (by norm_num) h0 1
      (le_refl _) (by rw [hlen]; norm_num)
  rw [exactTest_line3 _ _ (le_of_lt hj2), decide_eq_true_eq] at hj4
  have hj : j = 334 := by
    by_contra hne
    have hgt : 334 < j := by omega
    have h334 := hj5 334 hgt (by rw [Nat.sub_self, hfirst']; norm_num)
    rw [exactTest_line3 _ _ (by simp [divide_edge_sections]), decide_eq_false_iff_not] at h334
    omega
  refine ⟨h0, ?_⟩
  rw [hj3, hj]

theorem edgeHvalue_spikeEnd (j : Nat) (hj : j < divide_edge_sections) :
    edgeHvalue axisLength spikeEndField (lineEdge 1) j = (j : ℚ) / 1000000 := by
  induction j with
  | zero =>
    have h0 : edgeHvalue axisLength spikeEndField (lineEdge 1) 0 = 0 := rfl
    rw [h0]
    norm_num
  | succ j ih =>
    rw [edgeHvalue_lineEdge_succ _ j (by omega), ih (by omega)]
    have hne : ¬ (((j + 1 : ℕ) : ℚ) / 1000 = 1) := by
      intro h
      have h3 : ((j + 1 : ℕ) : ℚ) = 1000 := by
        have h5 := congrArg (fun x : ℚ => x * 1000) h
        simpa using h5
      have h4 : j + 1 = 1000 := by exact_mod_cast h3
      simp only [divide_edge_sections] at hj
      omega
    simp only [spikeEndField, hne, if_false]
    push_cast
    ring

theorem edgeHvalue_spikeEnd_last :
    edgeHvalue axisLength spikeEndField (lineEdge 1) 1000 = 2 + 999 / 1000000 := by
  rw [edgeHvalue_lineEdge_succ _ 999 (by norm_num [divide_edge_sections]),
    edgeHvalue_spikeEnd 999 (by norm_num [divide_edge_sections])]
  norm_num [spikeEndField]

theorem targetSegments_spikeEnd :
    targetSegments (edgeHvalue axisLength spikeEndField (lineEdge 1)) = 2 := by
  apply targetSegments_of_bounds _ 2 (by norm_num)
  · simp only [divide_edge_sections]
    rw [edgeHvalue_spikeEnd_last]
    norm_num
  · simp only [divide_edge_sections]
    rw [edgeHvalue_spikeEnd_last]
    norm_num

theorem divideWalk_spikeEnd :
    divideWalk (lineEdge 1) (edgeHvalue axisLength spikeEndField (lineEdge 1)) =
      { i := 2, i1 := 1001, nsubedges := 2, mps := [⟨1, 0, 0⟩], params := [0, 1, 0] } := by
  unfold divideWalk
  rw [targetSegments_spikeEnd]
  refine divideLoop_exit (lineEdge 1) (edgeHvalue axisLength spikeEndField (lineEdge 1))
    (fun s => ∃ t : Nat, t ≤ 1000 ∧ s = ⟨1, t, 2, [⟨0, 0, 0⟩], [0, 0, 0]⟩)
    (fun s => s = ⟨2, 1001, 2, [⟨1, 0, 0⟩], [0, 1, 0]⟩)
    ?_ _ _ ⟨0, by norm_num, rfl⟩ (by simp [divide_edge_sections])
  rintro s ⟨t, ht, rfl⟩
  rcases Nat.lt_or_ge t 1000 with ht1 | ht1
  · have hb := divideBody_skip (lineEdge 1)
      (edgeHvalue axisLength spikeEndField (lineEdge 1))
      ⟨1, t, 2, [⟨0, 0, 0⟩], [0, 0, 0]⟩
      (by
        simp only [crossing, divide_edge_sections]
        rw [edgeHvalue_spikeEnd t (by simpa [divide_edge_sections] using ht1),
          edgeHvalue_spikeEnd_last]
        have htq : (t : ℚ) < 1000 := by exact_mod_cast ht1
        have hpos : (0 : ℚ) < 2 + 999 / 1000000 := by norm_num
        rw [ge_iff_le, not_le, div_mul_eq_mul_div, div_lt_iff₀ hpos]
        push_cast
        linarith)
      (by simp only [divide_edge_sections]; omega)
    rw [hb]
    refine ⟨by simpa [divide_edge_sections] using ht, fun _ => ⟨t + 1, by omega, rfl⟩,
      fun h => ?_⟩
    exact absurd (by norm_num) h
  · have ht2 : t = 1000 := by omega
    subst ht2
    have hb := divideBody_record_last (lineEdge 1)
      (edgeHvalue axisLength spikeEndField (lineEdge 1))
      ⟨1, 1000, 2, [⟨0, 0, 0⟩], [0, 0, 0]⟩
      (by
        simp only [crossing, divide_edge_sections]
        rw [edgeHvalue_spikeEnd_last]
        norm_num)
      (by norm_num [divide_edge_sections])
    rw [hb]
    refine ⟨by norm_num [divide_edge_sections], fun h => ?_, fun _ => ?_⟩
    · exact absurd h (by norm_num)
    · norm_num [divide_edge_sections, lineEdge, SetSize]

theorem divideLoop_accesses_inBounds (edge : GeometryEdge) (hv : Nat → ℚ) (n0 : Nat)
    (h0 : hv 0 = 0) :
    ∀ fuel s, WalkInv edge n0 s →
      ∀ a ∈ divideLoop_accesses edge hv fuel s, a.index < a.size ∧ a.line ≠ 238 := by
  intro fuel
  induction fuel with
  | zero =>
    intro s _ a ha
    simp [divideLoop_accesses] at ha
  | succ fuel ih =>
    intro s hinv a ha
    obtain ⟨h1, h2, -⟩ := WalkInv_step edge hv n0 h0 s hinv
    obtain ⟨-, hpl, hml, hi, -, hi1, hin0, hfirst, -⟩ := hinv
    simp only [divideLoop_accesses, List.mem_append] at ha
    rcases ha with ha | ha
    · simp only [divideBody_accesses, List.mem_append, List.mem_cons, List.mem_singleton,
        List.not_mem_nil, or_false] at ha
      rcases ha with (ha | ha) | ha
      · subst ha
        exact ⟨by simp only; omega, by simp⟩
      · subst ha
        exact ⟨by simp only; omega, by simp⟩
      · split_ifs at ha with hc
        · have hi1ne : s.i1 ≠ 0 := fun hz => not_crossing_zero hv s h0 hz hi hc
          have hlt := hfirst hi1ne
          simp only [List.mem_cons, List.mem_singleton, List.not_mem_nil, or_false] at ha
          rcases ha with ha | ha | ha
          · subst ha
            exact ⟨by simp only; omega, by simp⟩
          · subst ha
            exact ⟨by simp only; omega, by simp⟩
          · subst ha
            exact ⟨by simp only; omega, by simp⟩
        · simp at ha
    · split_ifs at ha with hc
      · exact ih _ (h2 hc) a ha
      · simp at ha

theorem fixEnds_accesses_spec (edge : GeometryEdge) (n0 : Nat) (s : DivideState)
    (hpost : WalkPost edge n0 s) :
    ∀ a ∈ fixEnds_accesses s,
      (a.line ≠ 238 → a.index < a.size) ∧
      (a.line = 238 → a.array = DivideArray.params ∧ a.index = a.size) := by
  obtain ⟨hn1, -, -, hpl, -, -, -, -, -⟩ := hpost
  intro a ha
  simp only [fixEnds_accesses, List.mem_append, List.mem_cons, List.mem_singleton,
    List.not_mem_nil, or_false] at ha
  rcases ha with (ha | ha | ha | ha) | ha
  · subst ha
    exact ⟨fun _ => by simp only; omega, fun h => by simp at h⟩
  · subst ha
    exact ⟨fun _ => by simp only; omega, fun h => by simp at h⟩
  · subst ha
    exact ⟨fun _ => by simp only; omega, fun h => by simp at h⟩
  · subst ha
    exact ⟨fun _ => by simp only; omega, fun h => by simp at h⟩
  · split_ifs at ha with hc
    · simp only [List.mem_singleton] at ha
      subst ha
      exact ⟨fun h => absurd rfl h, fun _ => ⟨rfl, by simp [SetSize_length]⟩⟩
    · simp at ha

theorem hvalue_accesses_inBounds :
    ∀ a ∈ hvalue_accesses, a.index < a.size ∧ a.line ≠ 238 := by
  intro a ha
  simp only [hvalue_accesses, List.mem_append, List.mem_singleton, List.mem_flatMap,
    List.mem_range, List.mem_cons, List.not_mem_nil, or_false] at ha
  rcases ha with (ha | ⟨i, hi, ha | ha⟩) | ha
  · subst ha
    exact ⟨by simp, by simp⟩
  · subst ha
    exact ⟨by simp only; omega, by simp⟩
  · subst ha
    exact ⟨by simp only; omega, by simp⟩
  · subst ha
    exact ⟨by simp, by simp⟩

/-- C16 does not hold of the code.  On a straight edge of length 1, in the
positive size field that is 1/2000 at the end point and 1000 elsewhere, the
target count is 2 and the only interior quantile is recorded at the last
sample, so `params[1] = 1` and the correction branch of lines 233-239 is taken:
after `params.SetSize (2)` the assignment `params[nsubedges] = 1.` of line 238
writes the entry number 2 of an array of 2 entries.  In general, for every
edge and size field, every access to `hvalue`, `params` and `mps` of the step is
at an index smaller than the size of the array, except the write of line 238,
whose index equals the size of `params` whenever it is executed. -/
theorem DivideEdge_write_past_end :
    (∀ p, 0 < spikeEndField p) ∧
    (⟨DivideArray.params, 2, 2, 238⟩ : Access) ∈
      DivideEdge_accesses axisLength spikeEndField (lineEdge 1) ∧
    ¬ (⟨DivideArray.params, 2, 2, 238⟩ : Access).index <
      (⟨DivideArray.params, 2, 2, 238⟩ : Access).size ∧
    ∀ (Length : Point3 → ℚ) (GetH : Point3 → ℚ) (edge : GeometryEdge),
      ∀ a ∈ DivideEdge_accesses Length GetH edge,
        (a.line ≠ 238 → a.index < a.size) ∧
        (a.line = 238 → a.array = DivideArray.params ∧ a.index = a.size) := by
  refine ⟨?_, ?_, by simp, ?_⟩
  · intro p
    unfold spikeEndField
    split_ifs <;> norm_num
  · unfold DivideEdge_accesses
    simp only [List.mem_append]
    right
    rw [divideWalk_spikeEnd]
    norm_num [fixEnds_accesses, SetSize]
  · intro Length GetH edge a ha
    unfold DivideEdge_accesses at ha
    simp only [List.mem_append] at ha
    have hn : 1 ≤ targetSegments (edgeHvalue Length GetH edge) := by
      unfold targetSegments
      have : (1 : ℤ) ≤ max 1 ⌊edgeHvalue Length GetH edge divide_edge_sections + 1 / 2⌋ :=
        le_max_left _ _
      omega
    rcases ha with (ha | ha) | ha
    · obtain ⟨h1, h2⟩ := hvalue_accesses_inBounds a ha
      exact ⟨fun _ => h1, fun h => absurd h h2⟩
    · have hinv : WalkInv edge (targetSegments (edgeHvalue Length GetH edge))
          { i := 1, i1 := 0, nsubedges := targetSegments (edgeHvalue Length GetH edge)
            mps := SetSize [] (targetSegments (edgeHvalue Length GetH edge) - 1) ⟨0, 0, 0⟩
            params := SetSize [] (targetSegments (edgeHvalue Length GetH edge) + 1) 0 } := by
        refine ⟨rfl, by simp [SetSize_length], by simp [SetSize_length], le_refl _, by simp,
          by simp, hn, fun h => absurd rfl h, ?_, ?_⟩
        · intro k hk1 hk2
          simp only at hk2
          omega
        · intro k k' hk1 hk2 hk3
          simp only at hk3
          omega
      obtain ⟨h1, h2⟩ := divideLoop_accesses_inBounds edge _ _ (hvalue_zero _ _ _) _ _ hinv a ha
      exact ⟨fun _ => h1, fun h => absurd h h2⟩
    · exact fixEnds_accesses_spec edge _ _ (divideWalk_post edge _ (hvalue_zero _ _ _)) a ha

/-! ## Further theorems about the point lookup of `FindEdges` -/

theorem Point3.sub_self_eq (p : Point3) : p - p = ⟨0, 0, 0⟩ := by
  cases p
  rw [Point3.sub_mk]
  simp

theorem findOrAddPoint_points_kept (Length : Point3 → ℚ) (eps : ℚ) (mesh : Mesh)
    (mp : MeshPoint) :
    mesh.points <+: (findOrAddPoint Length eps mesh mp).1.points ∧
    (findOrAddPoint Length eps mesh mp).1.GetH = mesh.GetH := by
  unfold findOrAddPoint
  split
  · exact ⟨⟨[], List.append_nil _⟩, rfl⟩
  · exact ⟨⟨_, rfl⟩, rfl⟩

theorem addPoints_points_kept (Length : Point3 → ℚ) (eps : ℚ) (mesh : Mesh)
    (mps : List MeshPoint) :
    mesh.points <+: (addPoints Length eps mesh mps).1.points ∧
    (addPoints Length eps mesh mps).1.GetH = mesh.GetH := by
  induction mps generalizing mesh with
  | nil => exact ⟨⟨[], List.append_nil _⟩, rfl⟩
  | cons mp mps ih =>
    simp only [addPoints]
    obtain ⟨h1, h2⟩ := findOrAddPoint_points_kept Length eps mesh mp
    obtain ⟨h3, h4⟩ := ih (findOrAddPoint Length eps mesh mp).1
    exact ⟨h1.trans h3, h4.trans h2⟩

/-- A point that was looked up or added is found again, under the same index,
in every later state of the point table. -/
theorem findOrAddPoint_again (Length : Point3 → ℚ) (eps : ℚ) (hz : Length ⟨0, 0, 0⟩ = 0)
    (heps : 0 < eps) (mesh mesh' : Mesh) (mp : MeshPoint)
    (hpre : (findOrAddPoint Length eps mesh mp).1.points <+: mesh'.points) :
    findOrAddPoint Length eps mesh' mp = (mesh', (findOrAddPoint Length eps mesh mp).2) := by
  unfold findOrAddPoint at hpre ⊢
  cases hf : mesh.points.findIdx? (fun p => decide (Length (p - mp) < eps)) with
  | some i =>
    rw [hf] at hpre
    obtain ⟨t, ht⟩ := hpre
    simp only at ht
    rw [← ht, List.findIdx?_append, hf]
    rfl
  | none =>
    rw [hf] at hpre
    obtain ⟨t, ht⟩ := hpre
    simp only at ht
    have hself : decide (Length (mp - mp) < eps) = true := by
      rw [Point3.sub_self_eq, hz]
      simpa using heps
    rw [← ht, List.findIdx?_append, List.findIdx?_append, hf]
    simp [List.findIdx?_cons, hself]

theorem addPoints_again (Length : Point3 → ℚ) (eps : ℚ) (hz : Length ⟨0, 0, 0⟩ = 0)
    (heps : 0 < eps) (mps : List MeshPoint) :
    ∀ (mesh mesh' : Mesh), (addPoints Length eps mesh mps).1.points <+: mesh'.points →
      addPoints Length eps mesh' mps = (mesh', (addPoints Length eps mesh mps).2) := by
  induction mps with
  | nil =>
    intro mesh mesh' _
    rfl
  | cons mp mps ih =>
    intro mesh mesh' hpre
    simp only [addPoints] at hpre ⊢
    have h1 := (addPoints_points_kept Length eps (findOrAddPoint Length eps mesh mp).1 mps).1
    have h2 := findOrAddPoint_again Length eps hz heps mesh mesh' mp (h1.trans hpre)
    rw [h2]
    simp only
    rw [ih (findOrAddPoint Length eps mesh mp).1 mesh' hpre]

theorem pass_frame_aux (Length : Point3 → ℚ) (eps : ℚ) (st st' : Mesh × Nat)
    (o : Option (Mesh × Nat)) (c : Prop) [Decidable c] (mps : List MeshPoint)
    (segs : List Segment) (n : Nat)
    (hF : o = if c then some (st.1, st.2) else
      some ({ (addPoints Length eps st.1 mps).1 with
              segments := (addPoints Length eps st.1 mps).1.segments ++ segs }, n))
    (h : o = some st') :
    st'.1.GetH = st.1.GetH ∧ st.1.points <+: st'.1.points := by
  rw [hF] at h
  split_ifs at h
  · cases h
    exact ⟨rfl, ⟨[], List.append_nil _⟩⟩
  · cases h
    obtain ⟨hp1, hp2⟩ := addPoints_points_kept Length eps st.1 mps
    exact ⟨hp2, hp1⟩

theorem FindEdges_edge_frame (Length : Point3 → ℚ) (seg_init : Segment)
    (geo : NetgenGeometry) (vert2meshpt : List (Nat × PointIndex)) (face : GeometryFace)
    (facenr : Nat) (st st' : Mesh × Nat) (oe : OrientedEdge)
    (h : FindEdges_edge Length seg_init geo vert2meshpt face facenr st oe = some st') :
    st'.1.GetH = st.1.GetH ∧ st.1.points <+: st'.1.points := by
  cases hE : geo.edges.get? oe.edgenr with
  | none =>
    rw [FindEdges_edge_no_edge _ _ _ _ _ _ _ _ hE] at h
    cases h
  | some e =>
    cases hs : vert2meshpt.lookup e.GetStartVertex.GetHash with
    | none =>
      rw [FindEdges_edge_no_vertex _ _ _ _ _ _ _ _ e hE (Or.inl hs)] at h
      cases h
    | some startp =>
      cases he : vert2meshpt.lookup e.GetEndVertex.GetHash with
      | none =>
        rw [FindEdges_edge_no_vertex _ _ _ _ _ _ _ _ e hE (Or.inr he)] at h
        cases h
      | some endp =>
        exact pass_frame_aux Length _ st st' _ _ _ _ _
          (FindEdges_edge_eq Length seg_init geo vert2meshpt face facenr st oe e startp endp
            hE hs he) h

theorem FindEdges_steps_frame (Length : Point3 → ℚ) (seg_init : Segment)
    (geo : NetgenGeometry) (vert2meshpt : List (Nat × PointIndex))
    (steps : List (Nat × GeometryFace × OrientedEdge)) :
    ∀ (st st' : Mesh × Nat),
      foldlM? (fun (st : Mesh × Nat) (x : Nat × GeometryFace × OrientedEdge) =>
        FindEdges_edge Length seg_init geo vert2meshpt x.2.1 x.1 st x.2.2) st steps = some st' →
      st'.1.GetH = st.1.GetH ∧ st.1.points <+: st'.1.points := by
  induction steps with
  | nil =>
    intro st st' h
    simp only [foldlM?] at h
    cases h
    exact ⟨rfl, ⟨[], List.append_nil _⟩⟩
  | cons x xs ih =>
    intro st st' h
    simp only [foldlM?] at h
    cases hx : FindEdges_edge Length seg_init geo vert2meshpt x.2.1 x.1 st x.2.2 with
    | none =>
      rw [hx] at h
      cases h
    | some s1 =>
      rw [hx] at h
      obtain ⟨h1, h2⟩ := FindEdges_edge_frame _ _ _ _ _ _ _ _ _ hx
      obtain ⟨h3, h4⟩ := ih s1 st' h
      exact ⟨h3.trans h1, h2.trans h4⟩

theorem foldlOpt_append {σ α : Type} (f : σ → α → Option σ) (l1 l2 : List α) :
    ∀ s, foldlM? f s (l1 ++ l2) =
      match foldlM? f s l1 with
      | none => none
      | some s1 => foldlM? f s1 l2 := by
  induction l1 with
  | nil => intro s; rfl
  | cons a l1 ih =>
    intro s
    simp only [List.cons_append, foldlM?]
    cases f s a with
    | none => rfl
    | some s1 => exact ih s1

theorem foldlOpt_flatMap {σ α β : Type} (f : σ → β → Option σ) (g : α → List β) (l : List α) :
    ∀ s, foldlM? f s (l.flatMap g) = foldlM? (fun s a => foldlM? f s (g a)) s l := by
  induction l with
  | nil => intro s; rfl
  | cons a l ih =>
    intro s
    simp only [List.flatMap_cons, foldlOpt_append, foldlM?]
    cases foldlM? f s (g a) with
    | none => rfl
    | some s1 => exact ih s1

theorem foldlOpt_map {σ α β : Type} (f : σ → β → Option σ) (g : α → β) (l : List α) :
    ∀ s, foldlM? f s (l.map g) = foldlM? (fun s a => f s (g a)) s l := by
  induction l with
  | nil => intro s; rfl
  | cons a l ih =>
    intro s
    simp only [List.map_cons, foldlM?]
    cases f s (g a) with
    | none => rfl
    | some s1 => exact ih s1

/-- The three nested loops of `FindEdges` process the oriented edges of
`edgeSteps` one after the other. -/
theorem FindEdges_eq_steps (Length : Point3 → ℚ) (seg_init : Segment) (geo : NetgenGeometry)
    (mesh : Mesh) :
    FindEdges Length seg_init geo mesh =
      (foldlM? (fun (st : Mesh × Nat) (x : Nat × GeometryFace × OrientedEdge) =>
          FindEdges_edge Length seg_init geo
            (addVertices geo (addFaceDescriptors geo mesh)).2 x.2.1 x.1 st x.2.2)
        ((addVertices geo (addFaceDescriptors geo mesh)).1, 0) (edgeSteps geo)).map
        fun st => st.1 := by
  unfold FindEdges edgeSteps
  simp only [foldlOpt_flatMap, foldlOpt_map]

theorem second_pass_aux (Length : Point3 → ℚ) (eps : ℚ) (hz : Length ⟨0, 0, 0⟩ = 0)
    (heps : 0 < eps) (seg_init : Segment) (face1 face2 : GeometryFace)
    (facenr1 facenr2 : Nat) (e : GeometryEdge) (en1 en2 : Nat) (b1 b2 : Bool)
    (startp endp : PointIndex) (st1 st2 st3 : Mesh × Nat)
    (o1 o3 : Option (Mesh × Nat)) (c : Prop) [Decidable c] (d1 d3 : List MeshPoint × List ℚ)
    (hF1 : o1 = if c then some (st1.1, st1.2) else
      some ({ (addPoints Length eps st1.1 d1.1).1 with
              segments := (addPoints Length eps st1.1 d1.1).1.segments ++
                emitSegments seg_init face1 facenr1 e en1 b1
                  ([startp] ++ (addPoints Length eps st1.1 d1.1).2 ++ [endp]) d1.2 st1.2 },
            st1.2 + (emitSegments seg_init face1 facenr1 e en1 b1
                  ([startp] ++ (addPoints Length eps st1.1 d1.1).2 ++ [endp]) d1.2 st1.2).length))
    (hF3 : o3 = if c then some (st3.1, st3.2) else
      some ({ (addPoints Length eps st3.1 d3.1).1 with
              segments := (addPoints Length eps st3.1 d3.1).1.segments ++
                emitSegments seg_init face2 facenr2 e en2 b2
                  ([startp] ++ (addPoints Length eps st3.1 d3.1).2 ++ [endp]) d3.2 st3.2 },
            st3.2 + (emitSegments seg_init face2 facenr2 e en2 b2
                  ([startp] ++ (addPoints Length eps st3.1 d3.1).2 ++ [endp]) d3.2 st3.2).length))
    (hd : st3.1.GetH = st1.1.GetH → d3 = d1)
    (h1 : o1 = some st2) (hH : st3.1.GetH = st2.1.GetH) (hP : st2.1.points <+: st3.1.points) :
    ∃ st4, o3 = some st4 ∧ st4.1.points = st3.1.points ∧
      ((st2 = st1 ∧ st4 = st3) ∨
        ∃ interior : List PointIndex,
          d3 = d1 ∧ interior.length = d1.1.length ∧
          interior = (addPoints Length eps st1.1 d1.1).2 ∧
          interior = (addPoints Length eps st3.1 d3.1).2 ∧
          st2.1.segments = st1.1.segments ++
            emitSegments seg_init face1 facenr1 e en1 b1
              ([startp] ++ interior ++ [endp]) d1.2 st1.2 ∧
          st4.1.segments = st3.1.segments ++
            emitSegments seg_init face2 facenr2 e en2 b2
              ([startp] ++ interior ++ [endp]) d1.2 st3.2) := by
  rw [hF1] at h1
  rw [hF3]
  by_cases hc : c
  · rw [if_pos hc] at h1 ⊢
    cases h1
    exact ⟨_, rfl, rfl, Or.inl ⟨rfl, rfl⟩⟩
  · rw [if_neg hc] at h1 ⊢
    cases h1
    simp only at hH hP
    obtain ⟨-, hp2⟩ := addPoints_points_kept Length eps st1.1 d1.1
    have hd3 : d3 = d1 := hd (hH.trans hp2)
    subst hd3
    have hadd := addPoints_again Length eps hz heps d3.1 st1.1 st3.1 hP
    rw [hadd]
    refine ⟨_, rfl, rfl, Or.inr ⟨(addPoints Length eps st1.1 d3.1).2, rfl,
      addPoints_length Length eps st1.1 d3.1, rfl, rfl, ?_, rfl⟩⟩
    simp only [addPoints_segments]

/-- C18.  Let the bounding-box diameter be positive and let the length of the
zero vector be 0.  In a run of `FindEdges`, let an oriented edge be processed
from the state `st1` with the result `st2`, let any sequence of further
oriented edges (of any faces) be processed from `st2` with the result `st3`,
and let an oriented edge that refers to the same edge be processed from `st3`.
Then this second pass returns a state `st4` whose point table is that of
`st3`: the second discretization adds no mesh point.  Either the edge is
collapsed and both passes leave their state as it is, or both passes divide
the edge in the same way, and the second pass assigns to the interior division
points the mesh point indices `interior` that the first pass assigned: the
segments appended by the two passes are emitted from the same chain
`startp, interior, endp`.  The passes of a run of `FindEdges` are the passes
for the oriented edges of `edgeSteps`, in order, each from the state the pass
before it left. -/
theorem FindEdges_edge_second_pass (Length : Point3 → ℚ) (seg_init : Segment)
    (geo : NetgenGeometry) (vert2meshpt : List (Nat × PointIndex))
    (hdiam : 0 < geo.bounding_box_Diam) (hzero : Length ⟨0, 0, 0⟩ = 0)
    (face1 face2 : GeometryFace) (facenr1 facenr2 : Nat) (oe1 oe2 : OrientedEdge)
    (hsame : oe2.edgenr = oe1.edgenr)
    (between : List (Nat × GeometryFace × OrientedEdge)) (st1 st2 st3 : Mesh × Nat)
    (h1 : FindEdges_edge Length seg_init geo vert2meshpt face1 facenr1 st1 oe1 = some st2)
    (h2 : foldlM? (fun (st : Mesh × Nat) (x : Nat × GeometryFace × OrientedEdge) =>
        FindEdges_edge Length seg_init geo vert2meshpt x.2.1 x.1 st x.2.2) st2 between =
      some st3) :
    (∃ st4, FindEdges_edge Length seg_init geo vert2meshpt face2 facenr2 st3 oe2 = some st4 ∧
      st4.1.points = st3.1.points ∧
      ((st2 = st1 ∧ st4 = st3) ∨
        ∃ (edge : GeometryEdge) (startp endp : PointIndex) (interior : List PointIndex),
          geo.edges.get? oe1.edgenr = some edge ∧
          DivideEdge Length st3.1.GetH edge = DivideEdge Length st1.1.GetH edge ∧
          interior.length = (DivideEdge Length st1.1.GetH edge).1.length ∧
          interior = (addPoints Length (geo.bounding_box_Diam * (1 / 100000000)) st1.1
            (DivideEdge Length st1.1.GetH edge).1).2 ∧
          interior = (addPoints Length (geo.bounding_box_Diam * (1 / 100000000)) st3.1
            (DivideEdge Length st3.1.GetH edge).1).2 ∧
          st2.1.segments = st1.1.segments ++
            emitSegments seg_init face1 facenr1 edge oe1.edgenr oe1.OrientedLikeGlobal
              ([startp] ++ interior ++ [endp]) (DivideEdge Length st1.1.GetH edge).2 st1.2 ∧
          st4.1.segments = st3.1.segments ++
            emitSegments seg_init face2 facenr2 edge oe2.edgenr oe2.OrientedLikeGlobal
              ([startp] ++ interior ++ [endp]) (DivideEdge Length st1.1.GetH edge).2 st3.2)) ∧
    (∀ mesh : Mesh, FindEdges Length seg_init geo mesh =
      (foldlM? (fun (st : Mesh × Nat) (x : Nat × GeometryFace × OrientedEdge) =>
          FindEdges_edge Length seg_init geo
            (addVertices geo (addFaceDescriptors geo mesh)).2 x.2.1 x.1 st x.2.2)
        ((addVertices geo (addFaceDescriptors geo mesh)).1, 0) (edgeSteps geo)).map
        fun st => st.1) := by
  refine ⟨?_, fun mesh => FindEdges_eq_steps Length seg_init geo mesh⟩
  have heps : 0 < geo.bounding_box_Diam * (1 / 100000000) := by positivity
  cases hE : geo.edges.get? oe1.edgenr with
  | none =>
    rw [FindEdges_edge_no_edge _ _ _ _ _ _ _ _ hE] at h1
    cases h1
  | some e =>
    cases hs : vert2meshpt.lookup e.GetStartVertex.GetHash with
    | none =>
      rw [FindEdges_edge_no_vertex _ _ _ _ _ _ _ _ e hE (Or.inl hs)] at h1
      cases h1
    | some startp =>
      cases he : vert2meshpt.lookup e.GetEndVertex.GetHash with
      | none =>
        rw [FindEdges_edge_no_vertex _ _ _ _ _ _ _ _ e hE (Or.inr he)] at h1
        cases h1
      | some endp =>
        have hE2 : geo.edges.get? oe2.edgenr = some e := by rw [hsame, hE]
        obtain ⟨hH, hP⟩ := FindEdges_steps_frame _ _ _ _ _ _ _ h2
        obtain ⟨st4, h4, hp4, hcases⟩ := second_pass_aux Length
          (geo.bounding_box_Diam * (1 / 100000000)) hzero heps seg_init face1 face2
          facenr1 facenr2 e oe1.edgenr oe2.edgenr oe1.OrientedLikeGlobal oe2.OrientedLikeGlobal
          startp endp st1 st2 st3 _ _ _
          (DivideEdge Length st1.1.GetH e) (DivideEdge Length st3.1.GetH e)
          (FindEdges_edge_eq Length seg_init geo vert2meshpt face1 facenr1 st1 oe1 e startp endp
            hE hs he)
          (FindEdges_edge_eq Length seg_init geo vert2meshpt face2 facenr2 st3 oe2 e startp endp
            hE2 hs he)
          (fun h => by rw [h]) h1 hH hP
        refine ⟨st4, h4, hp4, ?_⟩
        rcases hcases with hc | ⟨interior, hd, hl, hi1, hi3, hs2, hs4⟩
        · exact Or.inl hc
        · exact Or.inr ⟨e, startp, endp, interior, rfl, hd, hl, hi1, hi3, hs2, hs4⟩

/-- Witness of C18: the edge of `shortEdgeGeometry` is processed twice, once in
each direction, with nothing in between. -/
theorem FindEdges_edge_second_pass_witness :
    (0 : ℚ) < shortEdgeGeometry.bounding_box_Diam ∧ axisLength ⟨0, 0, 0⟩ = 0 ∧
    ∃ st4, FindEdges_edge axisLength zeroSegment shortEdgeGeometry [(2, 2), (1, 1), (0, 0)]
        seamFace 0
        ({ fineMesh with
            points := [⟨0, 0, 0⟩, ⟨6 / 5, 0, 0⟩, ⟨100000000, 0, 0⟩]
            segments := fineMesh.segments ++
              emitSegments zeroSegment seamFace 0 (lineEdge (6 / 5)) 0 true [0, 0, 1]
                [0, 1 / 2, 1] 0 }, 0 + 2) ⟨0, false⟩ = some st4 ∧
      st4.1.points = [⟨0, 0, 0⟩, ⟨6 / 5, 0, 0⟩, ⟨100000000, 0, 0⟩] := by
  have hd : (0 : ℚ) < shortEdgeGeometry.bounding_box_Diam := by norm_num [shortEdgeGeometry]
  have hz : axisLength ⟨0, 0, 0⟩ = 0 := by norm_num [axisLength]
  have h1 := FindEdges_edge_shortEdge
    { fineMesh with points := [⟨0, 0, 0⟩, ⟨6 / 5, 0, 0⟩, ⟨100000000, 0, 0⟩] } 0 true rfl rfl
  obtain ⟨⟨st4, h4, hp, -⟩, -⟩ := FindEdges_edge_second_pass axisLength zeroSegment
    shortEdgeGeometry [(2, 2), (1, 1), (0, 0)] hd hz seamFace seamFace 0 0 ⟨0, true⟩ ⟨0, false⟩
    rfl [] _ _ _ h1 rfl
  exact ⟨hd, hz, st4, h4, hp⟩

/-! ## Further theorems about `RestrictHTrig` -/

theorem longestEdge_cutedge (Length : Point3 → ℚ) (p0 p1 p2 : Point3) :
    ((longestEdge Length p0 p1 p2).2 = 0 ∧
      (longestEdge Length p0 p1 p2).1 = Length (p1 - p2) ∧
      Length (p0 - p1) ≤ Length (p1 - p2) ∧ Length (p0 - p2) ≤ Length (p1 - p2)) ∨
    ((longestEdge Length p0 p1 p2).2 = 1 ∧
      (longestEdge Length p0 p1 p2).1 = Length (p0 - p2) ∧
      Length (p0 - p1) ≤ Length (p0 - p2) ∧ Length (p1 - p2) ≤ Length (p0 - p2)) ∨
    ((longestEdge Length p0 p1 p2).2 = 2 ∧
      (longestEdge Length p0 p1 p2).1 = Length (p0 - p1) ∧
      Length (p0 - p2) ≤ Length (p0 - p1) ∧ Length (p1 - p2) ≤ Length (p0 - p1)) := by
  unfold longestEdge
  by_cases h1 : Length (p0 - p2) > Length (p0 - p1)
  · by_cases h2 : Length (p1 - p2) > Length (p0 - p2)
    · left
      simp only [h1, h2, if_true]
      exact ⟨trivial, trivial, by linarith, by linarith⟩
    · right; left
      simp only [h1, h2, if_true, if_false]
      exact ⟨trivial, trivial, by linarith, by linarith⟩
  · by_cases h2 : Length (p1 - p2) > Length (p0 - p1)
    · left
      simp only [h1, h2, if_true, if_false]
      exact ⟨trivial, trivial, by linarith, by linarith⟩
    · right; right
      simp only [h1, h2, if_false]
      exact ⟨trivial, trivial, by linarith, by linarith⟩

/-- The three ways a call of `RestrictHTrig` runs: it returns from the curvature
test; or it submits its four size restrictions; or it recurses into the two
halves of its triangle, cut at the edge `cutedge`. -/
theorem RestrictHTrig_run (Length : Point3 → ℚ) (face : GeometryFace)
    (gi_uninit gi0 gi1 gi2 : PointGeomInfo) (mparam : MeshingParameters) (depth : Int) (h : ℚ) :
    (curvatureBlock face mparam gi0 gi1 gi2
        { gi_uninit with u := (gi0.u + gi1.u + gi2.u) / 3, v := (gi0.v + gi1.v + gi2.v) / 3 }
        depth h
        (longestEdge Length (face.GetPoint gi0) (face.GetPoint gi1) (face.GetPoint gi2)).1 =
        none ∧
      RestrictHTrig Length face gi_uninit gi0 gi1 gi2 mparam depth h =
        [HTrigEvent.enter gi0 gi1 gi2 depth h]) ∨
    (∃ h', curvatureBlock face mparam gi0 gi1 gi2
        { gi_uninit with u := (gi0.u + gi1.u + gi2.u) / 3, v := (gi0.v + gi1.v + gi2.v) / 3 }
        depth h
        (longestEdge Length (face.GetPoint gi0) (face.GetPoint gi1) (face.GetPoint gi2)).1 =
        some h' ∧
      ¬ (h' < (longestEdge Length (face.GetPoint gi0) (face.GetPoint gi1)
          (face.GetPoint gi2)).1 ∧ depth < 10) ∧
      RestrictHTrig Length face gi_uninit gi0 gi1 gi2 mparam depth h =
        [HTrigEvent.enter gi0 gi1 gi2 depth h,
         HTrigEvent.restrict (face.GetPoint gi0) h', HTrigEvent.restrict (face.GetPoint gi1) h',
         HTrigEvent.restrict (face.GetPoint gi2) h',
         HTrigEvent.restrict (face.GetPoint
          { gi_uninit with u := (gi0.u + gi1.u + gi2.u) / 3, v := (gi0.v + gi1.v + gi2.v) / 3 })
          h']) ∨
    (∃ h', curvatureBlock face mparam gi0 gi1 gi2
        { gi_uninit with u := (gi0.u + gi1.u + gi2.u) / 3, v := (gi0.v + gi1.v + gi2.v) / 3 }
        depth h
        (longestEdge Length (face.GetPoint gi0) (face.GetPoint gi1) (face.GetPoint gi2)).1 =
        some h' ∧
      h' < (longestEdge Length (face.GetPoint gi0) (face.GetPoint gi1)
          (face.GetPoint gi2)).1 ∧ depth < 10 ∧
      (((longestEdge Length (face.GetPoint gi0) (face.GetPoint gi1) (face.GetPoint gi2)).2 = 0 ∧
        RestrictHTrig Length face gi_uninit gi0 gi1 gi2 mparam depth h =
          HTrigEvent.enter gi0 gi1 gi2 depth h ::
            (RestrictHTrig Length face gi_uninit
                { gi_uninit with u := 1 / 2 * (gi1.u + gi2.u), v := 1 / 2 * (gi1.v + gi2.v) }
                gi2 gi0 mparam (depth + 1) h' ++
              RestrictHTrig Length face gi_uninit
                { gi_uninit with u := 1 / 2 * (gi1.u + gi2.u), v := 1 / 2 * (gi1.v + gi2.v) }
                gi0 gi1 mparam (depth + 1) h')) ∨
       ((longestEdge Length (face.GetPoint gi0) (face.GetPoint gi1) (face.GetPoint gi2)).2 = 1 ∧
        RestrictHTrig Length face gi_uninit gi0 gi1 gi2 mparam depth h =
          HTrigEvent.enter gi0 gi1 gi2 depth h ::
            (RestrictHTrig Length face gi_uninit
                { gi_uninit with u := 1 / 2 * (gi0.u + gi2.u), v := 1 / 2 * (gi0.v + gi2.v) }
                gi1 gi2 mparam (depth + 1) h' ++
              RestrictHTrig Length face gi_uninit
                { gi_uninit with u := 1 / 2 * (gi0.u + gi2.u), v := 1 / 2 * (gi0.v + gi2.v) }
                gi0 gi1 mparam (depth + 1) h')) ∨
       ((longestEdge Length (face.GetPoint gi0) (face.GetPoint gi1) (face.GetPoint gi2)).2 = 2 ∧
        RestrictHTrig Length face gi_uninit gi0 gi1 gi2 mparam depth h =
          HTrigEvent.enter gi0 gi1 gi2 depth h ::
            (RestrictHTrig Length face gi_uninit
                { gi_uninit with u := 1 / 2 * (gi0.u + gi1.u), v := 1 / 2 * (gi0.v + gi1.v) }
                gi1 gi2 mparam (depth + 1) h' ++
              RestrictHTrig Length face gi_uninit
                { gi_uninit with u := 1 / 2 * (gi0.u + gi1.u), v := 1 / 2 * (gi0.v + gi1.v) }
                gi2 gi0 mparam (depth + 1) h')))) := by
  rw [RestrictHTrig]
  simp only
  split
  · rename_i hcb
    exact Or.inl ⟨hcb, rfl⟩
  · rename_i h' hcb
    by_cases hrec : h' < (longestEdge Length (face.GetPoint gi0) (face.GetPoint gi1)
        (face.GetPoint gi2)).1 ∧ depth < 10
    · right; right
      refine ⟨h', hcb, hrec.1, hrec.2, ?_⟩
      rcases longestEdge_cutedge Length (face.GetPoint gi0) (face.GetPoint gi1)
        (face.GetPoint gi2) with hc | hc | hc
      · left
        refine ⟨hc.1, ?_⟩
        rw [if_pos hrec, if_pos hc.1]
      · right; left
        refine ⟨hc.1, ?_⟩
        rw [if_pos hrec, if_neg (by rw [hc.1]; norm_num), if_pos hc.1]
      · right; right
        refine ⟨hc.1, ?_⟩
        rw [if_pos hrec, if_neg (by rw [hc.1]; norm_num), if_neg (by rw [hc.1]; norm_num),
          if_pos hc.1]
    · right; left
      refine ⟨h', hcb, hrec, ?_⟩
      rw [if_neg hrec]

theorem dropWhile_append_of {α : Type} (p : α → Bool) (X S0 : List α)
    (hX : ∀ c ∈ X, p c = true) (hS : ∀ c ∈ S0, p c = false) :
    (X ++ S0).dropWhile p = S0 := by
  induction X with
  | nil =>
    cases S0 with
    | nil => rfl
    | cons c rest =>
      simp only [List.nil_append, List.dropWhile_cons, hS c (List.mem_cons_self _ _)]
      rfl
  | cons c rest ih =>
    simp only [List.cons_append, List.dropWhile_cons, hX c (List.mem_cons_self _ _), if_true]
    exact ih fun c' hc' => hX c' (List.mem_cons_of_mem _ hc')

theorem pushCall_eq (X S0 : List HTrigCall) (c : HTrigCall)
    (hX : ∀ c' ∈ X, c.depth ≤ c'.depth) (hS : ∀ c' ∈ S0, c'.depth < c.depth) :
    pushCall (X ++ S0) c = (if c.depth.tmod 3 = 0 then [c] else []) ++ S0 := by
  unfold pushCall
  rw [dropWhile_append_of _ X S0 (fun c' hc' => by simpa using hX c' hc')
    (fun c' hc' => by simpa using hS c' hc')]
  split_ifs <;> rfl

theorem withCurvatureCall_append (a b : List HTrigEvent) :
    ∀ S, withCurvatureCall S (a ++ b) =
      withCurvatureCall S a ++ withCurvatureCall (openCalls S a) b := by
  induction a with
  | nil => intro S; rfl
  | cons e es ih =>
    intro S
    cases e with
    | enter gi0 gi1 gi2 depth h =>
      simp only [List.cons_append, withCurvatureCall, openCalls]
      exact ih _
    | restrict p h =>
      simp only [List.cons_append, withCurvatureCall, openCalls, List.cons.injEq, true_and]
      exact ih _

theorem openCalls_append (a b : List HTrigEvent) :
    ∀ S, openCalls S (a ++ b) = openCalls (openCalls S a) b := by
  induction a with
  | nil => intro S; rfl
  | cons e es ih =>
    intro S
    cases e with
    | enter gi0 gi1 gi2 depth h =>
      simp only [List.cons_append, openCalls]
      exact ih _
    | restrict p h =>
      simp only [List.cons_append, openCalls]
      exact ih _

theorem withCurvatureCall_restrictions (es : List HTrigEvent) :
    ∀ S, (withCurvatureCall S es).map (fun x => (x.1, x.2.1)) = restrictions es := by
  induction es with
  | nil => intro S; rfl
  | cons e es ih =>
    intro S
    cases e with
    | enter gi0 gi1 gi2 depth h =>
      simp only [withCurvatureCall, restrictions]
      exact ih _
    | restrict p h =>
      simp only [withCurvatureCall, restrictions, List.map_cons, List.cons.injEq, true_and]
      exact ih _

theorem curvatureBlock_derived (Length : Point3 → ℚ) (face : GeometryFace)
    (gi_uninit : PointGeomInfo) (mparam : MeshingParameters)
    (hcs : 0 < mparam.curvaturesafety)
    (c : HTrigCall) (h' : ℚ) (hd : c.depth.tmod 3 = 0)
    (hcb : curvatureBlock face mparam c.gi0 c.gi1 c.gi2 (c.gi_mid gi_uninit) c.depth c.h
      (c.longest Length face) = some h') :
    DerivedSize Length face gi_uninit mparam c h' := by
  unfold curvatureBlock at hcb
  rw [if_pos hd] at hcb
  simp only at hcb
  have hcv : max (0 : ℚ) (c.curvature face gi_uninit) =
      max 0 (max (face.GetCurvature (c.gi_mid gi_uninit))
        (max (face.GetCurvature c.gi0) (max (face.GetCurvature c.gi1)
          (face.GetCurvature c.gi2)))) := rfl
  rw [← hcv] at hcb
  by_cases h1 : max (0 : ℚ) (c.curvature face gi_uninit) < 1 / 1000
  · rw [if_pos h1] at hcb
    exact absurd hcb (by simp)
  · rw [if_neg h1] at hcb
    have hge : 1 / 1000 ≤ c.curvature face gi_uninit := by
      rcases le_total (0 : ℚ) (c.curvature face gi_uninit) with h0 | h0
      · rw [max_eq_right h0] at h1
        linarith
      · rw [max_eq_left h0] at h1
        norm_num at h1
    have hmax : max (0 : ℚ) (c.curvature face gi_uninit) = c.curvature face gi_uninit :=
      max_eq_right (by linarith)
    rw [hmax] at hcb
    have hk : 0 < c.curvature face gi_uninit * mparam.curvaturesafety :=
      mul_pos (by linarith) hcs
    by_cases h2 : (if mparam.maxh * (c.curvature face gi_uninit * mparam.curvaturesafety) < 1
        then mparam.maxh else 1 / (c.curvature face gi_uninit * mparam.curvaturesafety)) <
        1 / 10000 * c.longest Length face
    · rw [if_pos h2] at hcb
      exact absurd hcb (by simp)
    · rw [if_neg h2] at hcb
      have hh : h' = if mparam.maxh * (c.curvature face gi_uninit * mparam.curvaturesafety) < 1
          then mparam.maxh
          else 1 / (c.curvature face gi_uninit * mparam.curvaturesafety) :=
        (Option.some.inj hcb).symm
      refine ⟨hd, hge, ?_, ?_⟩
      · rw [hh]
        split_ifs with h3
        · rw [min_eq_left]
          rw [le_div_iff₀ hk]
          linarith
        · rw [min_eq_right]
          rw [div_le_iff₀ hk]
          linarith
      · rw [hh]
        linarith

theorem curvatureBlock_inherit (face : GeometryFace) (mparam : MeshingParameters)
    (gi0 gi1 gi2 gi_mid : PointGeomInfo) (depth : Int) (h longest : ℚ)
    (hd : depth.tmod 3 ≠ 0) :
    curvatureBlock face mparam gi0 gi1 gi2 gi_mid depth h longest = some h := by
  unfold curvatureBlock
  rw [if_neg hd]

theorem withCurvatureCall_run (Length : Point3 → ℚ) (face : GeometryFace)
    (gi_uninit : PointGeomInfo) (mparam : MeshingParameters)
    (hcs : 0 < mparam.curvaturesafety) (n : Nat) :
    ∀ (gi0 gi1 gi2 : PointGeomInfo) (depth : Int) (h : ℚ) (X S0 : List HTrigCall),
      (10 - depth).toNat < n →
      (∀ c ∈ X, depth ≤ c.depth) → (∀ c ∈ S0, c.depth < depth) →
      (depth.tmod 3 ≠ 0 →
        ∃ c rest, S0 = c :: rest ∧ DerivedSize Length face gi_uninit mparam c h) →
      (∀ x ∈ withCurvatureCall (X ++ S0)
          (RestrictHTrig Length face gi_uninit gi0 gi1 gi2 mparam depth h),
        ∃ c, x.2.2 = some c ∧ DerivedSize Length face gi_uninit mparam c x.2.1) ∧
      ∃ X', openCalls (X ++ S0)
          (RestrictHTrig Length face gi_uninit gi0 gi1 gi2 mparam depth h) = X' ++ S0 ∧
        ∀ c ∈ X', depth ≤ c.depth := by
  induction n with
  | zero =>
    intro gi0 gi1 gi2 depth h X S0 hn
    omega
  | succ n ih =>
    intro gi0 gi1 gi2 depth h X S0 hn hX hS0 hhead
    have hpush := pushCall_eq X S0 ⟨gi0, gi1, gi2, depth, h⟩ hX hS0
    simp only at hpush
    have hpre : ∀ c ∈ (if depth.tmod 3 = 0 then [(⟨gi0, gi1, gi2, depth, h⟩ : HTrigCall)]
        else []), depth ≤ c.depth := by
      intro c hc
      split_ifs at hc
      · simp only [List.mem_singleton] at hc
        subst hc
        exact le_refl _
      · simp at hc
    -- the innermost open call after the entry, and the size it derived
    have hS1 : ∀ h', curvatureBlock face mparam gi0 gi1 gi2
        { gi_uninit with u := (gi0.u + gi1.u + gi2.u) / 3, v := (gi0.v + gi1.v + gi2.v) / 3 }
        depth h
        (longestEdge Length (face.GetPoint gi0) (face.GetPoint gi1) (face.GetPoint gi2)).1 =
        some h' →
        ∃ c rest, pushCall (X ++ S0) ⟨gi0, gi1, gi2, depth, h⟩ = c :: rest ∧
          DerivedSize Length face gi_uninit mparam c h' := by
      intro h' hcb
      rw [hpush]
      by_cases hd : depth.tmod 3 = 0
      · rw [if_pos hd]
        exact ⟨_, S0, rfl, curvatureBlock_derived Length face gi_uninit mparam hcs
          ⟨gi0, gi1, gi2, depth, h⟩ h' hd hcb⟩
      · rw [if_neg hd]
        obtain ⟨c, rest, hc, hder⟩ := hhead hd
        rw [curvatureBlock_inherit _ _ _ _ _ _ _ _ _ hd] at hcb
        cases hcb
        exact ⟨c, rest, by rw [hc]; rfl, hder⟩
    have hS1lt : ∀ c ∈ pushCall (X ++ S0) ⟨gi0, gi1, gi2, depth, h⟩, c.depth < depth + 1 := by
      intro c hc
      rw [hpush, List.mem_append] at hc
      rcases hc with hc | hc
      · split_ifs at hc
        · simp only [List.mem_singleton] at hc
          subst hc
          simp
        · simp at hc
      · have := hS0 c hc
        omega
    rcases RestrictHTrig_run Length face gi_uninit gi0 gi1 gi2 mparam depth h with
      ⟨-, hrun⟩ | ⟨h', hcb, -, hrun⟩ | ⟨h', hcb, -, hlt, hrun⟩
    · rw [hrun]
      refine ⟨by simp [withCurvatureCall], _, ?_, hpre⟩
      simp only [openCalls]
      exact hpush
    · rw [hrun]
      obtain ⟨c, rest, hc, hder⟩ := hS1 h' hcb
      refine ⟨?_, _, ?_, hpre⟩
      · intro x hx
        simp only [withCurvatureCall, hc, List.head?_cons, List.mem_cons, List.mem_singleton,
          List.not_mem_nil, or_false] at hx
        rcases hx with hx | hx | hx | hx <;> (subst hx; exact ⟨c, rfl, hder⟩)
      · simp only [openCalls]
        exact hpush
    · have key : ∀ a b c a' b' c',
          RestrictHTrig Length face gi_uninit gi0 gi1 gi2 mparam depth h =
            HTrigEvent.enter gi0 gi1 gi2 depth h ::
              (RestrictHTrig Length face gi_uninit a b c mparam (depth + 1) h' ++
                RestrictHTrig Length face gi_uninit a' b' c' mparam (depth + 1) h') →
          (∀ x ∈ withCurvatureCall (X ++ S0)
              (RestrictHTrig Length face gi_uninit gi0 gi1 gi2 mparam depth h),
            ∃ c, x.2.2 = some c ∧ DerivedSize Length face gi_uninit mparam c x.2.1) ∧
          ∃ X', openCalls (X ++ S0)
              (RestrictHTrig Length face gi_uninit gi0 gi1 gi2 mparam depth h) = X' ++ S0 ∧
            ∀ c ∈ X', depth ≤ c.depth := by
        intro a b c a' b' c' heq
        rw [heq]
        simp only [withCurvatureCall, openCalls, withCurvatureCall_append, openCalls_append]
        have hhead1 : (depth + 1).tmod 3 ≠ 0 → ∃ c rest,
            pushCall (X ++ S0) ⟨gi0, gi1, gi2, depth, h⟩ = c :: rest ∧
              DerivedSize Length face gi_uninit mparam c h' := fun _ => hS1 h' hcb
        obtain ⟨g1, X1, hX1, hX1d⟩ := ih a b c (depth + 1) h' []
          (pushCall (X ++ S0) ⟨gi0, gi1, gi2, depth, h⟩) (by omega) (by simp) hS1lt hhead1
        simp only [List.nil_append] at g1 hX1
        rw [hX1]
        obtain ⟨g2, X2, hX2, hX2d⟩ := ih a' b' c' (depth + 1) h' X1
          (pushCall (X ++ S0) ⟨gi0, gi1, gi2, depth, h⟩) (by omega) hX1d hS1lt hhead1
        refine ⟨?_, ?_⟩
        · intro x hx
          rcases List.mem_append.mp hx with hx | hx
          · exact g1 x hx
          · exact g2 x hx
        · refine ⟨X2 ++ (if depth.tmod 3 = 0 then [(⟨gi0, gi1, gi2, depth, h⟩ : HTrigCall)]
            else []), ?_, ?_⟩
          · rw [hX2, hpush, List.append_assoc]
          · intro c hc
            rcases List.mem_append.mp hc with hc | hc
            · have := hX2d c hc
              omega
            · exact hpre c hc
      rcases hrun with ⟨-, heq⟩ | ⟨-, heq⟩ | ⟨-, heq⟩
      · exact key _ _ _ _ _ _ heq
      · exact key _ _ _ _ _ _ heq
      · exact key _ _ _ _ _ _ heq

theorem pushCall_subset (S : List HTrigCall) (c0 c : HTrigCall) (hc : c ∈ pushCall S c0) :
    c = c0 ∨ c ∈ S := by
  unfold pushCall at hc
  simp only at hc
  split_ifs at hc
  · rcases List.mem_cons.mp hc with hc | hc
    · exact Or.inl hc
    · exact Or.inr ((List.dropWhile_sublist _).subset hc)
  · exact Or.inr ((List.dropWhile_sublist _).subset hc)

theorem withCurvatureCall_mem (es : List HTrigEvent) :
    ∀ S, ∀ x ∈ withCurvatureCall S es, ∀ c, x.2.2 = some c →
      c ∈ S ∨ HTrigEvent.enter c.gi0 c.gi1 c.gi2 c.depth c.h ∈ es := by
  induction es with
  | nil =>
    intro S x hx
    simp [withCurvatureCall] at hx
  | cons e es ih =>
    intro S x hx c hc
    cases e with
    | enter gi0 gi1 gi2 depth h =>
      simp only [withCurvatureCall] at hx
      rcases ih _ x hx c hc with h1 | h1
      · rcases pushCall_subset _ _ _ h1 with h2 | h2
        · subst h2
          exact Or.inr (List.mem_cons_self _ _)
        · exact Or.inl h2
      · exact Or.inr (List.mem_cons_of_mem _ h1)
    | restrict p h =>
      simp only [withCurvatureCall, List.mem_cons] at hx
      rcases hx with hx | hx
      · subst hx
        simp only at hc
        exact Or.inl (List.mem_of_mem_head? hc)
      · rcases ih _ x hx c hc with h1 | h1
        · exact Or.inl h1
        · exact Or.inr (List.mem_cons_of_mem _ h1)

theorem restrictions_indep (Length : Point3 → ℚ) (face : GeometryFace)
    (gi_uninit gi0 gi1 gi2 : PointGeomInfo) (mparam : MeshingParameters) (h h2 : ℚ) :
    restrictions (RestrictHTrig Length face gi_uninit gi0 gi1 gi2 mparam 0 h2) =
      restrictions (RestrictHTrig Length face gi_uninit gi0 gi1 gi2 mparam 0 h) := by
  have hcb : ∀ gm L, curvatureBlock face mparam gi0 gi1 gi2 gm 0 h2 L =
      curvatureBlock face mparam gi0 gi1 gi2 gm 0 h L := by
    intro gm L
    simp [curvatureBlock]
  rw [RestrictHTrig, RestrictHTrig]
  simp only [hcb]
  split
  · rfl
  · split_ifs <;> simp [restrictions]

/-- C17.  Let `maxh` and `curvaturesafety` be positive and consider a call of
`RestrictHTrig` at depth 0.  Every size restriction `(p, hr)` it submits, by
itself or by a nested call, has a nearest enclosing call `c` whose depth is a
multiple of 3; `c` is a call of this run; the maximum `κ` of the curvatures `c`
sampled at its three corners and its centroid is at least `1e-3`;
`hr = min (maxh, 1 / (κ * curvaturesafety))`; hence `0 < hr ≤ maxh`; `hr` is at
least `1e-4` times the longest edge of `c`; and the size restrictions of the
run do not depend on the argument `h` of the call. -/
theorem RestrictHTrig_restriction_size (Length : Point3 → ℚ) (face : GeometryFace)
    (gi_uninit gi0 gi1 gi2 : PointGeomInfo) (mparam : MeshingParameters) (h : ℚ)
    (hmaxh : 0 < mparam.maxh) (hcs : 0 < mparam.curvaturesafety) :
    (withCurvatureCall [] (RestrictHTrig Length face gi_uninit gi0 gi1 gi2 mparam 0 h)).map
        (fun x => (x.1, x.2.1)) =
      restrictions (RestrictHTrig Length face gi_uninit gi0 gi1 gi2 mparam 0 h) ∧
    (∀ x ∈ withCurvatureCall [] (RestrictHTrig Length face gi_uninit gi0 gi1 gi2 mparam 0 h),
      ∃ c, x.2.2 = some c ∧
        HTrigEvent.enter c.gi0 c.gi1 c.gi2 c.depth c.h ∈
          RestrictHTrig Length face gi_uninit gi0 gi1 gi2 mparam 0 h ∧
        c.depth.tmod 3 = 0 ∧ 1 / 1000 ≤ c.curvature face gi_uninit ∧
        x.2.1 = min mparam.maxh (1 / (c.curvature face gi_uninit * mparam.curvaturesafety)) ∧
        0 < x.2.1 ∧ x.2.1 ≤ mparam.maxh ∧ 1 / 10000 * c.longest Length face ≤ x.2.1) ∧
    (∀ h2, restrictions (RestrictHTrig Length face gi_uninit gi0 gi1 gi2 mparam 0 h2) =
      restrictions (RestrictHTrig Length face gi_uninit gi0 gi1 gi2 mparam 0 h)) := by
  refine ⟨withCurvatureCall_restrictions _ _, ?_,
    fun h2 => restrictions_indep Length face gi_uninit gi0 gi1 gi2 mparam h h2⟩
  intro x hx
  obtain ⟨hgood, -⟩ := withCurvatureCall_run Length face gi_uninit mparam hcs 11
    gi0 gi1 gi2 0 h [] [] (by simp) (by simp) (by simp) (by simp)
  obtain ⟨c, hc, hd, hk, hmin, hlong⟩ := hgood x hx
  have hmem : HTrigEvent.enter c.gi0 c.gi1 c.gi2 c.depth c.h ∈
      RestrictHTrig Length face gi_uninit gi0 gi1 gi2 mparam 0 h := by
    rcases withCurvatureCall_mem _ [] x hx c hc with h1 | h1
    · simp at h1
    · exact h1
  have hpos : 0 < 1 / (c.curvature face gi_uninit * mparam.curvaturesafety) :=
    one_div_pos.2 (mul_pos (by linarith) hcs)
  refine ⟨c, hc, hmem, hd, hk, hmin, ?_, ?_, hlong⟩
  · rw [hmin]
    exact lt_min hmaxh hpos
  · rw [hmin]
    exact min_le_left _ _

/-- Witness of C17: on the face of curvature 1, with `maxh = 1` and
`curvaturesafety = 1`, the call on the triangle with corners at `u = 0, 1/2, 1`
submits its four size restrictions itself, each with the size 1. -/
theorem RestrictHTrig_restriction_size_witness :
    (0 : ℚ) < (exampleParams 1 6).maxh ∧ (0 : ℚ) < (exampleParams 1 6).curvaturesafety ∧
    restrictions (RestrictHTrig axisLength curvedFace ⟨0, 0, 0⟩ ⟨0, 0, 0⟩ ⟨0, 1 / 2, 0⟩
      ⟨0, 1, 0⟩ (exampleParams 1 6) 0 5) =
      [(⟨0, 0, 0⟩, 1), (⟨1 / 2, 0, 0⟩, 1), (⟨1, 0, 0⟩, 1), (⟨1 / 2, 0, 0⟩, 1)] ∧
    ∀ x ∈ withCurvatureCall [] (RestrictHTrig axisLength curvedFace ⟨0, 0, 0⟩ ⟨0, 0, 0⟩
        ⟨0, 1 / 2, 0⟩ ⟨0, 1, 0⟩ (exampleParams 1 6) 0 5),
      0 < x.2.1 ∧ x.2.1 ≤ 1 := by
  have hm : (0 : ℚ) < (exampleParams 1 6).maxh := by norm_num [exampleParams]
  have hc : (0 : ℚ) < (exampleParams 1 6).curvaturesafety := by norm_num [exampleParams]
  have hthm := RestrictHTrig_restriction_size axisLength curvedFace ⟨0, 0, 0⟩ ⟨0, 0, 0⟩
    ⟨0, 1 / 2, 0⟩ ⟨0, 1, 0⟩ (exampleParams 1 6) 5 hm hc
  refine ⟨hm, hc, ?_, ?_⟩
  · have hL : longestEdge axisLength (⟨0, 0, 0⟩ : Point3) ⟨1 / 2, 0, 0⟩ ⟨1, 0, 0⟩ = (1, 1) := by
      have a1 : |(1 / 2 : ℚ)| = 1 / 2 := abs_of_pos (by norm_num)
      simp only [longestEdge, axisLength, Point3.sub_mk]
      norm_num [a1]
    rcases RestrictHTrig_run axisLength curvedFace ⟨0, 0, 0⟩ ⟨0, 0, 0⟩ ⟨0, 1 / 2, 0⟩ ⟨0, 1, 0⟩
      (exampleParams 1 6) 0 5 with ⟨hcb, -⟩ | ⟨h', hcb, -, hrun⟩ | ⟨h', hcb, hlt, -⟩
    · simp only [curvedFace, hL] at hcb
      norm_num [curvatureBlock, exampleParams] at hcb
      cases hcb
    · simp only [curvedFace, hL] at hcb
      norm_num [curvatureBlock, exampleParams] at hcb
      subst hcb
      rw [hrun]
      norm_num [restrictions, curvedFace]
    · simp only [curvedFace, hL] at hcb hlt
      norm_num [curvatureBlock, exampleParams] at hcb
      subst hcb
      norm_num at hlt
  · intro x hx
    obtain ⟨c, -, -, -, -, -, h1, h2, -⟩ := hthm.2.1 x hx
    exact ⟨h1, h2⟩

theorem enterDepths_length_pos (Length : Point3 → ℚ) (face : GeometryFace)
    (gi_uninit gi0 gi1 gi2 : PointGeomInfo) (mparam : MeshingParameters) (depth : Int) (h : ℚ) :
    1 ≤ (enterDepths (RestrictHTrig Length face gi_uninit gi0 gi1 gi2 mparam depth h)).length := by
  rcases RestrictHTrig_calls Length face gi_uninit gi0 gi1 gi2 mparam depth h with hl | hr
  · rw [hl]
    simp
  · obtain ⟨-, a, b, c, a', b', c', h', heq⟩ := hr
    rw [heq]
    simp

theorem enterDepths_length_recursing (Length : Point3 → ℚ) (face : GeometryFace)
    (gi_uninit gi0 gi1 gi2 : PointGeomInfo) (mparam : MeshingParameters) (depth : Int) (h : ℚ)
    (a b c a' b' c' : PointGeomInfo) (d' : Int) (h' : ℚ)
    (heq : RestrictHTrig Length face gi_uninit gi0 gi1 gi2 mparam depth h =
      HTrigEvent.enter gi0 gi1 gi2 depth h ::
        (RestrictHTrig Length face gi_uninit a b c mparam d' h' ++
          RestrictHTrig Length face gi_uninit a' b' c' mparam d' h')) :
    1 < (enterDepths (RestrictHTrig Length face gi_uninit gi0 gi1 gi2 mparam depth h)).length := by
  rw [heq]
  simp only [enterDepths, enterDepths_append, List.length_cons, List.length_append]
  have h1 := enterDepths_length_pos Length face gi_uninit a b c mparam d' h'
  omega

theorem midpoint_comm (gi_uninit a b : PointGeomInfo) :
    ({ gi_uninit with u := 1 / 2 * (a.u + b.u), v := 1 / 2 * (a.v + b.v) } : PointGeomInfo) =
      { gi_uninit with u := 1 / 2 * (b.u + a.u), v := 1 / 2 * (b.v + a.v) } := by
  rw [add_comm a.u b.u, add_comm a.v b.v]

/-- C19.  Let a call of `RestrictHTrig` recurse, that is, let its run contain a
nested call.  Then there are a size `h'`, the value of `h` after the curvature
test (`h' = h` when the depth is not a multiple of 3), and a naming
`(e0, e1, opp)` of the three corners, a rotation of `(gi0, gi1, gi2)`, such
that: the 3D length of the edge `e0 e1`, as the call computes it, is at least
the three lengths the call computes (lines 31-42); with `m` the midpoint of
`e0` and `e1` in the parameter plane, the run is the entry of the call followed
by the runs of the two calls on the triangles `(m, e1, opp)` and `(m, opp, e0)`,
in one order or the other, both at `depth + 1` and with the size `h'`; and the
signed parameter-space area of each of the two triangles is half the signed
area of `(gi0, gi1, gi2)`, with the same sign. -/
theorem RestrictHTrig_bisects_longest_edge (Length : Point3 → ℚ) (face : GeometryFace)
    (gi_uninit gi0 gi1 gi2 : PointGeomInfo) (mparam : MeshingParameters) (depth : Int) (h : ℚ)
    (hrec : 1 <
      (enterDepths (RestrictHTrig Length face gi_uninit gi0 gi1 gi2 mparam depth h)).length) :
    ∃ (h' : ℚ) (e0 e1 opp : PointGeomInfo),
      curvatureBlock face mparam gi0 gi1 gi2
        { gi_uninit with u := (gi0.u + gi1.u + gi2.u) / 3, v := (gi0.v + gi1.v + gi2.v) / 3 }
        depth h
        (longestEdge Length (face.GetPoint gi0) (face.GetPoint gi1) (face.GetPoint gi2)).1 =
        some h' ∧
      (depth.tmod 3 ≠ 0 → h' = h) ∧
      ((e0, e1, opp) = (gi0, gi1, gi2) ∨ (e0, e1, opp) = (gi1, gi2, gi0) ∨
        (e0, e1, opp) = (gi2, gi0, gi1)) ∧
      (∃ l, (l = Length (face.GetPoint e0 - face.GetPoint e1) ∨
          l = Length (face.GetPoint e1 - face.GetPoint e0)) ∧
        l = (longestEdge Length (face.GetPoint gi0) (face.GetPoint gi1) (face.GetPoint gi2)).1 ∧
        Length (face.GetPoint gi0 - face.GetPoint gi1) ≤ l ∧
        Length (face.GetPoint gi0 - face.GetPoint gi2) ≤ l ∧
        Length (face.GetPoint gi1 - face.GetPoint gi2) ≤ l) ∧
      (RestrictHTrig Length face gi_uninit gi0 gi1 gi2 mparam depth h =
          HTrigEvent.enter gi0 gi1 gi2 depth h ::
            (RestrictHTrig Length face gi_uninit
                { gi_uninit with u := 1 / 2 * (e0.u + e1.u), v := 1 / 2 * (e0.v + e1.v) }
                e1 opp mparam (depth + 1) h' ++
              RestrictHTrig Length face gi_uninit
                { gi_uninit with u := 1 / 2 * (e0.u + e1.u), v := 1 / 2 * (e0.v + e1.v) }
                opp e0 mparam (depth + 1) h') ∨
        RestrictHTrig Length face gi_uninit gi0 gi1 gi2 mparam depth h =
          HTrigEvent.enter gi0 gi1 gi2 depth h ::
            (RestrictHTrig Length face gi_uninit
                { gi_uninit with u := 1 / 2 * (e0.u + e1.u), v := 1 / 2 * (e0.v + e1.v) }
                opp e0 mparam (depth + 1) h' ++
              RestrictHTrig Length face gi_uninit
                { gi_uninit with u := 1 / 2 * (e0.u + e1.u), v := 1 / 2 * (e0.v + e1.v) }
                e1 opp mparam (depth + 1) h')) ∧
      paramArea { gi_uninit with u := 1 / 2 * (e0.u + e1.u), v := 1 / 2 * (e0.v + e1.v) } e1 opp =
        paramArea gi0 gi1 gi2 / 2 ∧
      paramArea { gi_uninit with u := 1 / 2 * (e0.u + e1.u), v := 1 / 2 * (e0.v + e1.v) } opp e0 =
        paramArea gi0 gi1 gi2 / 2 := by
  rcases RestrictHTrig_run Length face gi_uninit gi0 gi1 gi2 mparam depth h with
    ⟨-, hrun⟩ | ⟨h', -, -, hrun⟩ | ⟨h', hcb, -, -, hrun⟩
  · rw [hrun] at hrec
    simp [enterDepths] at hrec
  · rw [hrun] at hrec
    simp [enterDepths] at hrec
  · have hinh : depth.tmod 3 ≠ 0 → h' = h := by
      intro hd
      rw [curvatureBlock_inherit _ _ _ _ _ _ _ _ _ hd] at hcb
      exact (Option.some.inj hcb).symm
    rcases longestEdge_cutedge Length (face.GetPoint gi0) (face.GetPoint gi1)
      (face.GetPoint gi2) with hc | hc | hc
    · rcases hrun with ⟨-, heq⟩ | ⟨h1, -⟩ | ⟨h2, -⟩
      · refine ⟨h', gi1, gi2, gi0, hcb, hinh, Or.inr (Or.inl rfl),
          ⟨_, Or.inl rfl, hc.2.1.symm, hc.2.2.1, hc.2.2.2, le_refl _⟩, Or.inl heq, ?_, ?_⟩
        · simp only [paramArea]
          ring
        · simp only [paramArea]
          ring
      · rw [hc.1] at h1
        exact absurd h1 (by norm_num)
      · rw [hc.1] at h2
        exact absurd h2 (by norm_num)
    · rcases hrun with ⟨h0, -⟩ | ⟨-, heq⟩ | ⟨h2, -⟩
      · rw [hc.1] at h0
        exact absurd h0 (by norm_num)
      · refine ⟨h', gi2, gi0, gi1, hcb, hinh, Or.inr (Or.inr rfl),
          ⟨_, Or.inr rfl, hc.2.1.symm, hc.2.2.1, le_refl _, hc.2.2.2⟩, Or.inr ?_, ?_, ?_⟩
        · rw [midpoint_comm gi_uninit gi2 gi0]
          exact heq
        · simp only [paramArea]
          ring
        · simp only [paramArea]
          ring
      · rw [hc.1] at h2
        exact absurd h2 (by norm_num)
    · rcases hrun with ⟨h0, -⟩ | ⟨h1, -⟩ | ⟨-, heq⟩
      · rw [hc.1] at h0
        exact absurd h0 (by norm_num)
      · rw [hc.1] at h1
        exact absurd h1 (by norm_num)
      · refine ⟨h', gi0, gi1, gi2, hcb, hinh, Or.inl rfl,
          ⟨_, Or.inl rfl, hc.2.1.symm, le_refl _, hc.2.2.1, hc.2.2.2⟩, Or.inl heq, ?_, ?_⟩
        · simp only [paramArea]
          ring
        · simp only [paramArea]
          ring

/-- Witness of C19: on the face of curvature 1, with `maxh = 1` and
`curvaturesafety = 1`, the call on the triangle with corners at `u = 0, 1, 2`
derives the size 1, smaller than its longest edge 2, and recurses. -/
theorem RestrictHTrig_bisects_longest_edge_witness :
    1 < (enterDepths (RestrictHTrig axisLength curvedFace ⟨0, 0, 0⟩ ⟨0, 0, 0⟩ ⟨0, 1, 0⟩
      ⟨0, 2, 0⟩ (exampleParams 1 6) 0 5)).length ∧
    ∃ (e0 e1 opp : PointGeomInfo),
      ((e0, e1, opp) = ((⟨0, 0, 0⟩ : PointGeomInfo), (⟨0, 1, 0⟩ : PointGeomInfo),
          (⟨0, 2, 0⟩ : PointGeomInfo)) ∨
        (e0, e1, opp) = (⟨0, 1, 0⟩, ⟨0, 2, 0⟩, ⟨0, 0, 0⟩) ∨
        (e0, e1, opp) = (⟨0, 2, 0⟩, ⟨0, 0, 0⟩, ⟨0, 1, 0⟩)) ∧
      paramArea { (⟨0, 0, 0⟩ : PointGeomInfo) with
          u := 1 / 2 * (e0.u + e1.u), v := 1 / 2 * (e0.v + e1.v) } e1 opp =
        paramArea ⟨0, 0, 0⟩ ⟨0, 1, 0⟩ ⟨0, 2, 0⟩ / 2 := by
  have hL : longestEdge axisLength (⟨0, 0, 0⟩ : Point3) ⟨1, 0, 0⟩ ⟨2, 0, 0⟩ = (2, 1) := by
    simp only [longestEdge, axisLength, Point3.sub_mk]
    norm_num
  have hrec : 1 < (enterDepths (RestrictHTrig axisLength curvedFace ⟨0, 0, 0⟩ ⟨0, 0, 0⟩
      ⟨0, 1, 0⟩ ⟨0, 2, 0⟩ (exampleParams 1 6) 0 5)).length := by
    rcases RestrictHTrig_run axisLength curvedFace ⟨0, 0, 0⟩ ⟨0, 0, 0⟩ ⟨0, 1, 0⟩ ⟨0, 2, 0⟩
      (exampleParams 1 6) 0 5 with ⟨hcb, -⟩ | ⟨h', hcb, hnot, -⟩ | ⟨_, -, -, -, hrun⟩
    · simp only [curvedFace, hL] at hcb
      norm_num [curvatureBlock, exampleParams] at hcb
      cases hcb
    · simp only [curvedFace, hL] at hcb hnot
      norm_num [curvatureBlock, exampleParams] at hcb
      subst hcb
      norm_num at hnot
    · rcases hrun with ⟨-, heq⟩ | ⟨-, heq⟩ | ⟨-, heq⟩
      · exact enterDepths_length_recursing _ _ _ _ _ _ _ _ _ _ _ _ _ _ _ _ _ heq
      · exact enterDepths_length_recursing _ _ _ _ _ _ _ _ _ _ _ _ _ _ _ _ _ heq
      · exact enterDepths_length_recursing _ _ _ _ _ _ _ _ _ _ _ _ _ _ _ _ _ heq
  obtain ⟨-, e0, e1, opp, -, -, hrot, -, -, ha, -⟩ := RestrictHTrig_bisects_longest_edge
    axisLength curvedFace ⟨0, 0, 0⟩ ⟨0, 0, 0⟩ ⟨0, 1, 0⟩ ⟨0, 2, 0⟩ (exampleParams 1 6) 0 5 hrec
  exact ⟨hrec, e0, e1, opp, hrot, ha⟩

end netgen
